import Mathlib

/-!
Sequencer, signature verifier, nonce worker, gift cards, limits and swaps

A shallow embedding of `ocp/worker/sequencer/scheduler.go`
(`contextualScheduler.CanSubmitToBlockchain`),
`ocp/worker/sequencer/action_handler.go`, `ocp/auth/signature.go`,
`ocp/worker/nonce/allocator.go` and `keys.go`, `ocp/common/mint.go`,
`ocp/vm/virtual_account.go`, `ocp/rpc/transaction/gift_card.go` and `limits.go`,
and `ocp/worker/swap/worker.go`, together with the record and state types they
read.  Every call a modelled function makes on a collaborator (handler, store,
configuration, chain client) is appended to a call log, so that statements of
the form "the store is not read" or "the handler is not consulted" are
statements about the returned log.  Stores that are written are passed as an
explicit state; a run-time panic is a result of its own.  The scheduler is
embedded a second time over an explicit store state, with the collaborators
that are handed the data provider returning the store they leave behind.
-/

/-- The gRPC status codes used by the signature verifier (`codes.Internal`,
`codes.Unauthenticated`) and, for contrast, some of the other codes of package
`codes`. -/
inductive codes.Code where
  | Unknown
  | InvalidArgument
  | NotFound
  | PermissionDenied
  | Internal
  | Unauthenticated
deriving DecidableEq, Repr

/-- Go `error` values that the modelled functions can return.
`noFulfillmentHandler t` is the value built by
`errors.Errorf("no fulfillment handler for %d type", t)`,
`ErrSubsidizerRequiresFunding` is the sentinel of package `common`,
`ErrInvalidActionStateTransition` the sentinel of package `sequencer`,
`unexpectedFulfillmentType` the value `errors.New("unexpected fulfillment type")`,
`ErrInvalidNonceLimitExceeded` the sentinel of the nonce worker, `Canceled` is
`context.Canceled`, `status c msg` is `status.Error(c, msg)`,
`ErrNoAvailableKeys`, `ErrAccountInfoNotFound`, `ErrActionNotFound` and
`ErrSignatureNotFound` are the sentinels of the nonce worker, of packages
`account` and `action` and of package `solana`, `message msg` is
`errors.New(msg)`, `wrap e msg` is `errors.Wrap(e, msg)`, and `other n` stands
for any error produced by a collaborator. -/
inductive Error where
  | noFulfillmentHandler (t : Nat)
  | ErrSubsidizerRequiresFunding
  | other (code : Nat)
  | ErrInvalidActionStateTransition
  | unexpectedFulfillmentType
  | ErrInvalidNonceLimitExceeded
  | Canceled
  | status (code : codes.Code) (msg : String)
  | ErrNoAvailableKeys
  | ErrAccountInfoNotFound
  | ErrActionNotFound
  | ErrSignatureNotFound
  | message (msg : String)
  | wrap (inner : Error) (msg : String)
deriving DecidableEq, Repr

namespace action

/-- Modelled from the spec: the declaration of `action.State` is not part of the
sources; the spec lists the states of an action as
Unknown, Pending, Confirmed, Failed and Revoked. -/
inductive State where
  | StateUnknown
  | StatePending
  | StateConfirmed
  | StateFailed
  | StateRevoked
deriving DecidableEq, Repr

export State (StateUnknown StatePending StateConfirmed StateFailed StateRevoked)

/-- The fields of `action.Record` used by the sequencer. -/
structure Record where
  Intent : String
  ActionId : Nat
  State : State
deriving DecidableEq, Repr

end action

namespace fulfillment

/-- Modelled from the spec: the declaration of `fulfillment.State` is not part
of the sources; the spec lists the states of a fulfillment as
Unknown, Pending, Confirmed, Failed and Revoked. -/
inductive State where
  | StateUnknown
  | StatePending
  | StateConfirmed
  | StateFailed
  | StateRevoked
deriving DecidableEq, Repr

export State (StateUnknown StatePending StateConfirmed StateFailed StateRevoked)

/-- Modelled from the spec: `State.IsTerminal` is declared outside the sources;
the spec gives "terminal = {Confirmed, Failed, Revoked}". -/
def State.IsTerminal : State → Bool
  | State.StateConfirmed => true
  | State.StateFailed => true
  | State.StateRevoked => true
  | State.StateUnknown => false
  | State.StatePending => false

/-- The fields of `fulfillment.Record` read by the scheduler.  `FulfillmentType`
is the numeric `fulfillment.Type`; `Destination` and `Signature` are the
nullable `*string` fields. -/
structure Record where
  Intent : String
  ActionId : Nat
  FulfillmentType : Nat
  Source : String
  Destination : Option String
  Signature : Option String
  State : State
deriving DecidableEq, Repr

end fulfillment

namespace ocp_data

/-- The read operations of `ocp_data.Provider` used by the scheduler.  Each
returns the Go pair `(value, error)` as an `Except`. -/
structure Provider where
  GetActionById : String → Nat → Except Error action.Record
  GetFulfillmentCountByStateAndAddress : fulfillment.State → String → Except Error Nat
  GetFulfillmentCountByIntentAndState : String → fulfillment.State → Except Error Nat
  GetFulfillmentCountByState : fulfillment.State → Except Error Nat

end ocp_data

namespace sequencer

/-- The two methods of the `FulfillmentHandler` interface that the scheduler
calls.  `CanSubmitToBlockchain` returns the Go pair `(scheduled, err)`. -/
structure FulfillmentHandler where
  CanSubmitToBlockchain : fulfillment.Record → Bool × Option Error
  SupportsOnDemandTransactions : Bool

/-- The configuration values read by the scheduler (each through `.Get(ctx)`). -/
structure conf where
  disableTransactionScheduling : Bool
  maxGlobalFailedFulfillments : Nat

/-- The struct `contextualScheduler` (without its logger).  `handlersByType` is
the Go map from `fulfillment.Type` to handler: `none` is a missing key. -/
structure contextualScheduler where
  data : ocp_data.Provider
  conf : conf
  handlersByType : Nat → Option FulfillmentHandler
  includeSubsidizerChecks : Bool

/-- One entry of the call log of package `sequencer`: a call made by
`CanSubmitToBlockchain` or by an action handler on a collaborator.
`UpdateAction record` is the store write issued by the action handlers. -/
inductive Call where
  | SupportsOnDemandTransactions (t : Nat)
  | GetActionById (intent : String) (actionId : Nat)
  | disableTransactionSchedulingGet
  | GetFulfillmentCountByStateAndAddress (state : fulfillment.State) (account : String)
  | GetFulfillmentCountByIntentAndState (intent : String) (state : fulfillment.State)
  | GetFulfillmentCountByState (state : fulfillment.State)
  | maxGlobalFailedFulfillmentsGet
  | handlerCanSubmitToBlockchain (t : Nat)
  | EnforceMinimumSubsidizerBalance
  | UpdateAction (record : action.Record)
deriving DecidableEq, Repr

/-- Calls that write to the persistent store. -/
def Call.isStoreWrite : Call → Bool
  | Call.UpdateAction _ => true
  | _ => false

/-- Calls that read the persistent store directly. -/
def Call.isStoreRead : Call → Bool
  | Call.GetActionById _ _ => true
  | Call.GetFulfillmentCountByStateAndAddress _ _ => true
  | Call.GetFulfillmentCountByIntentAndState _ _ => true
  | Call.GetFulfillmentCountByState _ => true
  | _ => false

/-- Calls that may reach the store: the direct reads, and the two collaborators
that are handed the data provider (the handler's scheduling check and the
subsidizer balance check). -/
def Call.mayAccessStore : Call → Bool
  | Call.handlerCanSubmitToBlockchain _ => true
  | Call.EnforceMinimumSubsidizerBalance => true
  | Call.UpdateAction _ => true
  | c => c.isStoreRead

/-- Calls that query a circuit-breaker failure count. -/
def Call.isFailureCount : Call → Bool
  | Call.GetFulfillmentCountByStateAndAddress _ _ => true
  | Call.GetFulfillmentCountByIntentAndState _ _ => true
  | Call.GetFulfillmentCountByState _ => true
  | _ => false

/-- The call is the type-specific handler's scheduling check. -/
def Call.isHandlerCheck : Call → Bool
  | Call.handlerCanSubmitToBlockchain _ => true
  | _ => false

/-- What one invocation of `CanSubmitToBlockchain` yields: the Go return pair
`(ok, err)` and the log of calls made, in order. -/
structure Outcome where
  ok : Bool
  err : Option Error
  calls : List Call
deriving DecidableEq, Repr

/-- The test `fulfillmentRecord.Signature == nil || len(*fulfillmentRecord.Signature) == 0`. -/
def signatureMissing (sig : Option String) : Bool :=
  match sig with
  | none => true
  | some s => s.utf8ByteSize == 0

/-- The slice `involvedAccounts`: the source, followed by the destination when
it is not nil. -/
def involvedAccounts (r : fulfillment.Record) : List String :=
  match r.Destination with
  | none => [r.Source]
  | some d => [r.Source] ++ [d]

/-- The account-level circuit breaker loop
`for _, account := range involvedAccounts`.  `some (ok, err)` is an early
return of the enclosing function, `none` means the loop ran to its end; the
second component is the extended call log. -/
def accountCircuitBreaker (data : ocp_data.Provider) :
    List String → List Call → Option (Bool × Option Error) × List Call
  | [], log => (none, log)
  | account :: rest, log =>
    let log1 := log ++ [Call.GetFulfillmentCountByStateAndAddress fulfillment.StateFailed account]
    match data.GetFulfillmentCountByStateAndAddress fulfillment.StateFailed account with
    | Except.error e => (some (false, some e), log1)
    | Except.ok numFailedFulfillments =>
      if numFailedFulfillments > 0 then (some (false, none), log1)
      else accountCircuitBreaker data rest log1

/-- Part 5 of `CanSubmitToBlockchain`: the subsidizer check and the final
`return true, nil`.  `enforce` is `common.EnforceMinimumSubsidizerBalance`,
which is declared outside the sources and is taken as a parameter. -/
def subsidizerChecks (enforce : ocp_data.Provider → Option Error)
    (s : contextualScheduler) (log : List Call) : Outcome :=
  if s.includeSubsidizerChecks then
    let log1 := log ++ [Call.EnforceMinimumSubsidizerBalance]
    match enforce s.data with
    | some e =>
      if e = Error.ErrSubsidizerRequiresFunding then ⟨false, none, log1⟩
      else ⟨false, some e, log1⟩
    | none => ⟨true, none, log1⟩
  else ⟨true, none, log⟩

/-- Part 4 of `CanSubmitToBlockchain`: the handler's contextual check, followed
by part 5. -/
def contextualScheduling (enforce : ocp_data.Provider → Option Error)
    (s : contextualScheduler) (handler : FulfillmentHandler)
    (fulfillmentRecord : fulfillment.Record) (log : List Call) : Outcome :=
  let log1 := log ++ [Call.handlerCanSubmitToBlockchain fulfillmentRecord.FulfillmentType]
  match handler.CanSubmitToBlockchain fulfillmentRecord with
  | (_, some e) => ⟨false, some e, log1⟩
  | (isScheduled, none) =>
    if !isScheduled then ⟨false, none, log1⟩
    else subsidizerChecks enforce s log1

/-- Part 3 of `CanSubmitToBlockchain`: the manual switch and the account,
intent and global circuit breakers, followed by parts 4 and 5. -/
def circuitBreakers (enforce : ocp_data.Provider → Option Error)
    (s : contextualScheduler) (handler : FulfillmentHandler)
    (fulfillmentRecord : fulfillment.Record) (log : List Call) : Outcome :=
  let log1 := log ++ [Call.disableTransactionSchedulingGet]
  if s.conf.disableTransactionScheduling then ⟨false, none, log1⟩
  else
    match accountCircuitBreaker s.data (involvedAccounts fulfillmentRecord) log1 with
    | (some (ok, err), log2) => ⟨ok, err, log2⟩
    | (none, log2) =>
      let log3 := log2 ++
        [Call.GetFulfillmentCountByIntentAndState fulfillmentRecord.Intent fulfillment.StateFailed]
      match s.data.GetFulfillmentCountByIntentAndState fulfillmentRecord.Intent
          fulfillment.StateFailed with
      | Except.error e => ⟨false, some e, log3⟩
      | Except.ok numFailedForIntent =>
        if numFailedForIntent > 0 then ⟨false, none, log3⟩
        else
          let log4 := log3 ++ [Call.GetFulfillmentCountByState fulfillment.StateFailed]
          match s.data.GetFulfillmentCountByState fulfillment.StateFailed with
          | Except.error e => ⟨false, some e, log4⟩
          | Except.ok numFailedFulfillments =>
            let log5 := log4 ++ [Call.maxGlobalFailedFulfillmentsGet]
            if numFailedFulfillments > s.conf.maxGlobalFailedFulfillments then
              ⟨false, none, log5⟩
            else contextualScheduling enforce s handler fulfillmentRecord log5

/-- The method `contextualScheduler.CanSubmitToBlockchain`. -/
def CanSubmitToBlockchain (enforce : ocp_data.Provider → Option Error)
    (s : contextualScheduler) (fulfillmentRecord : fulfillment.Record) : Outcome :=
  match s.handlersByType fulfillmentRecord.FulfillmentType with
  | none =>
    ⟨false, some (Error.noFulfillmentHandler fulfillmentRecord.FulfillmentType), []⟩
  | some handler =>
    let log1 := [Call.SupportsOnDemandTransactions fulfillmentRecord.FulfillmentType]
    -- Part 1: fulfillment state precondition checks
    if !handler.SupportsOnDemandTransactions && signatureMissing fulfillmentRecord.Signature then
      ⟨false, none, log1⟩
    else if fulfillmentRecord.State.IsTerminal then ⟨false, none, log1⟩
    else if fulfillmentRecord.State = fulfillment.StatePending then ⟨true, none, log1⟩
    else
      -- Part 2: action state precondition checks
      let log2 := log1 ++ [Call.GetActionById fulfillmentRecord.Intent fulfillmentRecord.ActionId]
      match s.data.GetActionById fulfillmentRecord.Intent fulfillmentRecord.ActionId with
      | Except.error e => ⟨false, some e, log2⟩
      | Except.ok actionRecord =>
        match actionRecord.State with
        | action.State.StateUnknown => ⟨false, none, log2⟩
        | action.State.StateRevoked => ⟨false, none, log2⟩
        | action.State.StateFailed => ⟨false, none, log2⟩
        | _ => circuitBreakers enforce s handler fulfillmentRecord log2

/-! ## Action handlers (`ocp/worker/sequencer/action_handler.go`) -/

/-- The numeric values of the `fulfillment.Type` constants named by the action
handlers.  The constants are declared outside the sources and are taken as a
parameter. -/
structure FulfillmentTypes where
  InitializeLockedTimelockAccount : Nat
  CloseEmptyTimelockAccount : Nat
  NoPrivacyTransferWithAuthority : Nat
  NoPrivacyWithdraw : Nat

/-- The two action operations of `ocp_data.Provider` used by the action
handlers, over an explicit store state `σ`.  `GetActionById` returns the Go pair
`(record, err)`; `UpdateAction` returns its error together with the store state
it leaves behind. -/
structure ActionData (σ : Type) where
  GetActionById : σ → String → Nat → Except Error action.Record
  UpdateAction : σ → action.Record → Option Error × σ

/-- The store laws that idempotence relies on: a lookup returns a record with
the key that was asked for, and after a successful `UpdateAction` the next
lookup of the same key finds a record in the state that was written. -/
structure ActionData.Lawful {σ : Type} (data : ActionData σ) : Prop where
  key : ∀ st intent actionId record,
    data.GetActionById st intent actionId = Except.ok record →
      record.Intent = intent ∧ record.ActionId = actionId
  readYourWrite : ∀ st record st2,
    data.UpdateAction st record = (none, st2) →
      ∃ stored, data.GetActionById st2 record.Intent record.ActionId = Except.ok stored ∧
        stored.State = record.State

/-- What one invocation of an action handler yields: the returned error, the
store state afterwards, and the log of calls made on the data provider. -/
structure ActionOutcome (σ : Type) where
  err : Option Error
  store : σ
  calls : List Call

/-- The function `validateActionState(record, states...)`. -/
def validateActionState (record : action.Record) : List action.State → Option Error
  | [] => some Error.ErrInvalidActionStateTransition
  | validState :: rest =>
    if record.State = validState then none else validateActionState record rest

/-- The function `markActionConfirmed`. -/
def markActionConfirmed {σ : Type} (data : ActionData σ) (st : σ) (intentId : String)
    (actionId : Nat) : ActionOutcome σ :=
  let log1 := [Call.GetActionById intentId actionId]
  match data.GetActionById st intentId actionId with
  | Except.error e => ⟨some e, st, log1⟩
  | Except.ok record =>
    if record.State = action.StateConfirmed then ⟨none, st, log1⟩
    else
      match validateActionState record [action.StatePending] with
      | some e => ⟨some e, st, log1⟩
      | none =>
        let updated : action.Record := { record with State := action.StateConfirmed }
        let res := data.UpdateAction st updated
        ⟨res.1, res.2, log1 ++ [Call.UpdateAction updated]⟩

/-- The function `markActionFailed`. -/
def markActionFailed {σ : Type} (data : ActionData σ) (st : σ) (intentId : String)
    (actionId : Nat) : ActionOutcome σ :=
  let log1 := [Call.GetActionById intentId actionId]
  match data.GetActionById st intentId actionId with
  | Except.error e => ⟨some e, st, log1⟩
  | Except.ok record =>
    if record.State = action.StateFailed then ⟨none, st, log1⟩
    else
      match validateActionState record [action.StatePending] with
      | some e => ⟨some e, st, log1⟩
      | none =>
        let updated : action.Record := { record with State := action.StateFailed }
        let res := data.UpdateAction st updated
        ⟨res.1, res.2, log1 ++ [Call.UpdateAction updated]⟩

/-- The method `OpenAccountActionHandler.OnFulfillmentStateChange`. -/
def OpenAccountActionHandler.OnFulfillmentStateChange {σ : Type} (types : FulfillmentTypes)
    (data : ActionData σ) (st : σ) (fulfillmentRecord : fulfillment.Record)
    (newState : fulfillment.State) : ActionOutcome σ :=
  if fulfillmentRecord.FulfillmentType ≠ types.InitializeLockedTimelockAccount then
    ⟨some Error.unexpectedFulfillmentType, st, []⟩
  else if newState = fulfillment.StateConfirmed then
    markActionConfirmed data st fulfillmentRecord.Intent fulfillmentRecord.ActionId
  else if newState = fulfillment.StateFailed then
    markActionFailed data st fulfillmentRecord.Intent fulfillmentRecord.ActionId
  else ⟨none, st, []⟩

/-- The method `CloseEmptyAccountActionHandler.OnFulfillmentStateChange`. -/
def CloseEmptyAccountActionHandler.OnFulfillmentStateChange {σ : Type}
    (types : FulfillmentTypes) (data : ActionData σ) (st : σ)
    (fulfillmentRecord : fulfillment.Record) (newState : fulfillment.State) :
    ActionOutcome σ :=
  if fulfillmentRecord.FulfillmentType ≠ types.CloseEmptyTimelockAccount then
    ⟨some Error.unexpectedFulfillmentType, st, []⟩
  else if newState = fulfillment.StateConfirmed then
    markActionConfirmed data st fulfillmentRecord.Intent fulfillmentRecord.ActionId
  else if newState = fulfillment.StateFailed then
    markActionFailed data st fulfillmentRecord.Intent fulfillmentRecord.ActionId
  else ⟨none, st, []⟩

/-- The method `NoPrivacyTransferActionHandler.OnFulfillmentStateChange`. -/
def NoPrivacyTransferActionHandler.OnFulfillmentStateChange {σ : Type}
    (types : FulfillmentTypes) (data : ActionData σ) (st : σ)
    (fulfillmentRecord : fulfillment.Record) (newState : fulfillment.State) :
    ActionOutcome σ :=
  if fulfillmentRecord.FulfillmentType ≠ types.NoPrivacyTransferWithAuthority then
    ⟨some Error.unexpectedFulfillmentType, st, []⟩
  else if newState = fulfillment.StateConfirmed then
    markActionConfirmed data st fulfillmentRecord.Intent fulfillmentRecord.ActionId
  else if newState = fulfillment.StateFailed then
    markActionFailed data st fulfillmentRecord.Intent fulfillmentRecord.ActionId
  else ⟨none, st, []⟩

/-- The method `NoPrivacyWithdrawActionHandler.OnFulfillmentStateChange`. -/
def NoPrivacyWithdrawActionHandler.OnFulfillmentStateChange {σ : Type}
    (types : FulfillmentTypes) (data : ActionData σ) (st : σ)
    (fulfillmentRecord : fulfillment.Record) (newState : fulfillment.State) :
    ActionOutcome σ :=
  if fulfillmentRecord.FulfillmentType ≠ types.NoPrivacyWithdraw then
    ⟨some Error.unexpectedFulfillmentType, st, []⟩
  else if newState = fulfillment.StateConfirmed then
    markActionConfirmed data st fulfillmentRecord.Intent fulfillmentRecord.ActionId
  else if newState = fulfillment.StateFailed then
    markActionFailed data st fulfillmentRecord.Intent fulfillmentRecord.ActionId
  else ⟨none, st, []⟩

/-- The four implementations of the interface `ActionHandler` registered by
`getActionHandlers`. -/
inductive ActionHandler where
  | OpenAccountActionHandler
  | CloseEmptyAccountActionHandler
  | NoPrivacyTransferActionHandler
  | NoPrivacyWithdrawActionHandler
deriving DecidableEq, Repr

/-- The fulfillment type each action handler expects. -/
def ActionHandler.expectedType (types : FulfillmentTypes) : ActionHandler → Nat
  | ActionHandler.OpenAccountActionHandler => types.InitializeLockedTimelockAccount
  | ActionHandler.CloseEmptyAccountActionHandler => types.CloseEmptyTimelockAccount
  | ActionHandler.NoPrivacyTransferActionHandler => types.NoPrivacyTransferWithAuthority
  | ActionHandler.NoPrivacyWithdrawActionHandler => types.NoPrivacyWithdraw

/-- Interface dispatch of `ActionHandler.OnFulfillmentStateChange`. -/
def ActionHandler.OnFulfillmentStateChange {σ : Type} (h : ActionHandler)
    (types : FulfillmentTypes) (data : ActionData σ) (st : σ)
    (fulfillmentRecord : fulfillment.Record) (newState : fulfillment.State) :
    ActionOutcome σ :=
  match h with
  | ActionHandler.OpenAccountActionHandler =>
    OpenAccountActionHandler.OnFulfillmentStateChange types data st fulfillmentRecord newState
  | ActionHandler.CloseEmptyAccountActionHandler =>
    CloseEmptyAccountActionHandler.OnFulfillmentStateChange types data st fulfillmentRecord
      newState
  | ActionHandler.NoPrivacyTransferActionHandler =>
    NoPrivacyTransferActionHandler.OnFulfillmentStateChange types data st fulfillmentRecord
      newState
  | ActionHandler.NoPrivacyWithdrawActionHandler =>
    NoPrivacyWithdrawActionHandler.OnFulfillmentStateChange types data st fulfillmentRecord
      newState

/-- The outcome contains an `UpdateAction` write that stores the action in
state Confirmed. -/
def ActionOutcome.setsActionConfirmed {σ : Type} (out : ActionOutcome σ) : Bool :=
  out.calls.any (fun c =>
    match c with
    | Call.UpdateAction record => decide (record.State = action.StateConfirmed)
    | _ => false)

/-- The spec's condition "every fulfillment of A is Confirmed" for the action of
`f`: every fulfillment in the table `stored` that belongs to the action of `f`
is Confirmed, where `f` itself is taken in its new state. -/
def allFulfillmentsConfirmed (stored : List fulfillment.Record) (f : fulfillment.Record)
    (newState : fulfillment.State) : Bool :=
  (stored.filter (fun g => decide (g.Intent = f.Intent ∧ g.ActionId = f.ActionId))).all
    (fun g => decide ((if g = f then newState else g.State) = fulfillment.StateConfirmed))

/-- An in-memory action table: lookup by `(intent, actionId)`, failing with a
not-found error when no record has that key. -/
def memoryGetActionById (st : List action.Record) (intent : String) (actionId : Nat) :
    Except Error action.Record :=
  match st.find? (fun r => decide (r.Intent = intent ∧ r.ActionId = actionId)) with
  | some r => Except.ok r
  | none => Except.error (Error.other 404)

/-- An in-memory action table: replace the record stored under the key of
`record`, failing with a not-found error when there is none. -/
def memoryUpdateAction (st : List action.Record) (record : action.Record) :
    Option Error × List action.Record :=
  if st.any (fun r => decide (r.Intent = record.Intent ∧ r.ActionId = record.ActionId)) then
    (none, st.map (fun r =>
      if r.Intent = record.Intent ∧ r.ActionId = record.ActionId then record else r))
  else (some (Error.other 404), st)

/-- The in-memory action table as an `ActionData`. -/
def memoryActionData : ActionData (List action.Record) where
  GetActionById := memoryGetActionById
  UpdateAction := memoryUpdateAction

/-- Fulfillment type constants used in the concrete instances. -/
def demoTypes : FulfillmentTypes where
  InitializeLockedTimelockAccount := 1
  CloseEmptyTimelockAccount := 2
  NoPrivacyTransferWithAuthority := 3
  NoPrivacyWithdraw := 4

/-- An action table holding the action of `okRecord` in the given state. -/
def demoActions (st : action.State) : List action.Record :=
  [⟨"intent", 0, st⟩, ⟨"intent", 1, action.StatePending⟩]

/-! ## Concrete schedulers, stores and records -/

/-- A store in which the parent action is Pending and no fulfillment is Failed. -/
def okProvider : ocp_data.Provider where
  GetActionById := fun intent actionId => Except.ok ⟨intent, actionId, action.StatePending⟩
  GetFulfillmentCountByStateAndAddress := fun _ _ => Except.ok 0
  GetFulfillmentCountByIntentAndState := fun _ _ => Except.ok 0
  GetFulfillmentCountByState := fun _ => Except.ok 0

/-- A handler for pre-signed transactions that always schedules. -/
def signedHandler : FulfillmentHandler where
  CanSubmitToBlockchain := fun _ => (true, none)
  SupportsOnDemandTransactions := false

/-- A scheduler with one handler (for fulfillment type 1), scheduling enabled,
a global threshold of 5 and subsidizer checks enabled. -/
def okScheduler : contextualScheduler where
  data := okProvider
  conf := ⟨false, 5⟩
  handlersByType := fun t => if t = 1 then some signedHandler else none
  includeSubsidizerChecks := true

/-- A signed fulfillment of type 1 in state Unknown from account A to account B. -/
def okRecord : fulfillment.Record where
  Intent := "intent"
  ActionId := 0
  FulfillmentType := 1
  Source := "A"
  Destination := some "B"
  Signature := some "sig"
  State := fulfillment.StateUnknown

/-- A subsidizer check that finds enough balance. -/
def okEnforce : ocp_data.Provider → Option Error := fun _ => none

/-- The store of `okProvider` with one Failed fulfillment on account A. -/
def failedAccountScheduler : contextualScheduler :=
  { okScheduler with
    data := { okProvider with
      GetFulfillmentCountByStateAndAddress := fun _ account =>
        Except.ok (if account = "A" then 1 else 0) } }

/-- The store of `okProvider` with one Failed fulfillment in the intent. -/
def failedIntentScheduler : contextualScheduler :=
  { okScheduler with
    data := { okProvider with
      GetFulfillmentCountByIntentAndState := fun _ _ => Except.ok 1 } }

/-- The scheduler of `okScheduler` with the manual switch set. -/
def disabledScheduler : contextualScheduler :=
  { okScheduler with conf := ⟨true, 5⟩ }

/-- The record of `okRecord`, already in state Pending. -/
def pendingRecord : fulfillment.Record :=
  { okRecord with State := fulfillment.StatePending }

/-- The record of `okRecord` in state Pending with a nil Signature. -/
def pendingUnsignedRecord : fulfillment.Record :=
  { okRecord with State := fulfillment.StatePending, Signature := none }

/-- The record of `okRecord` in the terminal state Confirmed. -/
def confirmedRecord : fulfillment.Record :=
  { okRecord with State := fulfillment.StateConfirmed }

/-- The record of `okRecord` with a fulfillment type that has no handler. -/
def unregisteredRecord : fulfillment.Record :=
  { okRecord with FulfillmentType := 2 }

/-- The scheduler of `okScheduler` over a store whose actions are all in the
given state. -/
def actionStateScheduler (st : action.State) : contextualScheduler :=
  { okScheduler with
    data := { okProvider with
      GetActionById := fun intent actionId => Except.ok ⟨intent, actionId, st⟩ } }

/-- The scheduler of `okScheduler` (threshold 5) over a store whose global
count of Failed fulfillments is the given number. -/
def globalFailedScheduler (numFailed : Nat) : contextualScheduler :=
  { okScheduler with
    data := { okProvider with GetFulfillmentCountByState := fun _ => Except.ok numFailed } }

/-- A fulfillment of another action of the same intent. -/
def otherActionRecord : fulfillment.Record :=
  { okRecord with ActionId := 1, FulfillmentType := 3 }

/-- A second fulfillment of the action of `okRecord`, still in state Unknown. -/
def siblingRecord : fulfillment.Record :=
  { okRecord with Source := "C", Destination := none }

/-! ### The scheduler over an explicit store state

The handlers are built by `getFulfillmentHandlers(data, indexerClient)` and
`common.EnforceMinimumSubsidizerBalance(ctx, s.data)` is handed the data
provider, so both may reach the store.  Here the store state is explicit: the
four queries of the provider read it, and the two collaborators return the
store state they leave behind. -/

/-- The interface `FulfillmentHandler` over an explicit store state `σ`:
`CanSubmitToBlockchain` is given the store state and returns the Go pair
`(scheduled, err)` together with the store state it leaves behind. -/
structure StoreHandler (σ : Type) where
  CanSubmitToBlockchain : σ → fulfillment.Record → (Bool × Option Error) × σ
  SupportsOnDemandTransactions : Bool

/-- The struct `contextualScheduler` over an explicit store state `σ`:
`data st` are the queries of the data provider answered in store state `st`. -/
structure storeScheduler (σ : Type) where
  data : σ → ocp_data.Provider
  conf : conf
  handlersByType : Nat → Option (StoreHandler σ)
  includeSubsidizerChecks : Bool

/-- Part 5 of `CanSubmitToBlockchain` over the store state `st`.  `enforce` is
`common.EnforceMinimumSubsidizerBalance`, which is declared outside the sources
and is taken as a parameter: it returns its error together with the store state
it leaves behind. -/
def storeScheduler.subsidizerChecks {σ : Type} (enforce : σ → Option Error × σ)
    (s : storeScheduler σ) (st : σ) (log : List Call) : Outcome × σ :=
  if s.includeSubsidizerChecks then
    let log1 := log ++ [Call.EnforceMinimumSubsidizerBalance]
    let res := enforce st
    match res.1 with
    | some e =>
      if e = Error.ErrSubsidizerRequiresFunding then (⟨false, none, log1⟩, res.2)
      else (⟨false, some e, log1⟩, res.2)
    | none => (⟨true, none, log1⟩, res.2)
  else (⟨true, none, log⟩, st)

/-- Part 4 of `CanSubmitToBlockchain` over the store state `st`, followed by
part 5 on the store state the handler leaves behind. -/
def storeScheduler.contextualScheduling {σ : Type} (enforce : σ → Option Error × σ)
    (s : storeScheduler σ) (handler : StoreHandler σ) (st : σ)
    (fulfillmentRecord : fulfillment.Record) (log : List Call) : Outcome × σ :=
  let log1 := log ++ [Call.handlerCanSubmitToBlockchain fulfillmentRecord.FulfillmentType]
  let res := handler.CanSubmitToBlockchain st fulfillmentRecord
  match res.1 with
  | (_, some e) => (⟨false, some e, log1⟩, res.2)
  | (isScheduled, none) =>
    if !isScheduled then (⟨false, none, log1⟩, res.2)
    else s.subsidizerChecks enforce res.2 log1

/-- Part 3 of `CanSubmitToBlockchain` over the store state `st`, followed by
parts 4 and 5. -/
def storeScheduler.circuitBreakers {σ : Type} (enforce : σ → Option Error × σ)
    (s : storeScheduler σ) (handler : StoreHandler σ) (st : σ)
    (fulfillmentRecord : fulfillment.Record) (log : List Call) : Outcome × σ :=
  let log1 := log ++ [Call.disableTransactionSchedulingGet]
  if s.conf.disableTransactionScheduling then (⟨false, none, log1⟩, st)
  else
    match accountCircuitBreaker (s.data st) (involvedAccounts fulfillmentRecord) log1 with
    | (some (ok, err), log2) => (⟨ok, err, log2⟩, st)
    | (none, log2) =>
      let log3 := log2 ++
        [Call.GetFulfillmentCountByIntentAndState fulfillmentRecord.Intent fulfillment.StateFailed]
      match (s.data st).GetFulfillmentCountByIntentAndState fulfillmentRecord.Intent
          fulfillment.StateFailed with
      | Except.error e => (⟨false, some e, log3⟩, st)
      | Except.ok numFailedForIntent =>
        if numFailedForIntent > 0 then (⟨false, none, log3⟩, st)
        else
          let log4 := log3 ++ [Call.GetFulfillmentCountByState fulfillment.StateFailed]
          match (s.data st).GetFulfillmentCountByState fulfillment.StateFailed with
          | Except.error e => (⟨false, some e, log4⟩, st)
          | Except.ok numFailedFulfillments =>
            let log5 := log4 ++ [Call.maxGlobalFailedFulfillmentsGet]
            if numFailedFulfillments > s.conf.maxGlobalFailedFulfillments then
              (⟨false, none, log5⟩, st)
            else s.contextualScheduling enforce handler st fulfillmentRecord log5

/-- The method `contextualScheduler.CanSubmitToBlockchain` over the store state
`st`: the outcome of the call and the store state after it. -/
def storeScheduler.CanSubmitToBlockchain {σ : Type} (enforce : σ → Option Error × σ)
    (s : storeScheduler σ) (st : σ) (fulfillmentRecord : fulfillment.Record) : Outcome × σ :=
  match s.handlersByType fulfillmentRecord.FulfillmentType with
  | none =>
    (⟨false, some (Error.noFulfillmentHandler fulfillmentRecord.FulfillmentType), []⟩, st)
  | some handler =>
    let log1 := [Call.SupportsOnDemandTransactions fulfillmentRecord.FulfillmentType]
    -- Part 1: fulfillment state precondition checks
    if !handler.SupportsOnDemandTransactions && signatureMissing fulfillmentRecord.Signature then
      (⟨false, none, log1⟩, st)
    else if fulfillmentRecord.State.IsTerminal then (⟨false, none, log1⟩, st)
    else if fulfillmentRecord.State = fulfillment.StatePending then (⟨true, none, log1⟩, st)
    else
      -- Part 2: action state precondition checks
      let log2 := log1 ++ [Call.GetActionById fulfillmentRecord.Intent fulfillmentRecord.ActionId]
      match (s.data st).GetActionById fulfillmentRecord.Intent fulfillmentRecord.ActionId with
      | Except.error e => (⟨false, some e, log2⟩, st)
      | Except.ok actionRecord =>
        match actionRecord.State with
        | action.State.StateUnknown => (⟨false, none, log2⟩, st)
        | action.State.StateRevoked => (⟨false, none, log2⟩, st)
        | action.State.StateFailed => (⟨false, none, log2⟩, st)
        | _ => s.circuitBreakers enforce handler st fulfillmentRecord log2

/-- The answers a handler gives in store state `st`, as a `FulfillmentHandler`. -/
def StoreHandler.answers {σ : Type} (h : StoreHandler σ) (st : σ) : FulfillmentHandler where
  CanSubmitToBlockchain := fun r => (h.CanSubmitToBlockchain st r).1
  SupportsOnDemandTransactions := h.SupportsOnDemandTransactions

/-- The scheduler as it answers in store state `st`. -/
def storeScheduler.snapshot {σ : Type} (s : storeScheduler σ) (st : σ) : contextualScheduler where
  data := s.data st
  conf := s.conf
  handlersByType := fun t => (s.handlersByType t).map (fun h => h.answers st)
  includeSubsidizerChecks := s.includeSubsidizerChecks

/-- The store state the handler registered for the record leaves behind when
its scheduling check is run in store state `st`. -/
def storeScheduler.storeAfterHandler {σ : Type} (s : storeScheduler σ) (st : σ)
    (r : fulfillment.Record) : σ :=
  match s.handlersByType r.FulfillmentType with
  | some h => (h.CanSubmitToBlockchain st r).2
  | none => st

/-- A store that holds only the global number of Failed fulfillments; every
other query answers as `okProvider`. -/
def counterProvider (numFailed : Nat) : ocp_data.Provider :=
  { okProvider with GetFulfillmentCountByState := fun _ => Except.ok numFailed }

/-- A handler for pre-signed transactions that always schedules and leaves the
store as it found it. -/
def readingHandler : StoreHandler Nat where
  CanSubmitToBlockchain := fun st _ => ((true, none), st)
  SupportsOnDemandTransactions := false

/-- A handler for pre-signed transactions that always schedules and records one
more Failed fulfillment in the store. -/
def writingHandler : StoreHandler Nat where
  CanSubmitToBlockchain := fun st _ => ((true, none), st + 1)
  SupportsOnDemandTransactions := false

/-- A scheduler over the store of `counterProvider` with the given handler for
fulfillment type 1, scheduling enabled, a global threshold of 5 and subsidizer
checks enabled. -/
def counterScheduler (handler : StoreHandler Nat) : storeScheduler Nat where
  data := counterProvider
  conf := ⟨false, 5⟩
  handlersByType := fun t => if t = 1 then some handler else none
  includeSubsidizerChecks := true

/-- A subsidizer check that finds enough balance and leaves the store as it
found it. -/
def readingEnforce : Nat → Option Error × Nat := fun st => (none, st)

end sequencer

/-! ## Signature verifier (`ocp/auth/signature.go`) -/

namespace auth

/-- The message `commonpb.Signature`: the signature bytes. -/
structure Signature where
  Value : List Nat
deriving DecidableEq, Repr

/-- Modelled from the spec: `common.Account` is declared outside the sources;
the spec describes an account as "an immutable pair of (public key, optional
private key)". -/
structure Account where
  PublicKey : List Nat
  PrivateKey : Option (List Nat)
deriving DecidableEq, Repr

/-- The functions the verifier calls that are declared outside the sources,
taken as parameters: the two marshal strategies `forceConsistentMarshal` and
`proto.Marshal` (each returning the Go pair `(bytes, err)`), and
`ed25519.Verify(publicKey, message, sig)`. -/
structure Codec (Message : Type) where
  forceConsistentMarshal : Message → Except Error (List Nat)
  protoMarshal : Message → Except Error (List Nat)
  ed25519Verify : List Nat → List Nat → List Nat → Bool

/-- The variable `defaultMarshalStrategies`. -/
def defaultMarshalStrategies {Message : Type} (c : Codec Message) :
    List (Message → Except Error (List Nat)) :=
  [c.forceConsistentMarshal, c.protoMarshal]

/-- The loop `for _, marshalStrategy := range defaultMarshalStrategies` of
`isSignatureVerifiedProtoMessage` together with the final `return false, nil`
(the statements between the loop and the return only write a log line). -/
def verifyWithStrategies {Message : Type} (c : Codec Message) (owner : Account)
    (message : Message) (signature : Signature) :
    List (Message → Except Error (List Nat)) → Bool × Option Error
  | [] => (false, none)
  | marshalStrategy :: rest =>
    match marshalStrategy message with
    | Except.error e => (false, some e)
    | Except.ok messageBytes =>
      if c.ed25519Verify owner.PublicKey messageBytes signature.Value then (true, none)
      else verifyWithStrategies c owner message signature rest

/-- The method `RPCSignatureVerifier.isSignatureVerifiedProtoMessage`; a nil
`signature` is `none`. -/
def isSignatureVerifiedProtoMessage {Message : Type} (c : Codec Message) (owner : Account)
    (message : Message) (signature : Option Signature) : Bool × Option Error :=
  match signature with
  | none => (false, none)
  | some sig => verifyWithStrategies c owner message sig (defaultMarshalStrategies c)

/-- The method `RPCSignatureVerifier.Authenticate`; the result `none` is the
nil error (OK). -/
def Authenticate {Message : Type} (c : Codec Message) (owner : Account)
    (message : Message) (signature : Option Signature) : Option Error :=
  match isSignatureVerifiedProtoMessage c owner message signature with
  | (_, some _) => some (Error.status codes.Code.Internal "")
  | (isSignatureValid, none) =>
    if !isSignatureValid then some (Error.status codes.Code.Unauthenticated "")
    else none

/-- A toy signature scheme for the concrete instances: the signature of
`bytes` under key `k` is `k ++ bytes`, the public key is the private key. -/
def toySign (privateKey bytes : List Nat) : List Nat := privateKey ++ bytes

/-- Verification for `toySign`. -/
def toyVerify (publicKey bytes sig : List Nat) : Bool := decide (sig = publicKey ++ bytes)

/-- A codec over messages that are byte lists: the canonical strategy fails on
the empty message and otherwise prefixes a zero byte, the legacy strategy is
the identity. -/
def toyCodec : Codec (List Nat) where
  forceConsistentMarshal := fun m =>
    if m = [] then Except.error (Error.other 1) else Except.ok (0 :: m)
  protoMarshal := fun m => Except.ok m
  ed25519Verify := toyVerify

/-- An owner account for `toySign`. -/
def toyOwner : Account := ⟨[7], some [7]⟩

end auth

/-! ## Nonce pool allocator (`ocp/worker/nonce/allocator.go`) -/

namespace retry

/-- Modelled from the spec: package `retry` is declared outside the sources.
The strategy `NonRetriableErrors(errs...)` answers whether to run the action
again after the attempt returned `err`: never after one of the listed
non-retriable errors, always otherwise (the spec's "non-retriable error" of
the retry wrappers). -/
def NonRetriableErrors (errs : List Error) (_attempts : Nat) (err : Option Error) : Bool :=
  match err with
  | none => true
  | some e => !errs.contains e

/-- Modelled from the spec: package `retry` is declared outside the sources.
`Loop(action, strategies...)` runs the action again and again until a strategy
says not to retry, and then returns the error of that attempt.  The action is
run on a state `S` (its captured variables) and on the successive worlds
`W` it observes; `none` means that the loop is still running when the listed
worlds are used up. -/
def Loop {S W : Type} (action : S → W → Option Error × S)
    (strategies : List (Nat → Option Error → Bool)) :
    Nat → S → List W → Option (Option Error) × S
  | _, s, [] => (none, s)
  | attempts, s, w :: ws =>
    let res := action s w
    if strategies.all (fun strategy => strategy attempts res.1) then
      Loop action strategies (attempts + 1) res.2 ws
    else (some res.1, res.2)

end retry

namespace nonce

/-- Modelled from the spec: `nonce.State` is declared outside the sources; the
spec lists the states Unknown, Available, Reserved, Claimed, Released and
Invalid. -/
inductive State where
  | StateUnknown
  | StateReleased
  | StateAvailable
  | StateReserved
  | StateInvalid
  | StateClaimed
deriving DecidableEq, Repr

/-- Modelled from the spec: `nonce.Purpose` is declared outside the sources; the
spec lists the purposes ClientIntent, ClientSwap, OnDemandTransaction and
InternalServerProcess. -/
inductive Purpose where
  | PurposeClientIntent
  | PurposeClientSwap
  | PurposeOnDemandTransaction
  | PurposeInternalServerProcess
deriving DecidableEq, Repr

/-- One entry of the allocator's call log. -/
inductive Call where
  | GetNonceCountByStateAndPurpose (state : State) (purpose : Purpose)
  | createSolanaMainnetNonce (purpose : Purpose)
deriving DecidableEq, Repr

/-- What one iteration of the allocator observes: the answers of
`p.data.GetNonceCountByStateAndPurpose` for the Solana mainnet environment
(the Go pair `(count, err)`) and the error returned by
`p.createSolanaMainnetNonce`, which is declared outside the sources and taken
as a parameter. -/
structure World where
  GetNonceCountByStateAndPurpose : State → Purpose → Except Error Nat
  createSolanaMainnetNonce : Purpose → Option Error

/-- The variables shared by the iterations: the captured flag `hasWarnedUser`
and the log of calls made so far. -/
structure LoopState where
  hasWarnedUser : Bool
  calls : List Call
deriving DecidableEq, Repr

/-- The number of `createSolanaMainnetNonce` calls in a log. -/
def created (calls : List Call) : Nat :=
  calls.countP (fun c =>
    match c with
    | Call.createSolanaMainnetNonce _ => true
    | _ => false)

/-- The value of a sum computed in the machine type `uint64`. -/
def uint64 (n : Nat) : Nat := n % 2 ^ 64

/-- The closure passed to `retry.Loop` by
`generateNonceAccountsOnSolanaMainnet`: one iteration of the allocator.  The
counts are `uint64` values and their sum wraps at `2 ^ 64`. -/
def allocatorIteration (purpose : Purpose) (desiredPoolSize : Nat) (s : LoopState)
    (w : World) : Option Error × LoopState :=
  let log1 := s.calls ++ [Call.GetNonceCountByStateAndPurpose State.StateInvalid purpose]
  match w.GetNonceCountByStateAndPurpose State.StateInvalid purpose with
  | Except.error e => (some e, ⟨s.hasWarnedUser, log1⟩)
  | Except.ok num_invalid =>
    if num_invalid > 100 then
      (some Error.ErrInvalidNonceLimitExceeded, ⟨s.hasWarnedUser, log1⟩)
    else
      let log2 := log1 ++ [Call.GetNonceCountByStateAndPurpose State.StateAvailable purpose]
      match w.GetNonceCountByStateAndPurpose State.StateAvailable purpose with
      | Except.error e => (some e, ⟨s.hasWarnedUser, log2⟩)
      | Except.ok num_available =>
        let log3 := log2 ++ [Call.GetNonceCountByStateAndPurpose State.StateClaimed purpose]
        match w.GetNonceCountByStateAndPurpose State.StateClaimed purpose with
        | Except.error e => (some e, ⟨s.hasWarnedUser, log3⟩)
        | Except.ok num_claimed =>
          let log4 := log3 ++
            [Call.GetNonceCountByStateAndPurpose State.StateReleased purpose]
          match w.GetNonceCountByStateAndPurpose State.StateReleased purpose with
          | Except.error e => (some e, ⟨s.hasWarnedUser, log4⟩)
          | Except.ok num_released =>
            let log5 := log4 ++
              [Call.GetNonceCountByStateAndPurpose State.StateUnknown purpose]
            match w.GetNonceCountByStateAndPurpose State.StateUnknown purpose with
            | Except.error e => (some e, ⟨s.hasWarnedUser, log5⟩)
            | Except.ok num_unknown =>
              let num_potentially_available :=
                uint64 (num_available + num_claimed + num_released + num_unknown)
              if num_potentially_available ≥ desiredPoolSize then
                (none, ⟨false, log5⟩)
              else
                let log6 := log5 ++ [Call.createSolanaMainnetNonce purpose]
                match w.createSolanaMainnetNonce purpose with
                | some e => (some e, ⟨true, log6⟩)
                | none => (none, ⟨true, log6⟩)

/-- The method `runtime.generateNonceAccountsOnSolanaMainnet`, run on the
successive worlds its iterations observe. -/
def generateNonceAccountsOnSolanaMainnet (purpose : Purpose) (desiredPoolSize : Nat)
    (worlds : List World) : Option (Option Error) × LoopState :=
  retry.Loop (allocatorIteration purpose desiredPoolSize)
    [retry.NonRetriableErrors [Error.Canceled, Error.ErrInvalidNonceLimitExceeded]]
    1 ⟨false, []⟩ worlds

/-- A world with the given counts of Invalid, Available, Claimed, Released,
Unknown and Reserved nonces, in which creating a nonce succeeds. -/
def demoWorld (invalid available claimed released unknown reserved : Nat) : World where
  GetNonceCountByStateAndPurpose := fun state _ =>
    match state with
    | State.StateInvalid => Except.ok invalid
    | State.StateAvailable => Except.ok available
    | State.StateClaimed => Except.ok claimed
    | State.StateReleased => Except.ok released
    | State.StateUnknown => Except.ok unknown
    | State.StateReserved => Except.ok reserved
  createSolanaMainnetNonce := fun _ => none

/-- The number of nonce accounts created between two logs of a world: the
`createSolanaMainnetNonce` calls made in between when that function returns
nil, and none when it returns an error. -/
def nonceAccountsCreated (purpose : Purpose) (w : World) (before after : List Call) : Nat :=
  match w.createSolanaMainnetNonce purpose with
  | none => created after - created before
  | some _ => 0

/-- The world of `demoWorld` in which creating a nonce fails. -/
def failingCreateWorld (invalid available claimed released unknown reserved : Nat) : World :=
  { demoWorld invalid available claimed released unknown reserved with
    createSolanaMainnetNonce := fun _ => some (Error.other 1) }

end nonce

/-! ## Core mint quarks (`ocp/common/mint.go`) -/

namespace common

/-- The function `FromCoreMintQuarks`.  `CoreMintQuarksPerUnit` is the constant
`uint64(usdf.QuarksPerUsdf)`, whose value is declared outside the sources; it
is taken as a parameter. -/
def FromCoreMintQuarks (CoreMintQuarksPerUnit quarks : Nat) : Nat :=
  quarks / CoreMintQuarksPerUnit

/-- The function `ToCoreMintQuarks`: a `uint64` product, which wraps at
`2 ^ 64`. -/
def ToCoreMintQuarks (CoreMintQuarksPerUnit units : Nat) : Nat :=
  (units * CoreMintQuarksPerUnit) % 2 ^ 64

end common

/-! ## Virtual timelock account lookup (`ocp/vm/virtual_account.go`) -/

namespace vm

/-- The result code of `indexerpb.GetVirtualTimelockAccountsResponse`: `OK` or
any other code. -/
inductive ResponseResult where
  | OK
  | other (code : Nat)
deriving DecidableEq, Repr

/-- The memory location of an item (`Storage.GetMemory()`): the memory account
and the index in it. -/
structure Memory where
  Account : List Nat
  Index : Nat
deriving DecidableEq, Repr

/-- The message `indexerpb.VirtualTimelockAccount`. -/
structure ProtoAccount where
  Owner : List Nat
  Nonce : List Nat
  TokenBump : Nat
  UnlockBump : Nat
  WithdrawBump : Nat
  Balance : Nat
  Bump : Nat
deriving DecidableEq, Repr

/-- One element of `resp.Items`; `Storage` is `none` when `GetMemory()` returns
nil (the account is compressed). -/
structure Item where
  Account : ProtoAccount
  Storage : Option Memory
deriving DecidableEq, Repr

/-- The message `indexerpb.GetVirtualTimelockAccountsResponse`. -/
structure Response where
  Result : ResponseResult
  Items : List Item
deriving DecidableEq, Repr

/-- The struct `cvm.VirtualTimelockAccount` built from the reply. -/
structure VirtualTimelockAccount where
  Owner : List Nat
  Nonce : List Nat
  TokenBump : Nat
  UnlockBump : Nat
  WithdrawBump : Nat
  Balance : Nat
  Bump : Nat
deriving DecidableEq, Repr

/-- What a call of `GetVirtualTimelockAccountStateInMemory` does: it returns a
state with its memory account and index, returns an error, or panics. -/
inductive Outcome where
  | state (account : VirtualTimelockAccount) (memory : List Nat) (index : Nat)
  | error (e : Error)
  | panic
deriving DecidableEq, Repr

/-- The function `GetVirtualTimelockAccountStateInMemory`.  `reply` is what
`vmIndexerClient.GetVirtualTimelockAccounts` returned (the Go pair
`(resp, err)`), `NewAccountFromPublicKeyBytes` is declared outside the sources
and taken as a parameter.  Indexing `resp.Items[0]` on an empty slice is a
run-time panic. -/
def GetVirtualTimelockAccountStateInMemory (reply : Except Error Response)
    (NewAccountFromPublicKeyBytes : List Nat → Except Error (List Nat)) : Outcome :=
  match reply with
  | Except.error err => Outcome.error err
  | Except.ok resp =>
    if resp.Result ≠ ResponseResult.OK then
      Outcome.error (Error.message "received rpc result")
    else if resp.Items.length > 1 then
      Outcome.error (Error.message "multiple results returned")
    else
      match resp.Items with
      | [] => Outcome.panic
      | item :: _ =>
        match item.Storage with
        | none => Outcome.error (Error.message "account is compressed")
        | some protoMemory =>
          match NewAccountFromPublicKeyBytes protoMemory.Account with
          | Except.error err => Outcome.error err
          | Except.ok memory =>
            let protoAccount := item.Account
            Outcome.state
              { Owner := protoAccount.Owner
                Nonce := protoAccount.Nonce
                TokenBump := protoAccount.TokenBump % 2 ^ 8
                UnlockBump := protoAccount.UnlockBump % 2 ^ 8
                WithdrawBump := protoAccount.WithdrawBump % 2 ^ 8
                Balance := protoAccount.Balance
                Bump := protoAccount.Bump % 2 ^ 8 }
              memory (protoMemory.Index % 2 ^ 16)

/-- An item stored in memory, for the concrete instances. -/
def demoItem : Item :=
  { Account := ⟨[1], [2], 255, 254, 253, 1000, 252⟩, Storage := some ⟨[9], 3⟩ }

end vm

/-! ## Vault keys of the nonce worker (`ocp/worker/nonce/keys.go`) -/

namespace vault

/-- Modelled from the spec: `vault.State` is declared outside the sources; the
spec gives the state of a vault key as one of Available and Reserved. -/
inductive State where
  | StateAvailable
  | StateReserved
deriving DecidableEq, Repr

/-- The fields of `vault.Record` used by the nonce worker. -/
structure Record where
  PublicKey : String
  PrivateKey : String
  State : State
deriving DecidableEq, Repr

end vault

namespace nonce

/-- The vault operations of `ocp_data.Provider` used by the key functions, over
an explicit store state `σ`.  `SaveKey` returns its error together with the
store state it leaves behind; `GetAllKeysByState` takes the state and the
limit of `query.WithLimit` and returns the Go pair `(keys, err)`. -/
structure KeyData (σ : Type) where
  SaveKey : σ → vault.Record → Option Error × σ
  GetAllKeysByState : σ → vault.State → Nat → Except Error (List vault.Record)

/-- One entry of the call log of the key functions. -/
inductive KeyCall where
  | GrindKey
  | SaveKey (record : vault.Record)
  | GetAllKeysByState (state : vault.State) (limit : Nat)
deriving DecidableEq, Repr

/-- The Go return pair `(key, err)` of a key function, or a panic. -/
inductive KeyResult where
  | returned (key : Option vault.Record) (err : Option Error)
  | panic
deriving DecidableEq, Repr

/-- What a key function yields: its result, the store state afterwards and the
calls made. -/
structure KeyOutcome (σ : Type) where
  result : KeyResult
  store : σ
  calls : List KeyCall

/-- The method `runtime.generateKey`.  `grind` is what `vault.GrindKey`
returned for the configured prefix; that function is declared outside the
sources and is taken as a parameter. -/
def generateKey {σ : Type} (data : KeyData σ) (grind : Except Error vault.Record) (st : σ) :
    KeyOutcome σ :=
  match grind with
  | Except.error err => ⟨KeyResult.returned none (some err), st, [KeyCall.GrindKey]⟩
  | Except.ok ground =>
    let key : vault.Record := { ground with State := vault.State.StateAvailable }
    let res := data.SaveKey st key
    match res.1 with
    | some err =>
      ⟨KeyResult.returned none (some err), res.2, [KeyCall.GrindKey, KeyCall.SaveKey key]⟩
    | none =>
      ⟨KeyResult.returned (some key) none, res.2, [KeyCall.GrindKey, KeyCall.SaveKey key]⟩

/-- The method `runtime.reserveExistingKey`.  Indexing `keys[0]` on an empty
slice is a run-time panic. -/
def reserveExistingKey {σ : Type} (data : KeyData σ) (st : σ) : KeyOutcome σ :=
  let log1 := [KeyCall.GetAllKeysByState vault.State.StateAvailable 1]
  match data.GetAllKeysByState st vault.State.StateAvailable 1 with
  | Except.error err => ⟨KeyResult.returned none (some err), st, log1⟩
  | Except.ok keys =>
    match keys with
    | [] => ⟨KeyResult.panic, st, log1⟩
    | first :: _ =>
      let res : vault.Record := { first with State := vault.State.StateReserved }
      let saved := data.SaveKey st res
      match saved.1 with
      | some err => ⟨KeyResult.returned none (some err), saved.2, log1 ++ [KeyCall.SaveKey res]⟩
      | none => ⟨KeyResult.returned (some res) none, saved.2, log1 ++ [KeyCall.SaveKey res]⟩

/-- The method `runtime.getVaultKey`. -/
def getVaultKey {σ : Type} (data : KeyData σ) (st : σ) : KeyOutcome σ :=
  let reserved := reserveExistingKey data st
  match reserved.result with
  | KeyResult.returned key none => ⟨KeyResult.returned key none, reserved.store, reserved.calls⟩
  | KeyResult.returned _ (some _) =>
    ⟨KeyResult.returned none (some Error.ErrNoAvailableKeys), reserved.store, reserved.calls⟩
  | KeyResult.panic => ⟨KeyResult.panic, reserved.store, reserved.calls⟩

/-- An in-memory key table: saving replaces the record with the same public
key or appends it. -/
def memorySaveKey (st : List vault.Record) (record : vault.Record) :
    Option Error × List vault.Record :=
  if st.any (fun r => decide (r.PublicKey = record.PublicKey)) then
    (none, st.map (fun r => if r.PublicKey = record.PublicKey then record else r))
  else (none, st ++ [record])

/-- An in-memory key table: the first `limit` keys in the given state, or a
not-found error when there is none. -/
def memoryGetAllKeysByState (st : List vault.Record) (state : vault.State) (limit : Nat) :
    Except Error (List vault.Record) :=
  match (st.filter (fun r => decide (r.State = state))).take limit with
  | [] => Except.error (Error.other 404)
  | keys => Except.ok keys

/-- The in-memory key table as a `KeyData`. -/
def memoryKeyData : KeyData (List vault.Record) where
  SaveKey := memorySaveKey
  GetAllKeysByState := memoryGetAllKeysByState

/-- A key table with one Reserved and one Available key. -/
def demoKeys : List vault.Record :=
  [⟨"nonA", "privA", vault.State.StateReserved⟩, ⟨"nonB", "privB", vault.State.StateAvailable⟩]

end nonce

/-! ## Gift card voiding and send limits (`ocp/rpc/transaction`) -/

namespace transaction

/-- The duration `time.Since(t)` at wall-clock time `now`, in nanoseconds:
`now.Sub(t)`, which saturates at the bounds of `int64`. -/
def timeSince (now t : Int) : Int :=
  max (-(2 ^ 63)) (min (2 ^ 63 - 1) (now - t))

/-- The result codes of `transactionpb.VoidGiftCardResponse`. -/
inductive VoidGiftCardResult where
  | OK
  | DENIED
  | CLAIMED_BY_OTHER_USER
  | NOT_FOUND
deriving DecidableEq, Repr

/-- The account types of `commonpb.AccountType`: the gift card type, or any
other type. -/
inductive AccountType where
  | REMOTE_SEND_GIFT_CARD
  | other (code : Nat)
deriving DecidableEq, Repr

/-- The fields of `account.Record` read by `VoidGiftCard`; `CreatedAt` is in
nanoseconds. -/
structure AccountInfoRecord where
  AccountType : AccountType
  MintAccount : String
  CreatedAt : Int
deriving DecidableEq, Repr

/-- The field of `intent.Record` read by `VoidGiftCard`. -/
structure IssuedIntentRecord where
  InitiatorOwnerAccount : String
deriving DecidableEq, Repr

/-- The field of the claimed `action.Record` read by `VoidGiftCard`: the
nullable `Destination`. -/
structure ClaimedActionRecord where
  Destination : Option String
deriving DecidableEq, Repr

/-- The message `transactionpb.VoidGiftCardRequest`. -/
structure VoidGiftCardRequest where
  Owner : List Nat
  GiftCardVault : List Nat
  Signature : Option (List Nat)
deriving DecidableEq, Repr

/-- The collaborators of `VoidGiftCard`, all declared outside
`gift_card.go` and taken as parameters.  Accounts are identified by the base58
form of their public key.  `Authenticate` is `s.auth.Authenticate` applied to
the owner, the request without its signature and the signature; `now` is the
wall-clock time in nanoseconds and `GiftCardExpiry` the constant of the account
worker.  `GetTimelockAccounts owner vmConfig` yields the owner's timelock vault
address. -/
structure GiftCardEnv where
  NewAccountFromProto : List Nat → Except Error String
  Authenticate : String → VoidGiftCardRequest → Option (List Nat) → Option Error
  GetAccountInfoByTokenAddress : String → Except Error AccountInfoRecord
  GetOriginalGiftCardIssuedIntent : String → Except Error IssuedIntentRecord
  now : Int
  GiftCardExpiry : Int
  GetOptimisticVersionLock : String → Except Error Nat
  GetGiftCardClaimedAction : String → Except Error ClaimedActionRecord
  NewAccountFromPublicKeyString : String → Except Error String
  GetVmConfigForMint : String → Except Error Nat
  GetTimelockAccounts : String → Nat → Except Error String
  InitiateProcessToAutoReturnGiftCard : String → Nat → Option Error

/-- One entry of the call log of `VoidGiftCard`. -/
inductive GiftCardCall where
  | Authenticate
  | GetAccountInfoByTokenAddress (vault : String)
  | GetOriginalGiftCardIssuedIntent (vault : String)
  | GetOptimisticVersionLock (vault : String)
  | localAccountLock (vault : String)
  | GetGiftCardClaimedAction (vault : String)
  | GetVmConfigForMint (mint : String)
  | InitiateProcessToAutoReturnGiftCard (vault : String)
  | MarkAutoReturnCheckComplete (vault : String)
deriving DecidableEq, Repr

/-- Calls that schedule work or take a lock for the gift card. -/
def GiftCardCall.isWork : GiftCardCall → Bool
  | GiftCardCall.GetOptimisticVersionLock _ => true
  | GiftCardCall.localAccountLock _ => true
  | GiftCardCall.GetGiftCardClaimedAction _ => true
  | GiftCardCall.InitiateProcessToAutoReturnGiftCard _ => true
  | GiftCardCall.MarkAutoReturnCheckComplete _ => true
  | _ => false

/-- The Go return pair of `VoidGiftCard`: a response with its result code and a
nil error, or a nil response and an error; or a panic. -/
inductive Reply where
  | response (result : VoidGiftCardResult)
  | error (e : Error)
  | panic
deriving DecidableEq, Repr

/-- What a call of `VoidGiftCard` yields: the reply and the calls made. -/
structure VoidOutcome where
  reply : Reply
  calls : List GiftCardCall
deriving DecidableEq, Repr

/-- Lines 79 to 134 of `VoidGiftCard`: the balance lock, the claimed-action
lookup and the auto-return. -/
def voidUnexpiredGiftCard (e : GiftCardEnv) (owner giftCardVault : String)
    (accountInfoRecord : AccountInfoRecord) (log : List GiftCardCall) : VoidOutcome :=
  let log1 := log ++ [GiftCardCall.GetOptimisticVersionLock giftCardVault]
  match e.GetOptimisticVersionLock giftCardVault with
  | Except.error _ => ⟨Reply.error (Error.status codes.Code.Internal ""), log1⟩
  | Except.ok globalBalanceLock =>
    let log2 := log1 ++ [GiftCardCall.localAccountLock giftCardVault,
      GiftCardCall.GetGiftCardClaimedAction giftCardVault]
    match e.GetGiftCardClaimedAction giftCardVault with
    | Except.ok claimedActionRecord =>
      match e.NewAccountFromPublicKeyString accountInfoRecord.MintAccount with
      | Except.error _ => ⟨Reply.error (Error.status codes.Code.Internal ""), log2⟩
      | Except.ok mintAccount =>
        let log3 := log2 ++ [GiftCardCall.GetVmConfigForMint mintAccount]
        match e.GetVmConfigForMint mintAccount with
        | Except.error _ => ⟨Reply.error (Error.status codes.Code.Internal ""), log3⟩
        | Except.ok vmConfig =>
          match e.GetTimelockAccounts owner vmConfig with
          | Except.error _ => ⟨Reply.error (Error.status codes.Code.Internal ""), log3⟩
          | Except.ok ownerVault =>
            match claimedActionRecord.Destination with
            | none => ⟨Reply.panic, log3⟩
            | some destination =>
              if destination ≠ ownerVault then
                ⟨Reply.response VoidGiftCardResult.CLAIMED_BY_OTHER_USER, log3⟩
              else ⟨Reply.response VoidGiftCardResult.OK, log3⟩
    | Except.error err =>
      if err ≠ Error.ErrActionNotFound then
        ⟨Reply.error (Error.status codes.Code.Internal ""), log2⟩
      else
        let log3 := log2 ++ [GiftCardCall.InitiateProcessToAutoReturnGiftCard giftCardVault]
        match e.InitiateProcessToAutoReturnGiftCard giftCardVault globalBalanceLock with
        | some _ => ⟨Reply.error (Error.status codes.Code.Internal ""), log3⟩
        | none =>
          ⟨Reply.response VoidGiftCardResult.OK,
            log3 ++ [GiftCardCall.MarkAutoReturnCheckComplete giftCardVault]⟩

/-- The method `transactionServer.VoidGiftCard`. -/
def VoidGiftCard (e : GiftCardEnv) (req : VoidGiftCardRequest) : VoidOutcome :=
  match e.NewAccountFromProto req.Owner with
  | Except.error _ => ⟨Reply.error (Error.status codes.Code.Internal ""), []⟩
  | Except.ok owner =>
    match e.NewAccountFromProto req.GiftCardVault with
    | Except.error _ => ⟨Reply.error (Error.status codes.Code.Internal ""), []⟩
    | Except.ok giftCardVault =>
      let log1 := [GiftCardCall.Authenticate]
      match e.Authenticate owner { req with Signature := none } req.Signature with
      | some err => ⟨Reply.error err, log1⟩
      | none =>
        let log2 := log1 ++ [GiftCardCall.GetAccountInfoByTokenAddress giftCardVault]
        match e.GetAccountInfoByTokenAddress giftCardVault with
        | Except.error err =>
          if err = Error.ErrAccountInfoNotFound then
            ⟨Reply.response VoidGiftCardResult.NOT_FOUND, log2⟩
          else ⟨Reply.error (Error.status codes.Code.Internal ""), log2⟩
        | Except.ok accountInfoRecord =>
          if accountInfoRecord.AccountType ≠ AccountType.REMOTE_SEND_GIFT_CARD then
            ⟨Reply.response VoidGiftCardResult.NOT_FOUND, log2⟩
          else
            let log3 := log2 ++ [GiftCardCall.GetOriginalGiftCardIssuedIntent giftCardVault]
            match e.GetOriginalGiftCardIssuedIntent giftCardVault with
            | Except.error _ => ⟨Reply.error (Error.status codes.Code.Internal ""), log3⟩
            | Except.ok giftCardIssuedIntentRecord =>
              if giftCardIssuedIntentRecord.InitiatorOwnerAccount ≠ owner then
                ⟨Reply.response VoidGiftCardResult.DENIED, log3⟩
              else if timeSince e.now accountInfoRecord.CreatedAt ≥ e.GiftCardExpiry then
                ⟨Reply.response VoidGiftCardResult.OK, log3⟩
              else voidUnexpiredGiftCard e owner giftCardVault accountInfoRecord log3

/-- A `float64` value, with the finite ones taken as exact rationals: a finite
number, or one of the three values a division by zero yields. -/
inductive Float64 where
  | finite (q : ℚ)
  | posInf
  | negInf
  | NaN
deriving DecidableEq

/-- The `float64` quotient `x / y` of two finite numbers: exact when `y` is not
zero; for `y = 0` it is `+Inf`, `-Inf` or `NaN` as `x` is positive, negative or
zero. -/
def Float64.div (x y : ℚ) : Float64 :=
  if y = 0 then
    if 0 < x then Float64.posInf
    else if x < 0 then Float64.negInf
    else Float64.NaN
  else Float64.finite (x / y)

/-- The function `math.Min(x, y)` for a finite `x`: `Min(x, +Inf) = x`,
`Min(x, -Inf) = -Inf` and `Min(x, NaN) = NaN`. -/
def Float64.Min (x : ℚ) (y : Float64) : Float64 :=
  match y with
  | Float64.finite q => Float64.finite (min x q)
  | Float64.posInf => Float64.finite x
  | Float64.negInf => Float64.negInf
  | Float64.NaN => Float64.NaN

/-- The values of one currency in `transactionpb.SendLimit`, before their
conversion to `float32`. -/
structure SendLimit where
  NextTransaction : Float64
  MaxPerTransaction : ℚ
  MaxPerDay : Float64
deriving DecidableEq

/-- The message `transactionpb.GetLimitsResponse` with result OK. -/
structure GetLimitsResponse where
  SendLimitsByCurrency : String → Option SendLimit
  UsdTransacted : ℚ

/-- The message `transactionpb.GetLimitsRequest`; `ConsumedSince` is in
nanoseconds. -/
structure GetLimitsRequest where
  Owner : List Nat
  ConsumedSince : Int
  Signature : Option (List Nat)
deriving DecidableEq, Repr

/-- The collaborators and tables of `GetLimits`, declared outside `limits.go`
and taken as parameters.  The `float64` amounts and rates they yield are finite
and are taken as exact rationals (a rate of zero is the `float64` zero).
`GetAllExchangeRates` yields the map `multiRateRecord.Rates`,
`GetTransactedAmountForAntiMoneyLaundering` the consumed USD value since the
given time, `SendLimits` maps a currency to its `PerTransaction` cap; a Go map
is a partial function. -/
structure LimitsEnv where
  NewAccountFromProto : List Nat → Except Error String
  Authenticate : String → GetLimitsRequest → Option (List Nat) → Option Error
  GetAllExchangeRates : Except Error (String → Option ℚ)
  GetTransactedAmountForAntiMoneyLaundering : String → Int → Except Error ℚ
  MaxDailyUsdLimit : ℚ
  SendLimits : String → Option ℚ

/-- The method `transactionServer.GetLimits`.  The loop over `SendLimits`
fills the response map independently for every currency, so the map is given as
a function of the currency.  Sums and products are exact; the two divisions by
`usdRate` are `float64` divisions, which do not fail when `usdRate` is zero. -/
def GetLimits (e : LimitsEnv) (req : GetLimitsRequest) : Except Error GetLimitsResponse :=
  match e.NewAccountFromProto req.Owner with
  | Except.error _ => Except.error (Error.status codes.Code.Internal "")
  | Except.ok ownerAccount =>
    match e.Authenticate ownerAccount { req with Signature := none } req.Signature with
    | some err => Except.error err
    | none =>
      match e.GetAllExchangeRates with
      | Except.error _ => Except.error (Error.status codes.Code.Internal "")
      | Except.ok rates =>
        match rates "usd" with
        | none => Except.error (Error.status codes.Code.Internal "")
        | some usdRate =>
          match e.GetTransactedAmountForAntiMoneyLaundering ownerAccount req.ConsumedSince with
          | Except.error _ => Except.error (Error.status codes.Code.Internal "")
          | Except.ok consumedUsdForPayments =>
            let usdLeftForPayments :=
              if e.MaxDailyUsdLimit - consumedUsdForPayments < 0 then 0
              else e.MaxDailyUsdLimit - consumedUsdForPayments
            Except.ok
              { SendLimitsByCurrency := fun currency =>
                  match e.SendLimits currency with
                  | none => none
                  | some perTransaction =>
                    match rates currency with
                    | none => none
                    | some otherRate =>
                      let amountLeftInOtherCurrency :=
                        Float64.div (usdLeftForPayments * otherRate) usdRate
                      let remainingNextTransaction :=
                        Float64.Min perTransaction amountLeftInOtherCurrency
                      some
                        { NextTransaction := remainingNextTransaction
                          MaxPerTransaction := perTransaction
                          MaxPerDay := Float64.div (e.MaxDailyUsdLimit * otherRate) usdRate }
                UsdTransacted := consumedUsdForPayments }

/-- A gift card environment: the card of vault `card` was issued by `alice`,
created at time 0, with an expiry of 100; the wall clock, the claimed action
and the outcome of the auto-return are given. -/
def demoGiftCardEnv (now : Int) (claimed : Except Error ClaimedActionRecord)
    (initiate : Option Error) : GiftCardEnv where
  NewAccountFromProto := fun bytes =>
    if bytes = [1] then Except.ok "alice" else if bytes = [2] then Except.ok "bob"
    else if bytes = [3] then Except.ok "card" else Except.error (Error.other 1)
  Authenticate := fun _ _ signature =>
    if signature = some [42] then none else some (Error.status codes.Code.Unauthenticated "")
  GetAccountInfoByTokenAddress := fun vault =>
    if vault = "card" then Except.ok ⟨AccountType.REMOTE_SEND_GIFT_CARD, "mint", 0⟩
    else Except.error Error.ErrAccountInfoNotFound
  GetOriginalGiftCardIssuedIntent := fun _ => Except.ok ⟨"alice"⟩
  now := now
  GiftCardExpiry := 100
  GetOptimisticVersionLock := fun _ => Except.ok 7
  GetGiftCardClaimedAction := fun _ => claimed
  NewAccountFromPublicKeyString := fun s => Except.ok s
  GetVmConfigForMint := fun _ => Except.ok 0
  GetTimelockAccounts := fun owner _ => Except.ok (owner ++ "-vault")
  InitiateProcessToAutoReturnGiftCard := fun _ _ => initiate

/-- A signed request of `alice`, resp. `bob`, to void the card. -/
def demoVoidRequest (owner : List Nat) : VoidGiftCardRequest :=
  ⟨owner, [3], some [42]⟩

/-- A limits environment: a daily limit of 250 USD of which `consumed` are
consumed, caps for `usd` (250) and `cad` (300), a `usd` rate of `usdRate` and a
`cad` rate of 3/2. -/
def rateLimitsEnv (usdRate consumed : ℚ) : LimitsEnv where
  NewAccountFromProto := fun _ => Except.ok "alice"
  Authenticate := fun _ _ _ => none
  GetAllExchangeRates := Except.ok (fun c =>
    if c = "usd" then some usdRate else if c = "cad" then some (3 / 2) else none)
  GetTransactedAmountForAntiMoneyLaundering := fun _ _ => Except.ok consumed
  MaxDailyUsdLimit := 250
  SendLimits := fun c =>
    if c = "usd" then some 250 else if c = "cad" then some 300 else none

/-- A limits environment: a daily limit of 250 USD of which 50 are consumed,
caps for `usd` (250), `cad` (300) and `eur` (50), rates for `usd` (1), `cad`
(3/2) and `eur` (1/2) but none for `jpy`. -/
def demoLimitsEnv : LimitsEnv where
  NewAccountFromProto := fun _ => Except.ok "alice"
  Authenticate := fun _ _ _ => none
  GetAllExchangeRates := Except.ok (fun c =>
    if c = "usd" then some 1 else if c = "cad" then some (3 / 2)
    else if c = "eur" then some (1 / 2) else none)
  GetTransactedAmountForAntiMoneyLaundering := fun _ _ => Except.ok 50
  MaxDailyUsdLimit := 250
  SendLimits := fun c =>
    if c = "usd" then some 250 else if c = "cad" then some 300
    else if c = "eur" then some 50 else if c = "jpy" then some 30000 else none

end transaction

/-! ## Swap worker (`ocp/worker/swap/worker.go`) -/

namespace swap

/-- Modelled from the spec: `swap.State` is declared outside the sources; the
spec names the states Funded, Cancelling and Cancelled, and the worker handles
Created, Funding, Funded, Submitting and Cancelling and marks swaps Finalized,
Failed and Cancelled. -/
inductive State where
  | StateUnknown
  | StateCreated
  | StateFunding
  | StateFunded
  | StateSubmitting
  | StateFinalized
  | StateFailed
  | StateCancelling
  | StateCancelled
deriving DecidableEq, Repr

/-- The fields of `swap.Record` read by the two handlers; `TransactionSignature`
is the nullable `*string`. -/
structure Record where
  SwapId : String
  Owner : String
  FundingId : String
  State : State
  TransactionSignature : Option String
deriving DecidableEq, Repr

/-- The field of the funding `intent.Record` read by `handleStateFunded`;
`CreatedAt` is in nanoseconds. -/
structure FundingIntentRecord where
  CreatedAt : Int
deriving DecidableEq, Repr

/-- A transaction found on chain, `*solana.ConfirmedTransaction`, with its two
error fields `Err` and `Meta.Err`. -/
structure ConfirmedTransaction where
  Err : Option Error
  MetaErr : Option Error
deriving DecidableEq, Repr

/-- The collaborators of the handlers, all declared outside `worker.go` and
taken as parameters, over an explicit store state `σ`.  The helpers that write
(`markSwapCancelling`, `updateBalancesForCancelledSwap`, `markSwapCancelled`,
`submitTransaction`) return their error together with the store state they
leave behind.  `GetBlockchainTransaction` is the lookup at the finalized
commitment and returns the Go pair `(txn, err)`; `now` is the wall-clock time
and `clientTimeoutToSwap` the configured timeout, in nanoseconds. -/
structure Env (σ : Type) where
  validateSwapState : Record → List State → Option Error
  GetIntent : String → Except Error FundingIntentRecord
  now : Int
  clientTimeoutToSwap : Int
  makeCancellationTransaction : Record → Except Error (List Nat)
  markSwapCancelling : σ → Record → List Nat → Option Error × σ
  GetBlockchainTransaction : String → Option ConfirmedTransaction × Option Error
  updateBalancesForCancelledSwap : σ → Record → Option Error × σ
  markSwapCancelled : σ → Record → Option Error × σ
  submitTransaction : σ → Record → Option Error × σ

/-- One entry of the call log of the handlers. -/
inductive Call where
  | GetIntent (id : String)
  | makeCancellationTransaction
  | markSwapCancelling (txn : List Nat)
  | GetBlockchainTransaction (signature : String)
  | updateBalancesForCancelledSwap
  | markSwapCancelled
  | submitTransaction
deriving DecidableEq, Repr

/-- The returned error of a handler (`some none` is a nil error), or `none`
when the handler panics. -/
abbrev HandlerResult := Option (Option Error)

/-- What a handler yields: its result, the store state afterwards and the calls
made. -/
structure Outcome (σ : Type) where
  result : HandlerResult
  store : σ
  calls : List Call

/-- The method `runtime.handleStateFunded`. -/
def handleStateFunded {σ : Type} (e : Env σ) (st : σ) (record : Record) : Outcome σ :=
  match e.validateSwapState record [State.StateFunded] with
  | some err => ⟨some (some err), st, []⟩
  | none =>
    let log1 := [Call.GetIntent record.FundingId]
    match e.GetIntent record.FundingId with
    | Except.error err => ⟨some (some err), st, log1⟩
    | Except.ok intentRecord =>
      if transaction.timeSince e.now intentRecord.CreatedAt > e.clientTimeoutToSwap then
        let log2 := log1 ++ [Call.makeCancellationTransaction]
        match e.makeCancellationTransaction record with
        | Except.error err => ⟨some (some err), st, log2⟩
        | Except.ok txn =>
          let res := e.markSwapCancelling st record txn
          ⟨some res.1, res.2, log2 ++ [Call.markSwapCancelling txn]⟩
      else ⟨some none, st, log1⟩

/-- The method `runtime.handleStateCancelling`.  Dereferencing a nil
`record.TransactionSignature` is a run-time panic. -/
def handleStateCancelling {σ : Type} (e : Env σ) (st : σ) (record : Record) : Outcome σ :=
  match e.validateSwapState record [State.StateCancelling] with
  | some err => ⟨some (some err), st, []⟩
  | none =>
    match record.TransactionSignature with
    | none => ⟨none, st, []⟩
    | some signature =>
      let log1 := [Call.GetBlockchainTransaction signature]
      match e.GetBlockchainTransaction signature with
      | (finalizedTxn, err) =>
        if err ≠ none ∧ err ≠ some Error.ErrSignatureNotFound then
          ⟨some (err.map (fun inner => Error.wrap inner "error getting finalized transaction")),
            st, log1⟩
        else
          match finalizedTxn with
          | some txn =>
            if txn.Err ≠ none ∨ txn.MetaErr ≠ none then
              let res := e.markSwapCancelled st record
              ⟨some res.1, res.2, log1 ++ [Call.markSwapCancelled]⟩
            else
              let updated := e.updateBalancesForCancelledSwap st record
              match updated.1 with
              | some inner =>
                ⟨some (some (Error.wrap inner "error updating balances")), updated.2,
                  log1 ++ [Call.updateBalancesForCancelledSwap]⟩
              | none =>
                let res := e.markSwapCancelled updated.2 record
                ⟨some res.1, res.2,
                  log1 ++ [Call.updateBalancesForCancelledSwap, Call.markSwapCancelled]⟩
          | none =>
            let res := e.submitTransaction st record
            ⟨some res.1, res.2, log1 ++ [Call.submitTransaction]⟩

/-- The state of the concrete swap store: the swap record as stored, whether
the balances were restored to the source VM, and how often the transaction was
submitted. -/
structure DemoStore where
  record : Record
  balancesRestored : Bool
  submissions : Nat
deriving DecidableEq, Repr

/-- A concrete environment: the funding intent was created at time 0, the
timeout is 100; the wall clock and the finalized transaction are given. -/
def demoEnv (now : Int) (finalized : Option ConfirmedTransaction × Option Error) :
    Env DemoStore where
  validateSwapState := fun record states =>
    if states.contains record.State then none else some (Error.message "invalid swap state")
  GetIntent := fun _ => Except.ok ⟨0⟩
  now := now
  clientTimeoutToSwap := 100
  makeCancellationTransaction := fun _ => Except.ok [1, 2, 3]
  markSwapCancelling := fun st record _ =>
    (none, { st with record := { record with
      State := State.StateCancelling, TransactionSignature := some "cancel" } })
  GetBlockchainTransaction := fun _ => finalized
  updateBalancesForCancelledSwap := fun st _ => (none, { st with balancesRestored := true })
  markSwapCancelled := fun st record =>
    (none, { st with record := { record with State := State.StateCancelled } })
  submitTransaction := fun st _ => (none, { st with submissions := st.submissions + 1 })

/-- A concrete swap in the given state with a cancellation signature. -/
def demoSwap (state : State) : Record :=
  ⟨"swap", "alice", "funding", state, some "cancel"⟩

end swap

namespace sequencer

/-! ## Auxiliary lemmas and the scheduler gates -/

theorem utf8ByteSize_eq_zero_iff (s : String) : s.utf8ByteSize = 0 ↔ s = "" := by
  constructor
  · intro h
    cases s with
    | mk cs =>
      cases cs with
      | nil => rfl
      | cons c cs =>
        exfalso
        simp [String.utf8ByteSize, String.utf8ByteSize.go] at h
        have := Char.utf8Size_pos c
        omega
  · rintro rfl; rfl

theorem signatureMissing_iff (sig : Option String) :
    signatureMissing sig = true ↔ sig = none ∨ sig = some "" := by
  cases sig with
  | none => simp [signatureMissing]
  | some x => simp [signatureMissing, utf8ByteSize_eq_zero_iff]

theorem signatureMissing_false_iff (sig : Option String) :
    signatureMissing sig = false ↔ ∃ x, sig = some x ∧ x ≠ "" := by
  cases sig with
  | none => simp [signatureMissing]
  | some x => simp [signatureMissing, utf8ByteSize_eq_zero_iff]

theorem accountCircuitBreaker_pass (data : ocp_data.Provider) (accs : List String)
    (log : List Call)
    (h : ∀ a ∈ accs, data.GetFulfillmentCountByStateAndAddress fulfillment.StateFailed a
      = Except.ok 0) :
    accountCircuitBreaker data accs log =
      (none, log ++ accs.map (Call.GetFulfillmentCountByStateAndAddress fulfillment.StateFailed)) := by
  induction accs generalizing log with
  | nil => simp [accountCircuitBreaker]
  | cons a rest ih =>
    have ha := h a (List.mem_cons_self a rest)
    have hr : ∀ b ∈ rest, data.GetFulfillmentCountByStateAndAddress fulfillment.StateFailed b
        = Except.ok 0 := fun b hb => h b (List.mem_cons_of_mem a hb)
    simp [accountCircuitBreaker, ha, ih _ hr]

theorem accountCircuitBreaker_none (data : ocp_data.Provider) (accs : List String)
    (log : List Call) (h : (accountCircuitBreaker data accs log).1 = none) :
    ∀ a ∈ accs, data.GetFulfillmentCountByStateAndAddress fulfillment.StateFailed a
      = Except.ok 0 := by
  induction accs generalizing log with
  | nil => simp
  | cons a rest ih =>
    simp only [accountCircuitBreaker] at h
    split at h
    · simp at h
    · rename_i n hn
      split at h
      · simp at h
      · rename_i hpos
        have h0 : n = 0 := by omega
        intro b hb
        rcases List.mem_cons.mp hb with rfl | hb
        · rw [hn, h0]
        · exact ih _ h b hb

theorem accountCircuitBreaker_some (data : ocp_data.Provider) (accs : List String)
    (log : List Call) (ok : Bool) (err : Option Error)
    (h : (accountCircuitBreaker data accs log).1 = some (ok, err)) : ok = false := by
  induction accs generalizing log with
  | nil => simp [accountCircuitBreaker] at h
  | cons a rest ih =>
    simp only [accountCircuitBreaker] at h
    split at h
    · simp at h; exact h.1
    · split at h
      · simp at h; exact h.1
      · exact ih _ h

theorem forall_involvedAccounts (r : fulfillment.Record) (P : String → Prop) :
    (∀ a ∈ involvedAccounts r, P a) ↔ (P r.Source ∧ ∀ d, r.Destination = some d → P d) := by
  unfold involvedAccounts
  cases hd : r.Destination with
  | none => simp
  | some d => simp

theorem subsidizerChecks_ok_iff (enforce : ocp_data.Provider → Option Error)
    (s : contextualScheduler) (log : List Call) :
    (subsidizerChecks enforce s log).ok = true ↔
      (s.includeSubsidizerChecks = true → enforce s.data = none) := by
  unfold subsidizerChecks
  cases hi : s.includeSubsidizerChecks with
  | false => simp
  | true =>
    cases he : enforce s.data with
    | none => simp
    | some e => by_cases hx : e = Error.ErrSubsidizerRequiresFunding <;> simp [hx]

theorem subsidizerChecks_err (enforce : ocp_data.Provider → Option Error)
    (s : contextualScheduler) (log : List Call)
    (h : (subsidizerChecks enforce s log).ok = true) :
    (subsidizerChecks enforce s log).err = none := by
  unfold subsidizerChecks at h ⊢
  cases hi : s.includeSubsidizerChecks with
  | false => simp
  | true =>
    cases he : enforce s.data with
    | none => simp
    | some e => by_cases hx : e = Error.ErrSubsidizerRequiresFunding <;> simp [hi, he, hx] at h

theorem contextualScheduling_ok_iff (enforce : ocp_data.Provider → Option Error)
    (s : contextualScheduler) (handler : FulfillmentHandler) (r : fulfillment.Record)
    (log : List Call) :
    (contextualScheduling enforce s handler r log).ok = true ↔
      (handler.CanSubmitToBlockchain r = (true, none) ∧
        (s.includeSubsidizerChecks = true → enforce s.data = none)) := by
  unfold contextualScheduling
  rcases hc : handler.CanSubmitToBlockchain r with ⟨b, e⟩
  cases e with
  | some e => simp
  | none =>
    cases b with
    | false => simp
    | true => simp [subsidizerChecks_ok_iff]

theorem contextualScheduling_err (enforce : ocp_data.Provider → Option Error)
    (s : contextualScheduler) (handler : FulfillmentHandler) (r : fulfillment.Record)
    (log : List Call) (h : (contextualScheduling enforce s handler r log).ok = true) :
    (contextualScheduling enforce s handler r log).err = none := by
  unfold contextualScheduling at h ⊢
  rcases hc : handler.CanSubmitToBlockchain r with ⟨b, e⟩
  rw [hc] at h
  cases e with
  | some e => simp at h
  | none =>
    cases b with
    | false => simp at h
    | true =>
      simp only [Bool.not_true, Bool.false_eq_true, ↓reduceIte] at h ⊢
      exact subsidizerChecks_err enforce s _ h

theorem contextualScheduling_calls (enforce : ocp_data.Provider → Option Error)
    (s : contextualScheduler) (handler : FulfillmentHandler) (r : fulfillment.Record)
    (log : List Call) :
    Call.handlerCanSubmitToBlockchain r.FulfillmentType ∈
      (contextualScheduling enforce s handler r log).calls := by
  unfold contextualScheduling
  rcases hc : handler.CanSubmitToBlockchain r with ⟨b, e⟩
  cases e with
  | some e => simp
  | none =>
    cases b with
    | false => simp
    | true =>
      simp only [Bool.not_true, Bool.false_eq_true, ↓reduceIte]
      unfold subsidizerChecks
      cases hi : s.includeSubsidizerChecks with
      | false => simp
      | true =>
        cases he : enforce s.data with
        | none => simp
        | some e => by_cases hx : e = Error.ErrSubsidizerRequiresFunding <;> simp [hx]

theorem circuitBreakers_ok_iff (enforce : ocp_data.Provider → Option Error)
    (s : contextualScheduler) (handler : FulfillmentHandler) (r : fulfillment.Record)
    (log : List Call) :
    (circuitBreakers enforce s handler r log).ok = true ↔
      (s.conf.disableTransactionScheduling = false ∧
        (∀ a ∈ involvedAccounts r,
          s.data.GetFulfillmentCountByStateAndAddress fulfillment.StateFailed a = Except.ok 0) ∧
        s.data.GetFulfillmentCountByIntentAndState r.Intent fulfillment.StateFailed
          = Except.ok 0 ∧
        (∃ n, s.data.GetFulfillmentCountByState fulfillment.StateFailed = Except.ok n ∧
          n ≤ s.conf.maxGlobalFailedFulfillments) ∧
        handler.CanSubmitToBlockchain r = (true, none) ∧
        (s.includeSubsidizerChecks = true → enforce s.data = none)) := by
  unfold circuitBreakers
  cases hd : s.conf.disableTransactionScheduling with
  | true => simp
  | false =>
    simp only [Bool.false_eq_true, ↓reduceIte, true_and]
    rcases hacc : accountCircuitBreaker s.data (involvedAccounts r)
      (log ++ [Call.disableTransactionSchedulingGet]) with ⟨res, log2⟩
    cases res with
    | some p =>
      rcases p with ⟨ok, err⟩
      have hok : ok = false := accountCircuitBreaker_some s.data _ _ ok err (by rw [hacc])
      subst hok
      simp only [Bool.false_eq_true, false_iff, not_and]
      intro hall
      have := accountCircuitBreaker_pass s.data _ (log ++ [Call.disableTransactionSchedulingGet]) hall
      rw [this] at hacc
      simp at hacc
    | none =>
      have hall := accountCircuitBreaker_none s.data _ _ (by rw [hacc])
      simp only [hall, implies_true, true_and]
      cases hi : s.data.GetFulfillmentCountByIntentAndState r.Intent fulfillment.StateFailed with
      | error e => simp
      | ok ni =>
        by_cases hni : ni > 0
        · simp [hni]; omega
        · have : ni = 0 := by omega
          subst this
          simp only [gt_iff_lt, lt_self_iff_false, ↓reduceIte, true_and]
          cases hg : s.data.GetFulfillmentCountByState fulfillment.StateFailed with
          | error e => simp
          | ok n =>
            by_cases hn : n > s.conf.maxGlobalFailedFulfillments
            · simp [hn]
            · simp only [hn, ↓reduceIte, contextualScheduling_ok_iff, Except.ok.injEq,
                exists_eq_left']
              constructor
              · intro h; exact ⟨hall, by omega, h⟩
              · intro h; exact h.2.2

theorem circuitBreakers_err (enforce : ocp_data.Provider → Option Error)
    (s : contextualScheduler) (handler : FulfillmentHandler) (r : fulfillment.Record)
    (log : List Call) (h : (circuitBreakers enforce s handler r log).ok = true) :
    (circuitBreakers enforce s handler r log).err = none := by
  unfold circuitBreakers at h ⊢
  cases hd : s.conf.disableTransactionScheduling with
  | true => simp [hd] at h
  | false =>
    simp only [hd, Bool.false_eq_true, ↓reduceIte] at h ⊢
    rcases hacc : accountCircuitBreaker s.data (involvedAccounts r)
      (log ++ [Call.disableTransactionSchedulingGet]) with ⟨res, log2⟩
    rw [hacc] at h
    cases res with
    | some p =>
      rcases p with ⟨ok, err⟩
      have hok : ok = false := accountCircuitBreaker_some s.data _ _ ok err (by rw [hacc])
      subst hok
      simp at h
    | none =>
      simp only at h ⊢
      cases hi : s.data.GetFulfillmentCountByIntentAndState r.Intent fulfillment.StateFailed with
      | error e => simp [hi] at h
      | ok ni =>
        rw [hi] at h
        by_cases hni : ni > 0
        · simp [hni] at h
        · simp only [hni, ↓reduceIte] at h ⊢
          cases hg : s.data.GetFulfillmentCountByState fulfillment.StateFailed with
          | error e => simp [hg] at h
          | ok n =>
            rw [hg] at h
            by_cases hn : n > s.conf.maxGlobalFailedFulfillments
            · simp [hn] at h
            · simp only [hn, ↓reduceIte] at h ⊢
              exact contextualScheduling_err enforce s handler r _ h

theorem CanSubmitToBlockchain_gates_passed (enforce : ocp_data.Provider → Option Error)
    (s : contextualScheduler) (r : fulfillment.Record) (handler : FulfillmentHandler)
    (a : action.Record)
    (hh : s.handlersByType r.FulfillmentType = some handler)
    (hs : r.State = fulfillment.StateUnknown)
    (hsig : handler.SupportsOnDemandTransactions = true ∨ signatureMissing r.Signature = false)
    (ha : s.data.GetActionById r.Intent r.ActionId = Except.ok a)
    (h1 : a.State ≠ action.StateUnknown) (h2 : a.State ≠ action.StateRevoked)
    (h3 : a.State ≠ action.StateFailed) :
    CanSubmitToBlockchain enforce s r =
      circuitBreakers enforce s handler r
        [Call.SupportsOnDemandTransactions r.FulfillmentType,
          Call.GetActionById r.Intent r.ActionId] := by
  have hpre : (!handler.SupportsOnDemandTransactions && signatureMissing r.Signature) = false := by
    rcases hsig with h | h <;> simp [h]
  unfold CanSubmitToBlockchain
  simp only [hh, hpre, hs, ha, fulfillment.State.IsTerminal]
  cases hst : a.State <;> simp_all

theorem CanSubmitToBlockchain_gates_of_ok
    (enforce : ocp_data.Provider → Option Error)
    (s : contextualScheduler) (r : fulfillment.Record)
    (hs : r.State = fulfillment.StateUnknown)
    (hok : (CanSubmitToBlockchain enforce s r).ok = true) :
    ∃ handler, s.handlersByType r.FulfillmentType = some handler ∧
      (handler.SupportsOnDemandTransactions = true ∨
        ∃ sig, r.Signature = some sig ∧ sig ≠ "") ∧
      (∃ a, s.data.GetActionById r.Intent r.ActionId = Except.ok a ∧
        a.State ≠ action.StateUnknown ∧ a.State ≠ action.StateRevoked ∧
        a.State ≠ action.StateFailed) ∧
      s.conf.disableTransactionScheduling = false ∧
      s.data.GetFulfillmentCountByStateAndAddress fulfillment.StateFailed r.Source
        = Except.ok 0 ∧
      (∀ d, r.Destination = some d →
        s.data.GetFulfillmentCountByStateAndAddress fulfillment.StateFailed d
          = Except.ok 0) ∧
      s.data.GetFulfillmentCountByIntentAndState r.Intent fulfillment.StateFailed
        = Except.ok 0 ∧
      (∃ n, s.data.GetFulfillmentCountByState fulfillment.StateFailed = Except.ok n ∧
        n ≤ s.conf.maxGlobalFailedFulfillments) ∧
      handler.CanSubmitToBlockchain r = (true, none) ∧
      (s.includeSubsidizerChecks = true → enforce s.data = none) := by
  cases hh : s.handlersByType r.FulfillmentType with
  | none => simp [CanSubmitToBlockchain, hh] at hok
  | some handler =>
    refine ⟨handler, rfl, ?_⟩
    by_cases hpre : (!handler.SupportsOnDemandTransactions && signatureMissing r.Signature) = true
    · simp [CanSubmitToBlockchain, hh, hpre] at hok
    · have hsig : handler.SupportsOnDemandTransactions = true ∨
          signatureMissing r.Signature = false := by
        cases h1 : handler.SupportsOnDemandTransactions <;>
          cases h2 : signatureMissing r.Signature <;> simp_all
      cases ha : s.data.GetActionById r.Intent r.ActionId with
      | error e =>
        simp [CanSubmitToBlockchain, hh, hpre, hs, ha, fulfillment.State.IsTerminal] at hok
      | ok a =>
        by_cases hst : a.State ≠ action.StateUnknown ∧ a.State ≠ action.StateRevoked ∧
            a.State ≠ action.StateFailed
        · rw [CanSubmitToBlockchain_gates_passed enforce s r handler a hh hs hsig ha
            hst.1 hst.2.1 hst.2.2] at hok
          have hg := (circuitBreakers_ok_iff enforce s handler r _).mp hok
          rw [forall_involvedAccounts] at hg
          refine ⟨?_, ⟨a, rfl, hst⟩, hg.1, hg.2.1.1, hg.2.1.2, hg.2.2⟩
          rcases hsig with h | h
          · exact Or.inl h
          · exact Or.inr ((signatureMissing_false_iff _).mp h)
        · exfalso
          simp only [CanSubmitToBlockchain, hh, hpre, hs, ha,
            fulfillment.State.IsTerminal] at hok
          cases hx : a.State <;> simp_all

theorem signed_of_claim (handler : FulfillmentHandler) (r : fulfillment.Record)
    (hsig : handler.SupportsOnDemandTransactions = true ∨
      ∃ sig, r.Signature = some sig ∧ sig ≠ "") :
    handler.SupportsOnDemandTransactions = true ∨ signatureMissing r.Signature = false := by
  rcases hsig with h | h
  · exact Or.inl h
  · exact Or.inr ((signatureMissing_false_iff _).mpr h)

theorem circuitBreakers_disabled (enforce : ocp_data.Provider → Option Error)
    (s : contextualScheduler) (handler : FulfillmentHandler) (r : fulfillment.Record)
    (log : List Call) (hd : s.conf.disableTransactionScheduling = true) :
    circuitBreakers enforce s handler r log =
      ⟨false, none, log ++ [Call.disableTransactionSchedulingGet]⟩ := by
  simp [circuitBreakers, hd]

theorem circuitBreakers_accounts_clear (enforce : ocp_data.Provider → Option Error)
    (s : contextualScheduler) (handler : FulfillmentHandler) (r : fulfillment.Record)
    (log : List Call)
    (hd : s.conf.disableTransactionScheduling = false)
    (hsrc : s.data.GetFulfillmentCountByStateAndAddress fulfillment.StateFailed r.Source
      = Except.ok 0)
    (hdst : ∀ d, r.Destination = some d →
      s.data.GetFulfillmentCountByStateAndAddress fulfillment.StateFailed d = Except.ok 0) :
    circuitBreakers enforce s handler r log =
      (match s.data.GetFulfillmentCountByIntentAndState r.Intent fulfillment.StateFailed with
      | Except.error e => ⟨false, some e,
          (log ++ [Call.disableTransactionSchedulingGet] ++ (involvedAccounts r).map
            (Call.GetFulfillmentCountByStateAndAddress fulfillment.StateFailed)) ++
          [Call.GetFulfillmentCountByIntentAndState r.Intent fulfillment.StateFailed]⟩
      | Except.ok numFailedForIntent =>
        if numFailedForIntent > 0 then ⟨false, none,
          (log ++ [Call.disableTransactionSchedulingGet] ++ (involvedAccounts r).map
            (Call.GetFulfillmentCountByStateAndAddress fulfillment.StateFailed)) ++
          [Call.GetFulfillmentCountByIntentAndState r.Intent fulfillment.StateFailed]⟩
        else
          match s.data.GetFulfillmentCountByState fulfillment.StateFailed with
          | Except.error e => ⟨false, some e,
              (log ++ [Call.disableTransactionSchedulingGet] ++ (involvedAccounts r).map
                (Call.GetFulfillmentCountByStateAndAddress fulfillment.StateFailed)) ++
              [Call.GetFulfillmentCountByIntentAndState r.Intent fulfillment.StateFailed] ++
              [Call.GetFulfillmentCountByState fulfillment.StateFailed]⟩
          | Except.ok numFailedFulfillments =>
            if numFailedFulfillments > s.conf.maxGlobalFailedFulfillments then
              ⟨false, none,
                (log ++ [Call.disableTransactionSchedulingGet] ++ (involvedAccounts r).map
                  (Call.GetFulfillmentCountByStateAndAddress fulfillment.StateFailed)) ++
                [Call.GetFulfillmentCountByIntentAndState r.Intent fulfillment.StateFailed] ++
                [Call.GetFulfillmentCountByState fulfillment.StateFailed] ++
                [Call.maxGlobalFailedFulfillmentsGet]⟩
            else contextualScheduling enforce s handler r
              ((log ++ [Call.disableTransactionSchedulingGet] ++ (involvedAccounts r).map
                (Call.GetFulfillmentCountByStateAndAddress fulfillment.StateFailed)) ++
              [Call.GetFulfillmentCountByIntentAndState r.Intent fulfillment.StateFailed] ++
              [Call.GetFulfillmentCountByState fulfillment.StateFailed] ++
              [Call.maxGlobalFailedFulfillmentsGet])) := by
  have hall := (forall_involvedAccounts r (fun acc =>
    s.data.GetFulfillmentCountByStateAndAddress fulfillment.StateFailed acc
      = Except.ok 0)).mpr ⟨hsrc, hdst⟩
  unfold circuitBreakers
  simp only [hd, Bool.false_eq_true, ↓reduceIte,
    accountCircuitBreaker_pass s.data (involvedAccounts r) _ hall]

/-! ## The claims about `CanSubmitToBlockchain` -/

/-- C1: for a fulfillment record in state Unknown, `CanSubmitToBlockchain`
returns `(true, nil)` if and only if all five gates pass (every store read
succeeding): (1) the type has a registered handler and the handler supports
on-demand transactions or the Signature is non-nil and non-empty; (2) the
parent action is read and is not Unknown, Revoked or Failed; (3) scheduling is
not disabled, the source and (when set) the destination have zero Failed
fulfillments, the intent has zero Failed fulfillments and the global Failed
count does not exceed `maxGlobalFailedFulfillments`; (4) the handler's
`CanSubmitToBlockchain` returns `(true, nil)`; (5) when subsidizer checks are
enabled, `EnforceMinimumSubsidizerBalance` returns no error. -/
theorem CanSubmitToBlockchain_true_iff_all_gates
    (enforce : ocp_data.Provider → Option Error)
    (s : contextualScheduler) (r : fulfillment.Record)
    (hs : r.State = fulfillment.StateUnknown) :
    ((CanSubmitToBlockchain enforce s r).ok = true ∧
        (CanSubmitToBlockchain enforce s r).err = none) ↔
      ∃ handler, s.handlersByType r.FulfillmentType = some handler ∧
        (handler.SupportsOnDemandTransactions = true ∨
          ∃ sig, r.Signature = some sig ∧ sig ≠ "") ∧
        (∃ a, s.data.GetActionById r.Intent r.ActionId = Except.ok a ∧
          a.State ≠ action.StateUnknown ∧ a.State ≠ action.StateRevoked ∧
          a.State ≠ action.StateFailed) ∧
        s.conf.disableTransactionScheduling = false ∧
        s.data.GetFulfillmentCountByStateAndAddress fulfillment.StateFailed r.Source
          = Except.ok 0 ∧
        (∀ d, r.Destination = some d →
          s.data.GetFulfillmentCountByStateAndAddress fulfillment.StateFailed d
            = Except.ok 0) ∧
        s.data.GetFulfillmentCountByIntentAndState r.Intent fulfillment.StateFailed
          = Except.ok 0 ∧
        (∃ n, s.data.GetFulfillmentCountByState fulfillment.StateFailed = Except.ok n ∧
          n ≤ s.conf.maxGlobalFailedFulfillments) ∧
        handler.CanSubmitToBlockchain r = (true, none) ∧
        (s.includeSubsidizerChecks = true → enforce s.data = none) := by
  constructor
  · rintro ⟨hok, -⟩
    exact CanSubmitToBlockchain_gates_of_ok enforce s r hs hok
  · rintro ⟨handler, hh, hsig, ⟨a, ha, h1, h2, h3⟩, hd, hsrc, hdst, hi, hg, hc, he⟩
    rw [CanSubmitToBlockchain_gates_passed enforce s r handler a hh hs
      (signed_of_claim handler r hsig) ha h1 h2 h3]
    have hok : (circuitBreakers enforce s handler r
        [Call.SupportsOnDemandTransactions r.FulfillmentType,
          Call.GetActionById r.Intent r.ActionId]).ok = true := by
      rw [circuitBreakers_ok_iff, forall_involvedAccounts]
      exact ⟨hd, ⟨hsrc, hdst⟩, hi, hg, hc, he⟩
    exact ⟨hok, circuitBreakers_err enforce s handler r _ hok⟩

/-- Witness for C1: on the all-clear scheduler the Unknown record is scheduled,
and the equivalence yields its registered handler and that handler's consent. -/
theorem CanSubmitToBlockchain_true_iff_all_gates_witness :
    okRecord.State = fulfillment.StateUnknown ∧
      (CanSubmitToBlockchain okEnforce okScheduler okRecord).ok = true ∧
      ∃ handler, okScheduler.handlersByType okRecord.FulfillmentType = some handler ∧
        handler.CanSubmitToBlockchain okRecord = (true, none) := by
  refine ⟨rfl, by decide, ?_⟩
  obtain ⟨handler, hh, _, _, _, _, _, _, _, hc, _⟩ :=
    (CanSubmitToBlockchain_true_iff_all_gates okEnforce okScheduler okRecord rfl).mp
      (by decide)
  exact ⟨handler, hh, hc⟩

/-- C2: account-tier circuit breaker.  For a record in state Unknown that
passes the fulfillment and action preconditions, if the source account has a
Failed fulfillment, or the source has none and the destination (when set) has
one, `CanSubmitToBlockchain` returns `(false, nil)` and the handler's scheduling
check is never called. -/
theorem CanSubmitToBlockchain_account_circuit_breaker
    (enforce : ocp_data.Provider → Option Error)
    (s : contextualScheduler) (r : fulfillment.Record) (handler : FulfillmentHandler)
    (a : action.Record) (numSource : Nat)
    (hs : r.State = fulfillment.StateUnknown)
    (hh : s.handlersByType r.FulfillmentType = some handler)
    (hsig : handler.SupportsOnDemandTransactions = true ∨
      ∃ sig, r.Signature = some sig ∧ sig ≠ "")
    (ha : s.data.GetActionById r.Intent r.ActionId = Except.ok a)
    (h1 : a.State ≠ action.StateUnknown) (h2 : a.State ≠ action.StateRevoked)
    (h3 : a.State ≠ action.StateFailed)
    (hsrc : s.data.GetFulfillmentCountByStateAndAddress fulfillment.StateFailed r.Source
      = Except.ok numSource)
    (hfailed : 0 < numSource ∨ ∃ d numDestination, r.Destination = some d ∧
      s.data.GetFulfillmentCountByStateAndAddress fulfillment.StateFailed d
        = Except.ok numDestination ∧ 0 < numDestination) :
    (CanSubmitToBlockchain enforce s r).ok = false ∧
      (CanSubmitToBlockchain enforce s r).err = none ∧
      ∀ c ∈ (CanSubmitToBlockchain enforce s r).calls, c.isHandlerCheck = false := by
  rw [CanSubmitToBlockchain_gates_passed enforce s r handler a hh hs
    (signed_of_claim handler r hsig) ha h1 h2 h3]
  cases hd : s.conf.disableTransactionScheduling with
  | true =>
    rw [circuitBreakers_disabled enforce s handler r _ hd]
    simp [Call.isHandlerCheck]
  | false =>
    by_cases hpos : 0 < numSource
    · cases hdst : r.Destination <;>
        simp [circuitBreakers, hd, involvedAccounts, hdst, accountCircuitBreaker, hsrc, hpos,
          Call.isHandlerCheck]
    · obtain ⟨d, nd, hdst, hcount, hnd⟩ := hfailed.resolve_left hpos
      simp [circuitBreakers, hd, involvedAccounts, hdst, accountCircuitBreaker, hsrc, hpos,
        hcount, hnd, Call.isHandlerCheck]

/-- Witness for C2: account A, the source of the record, has one Failed
fulfillment. -/
theorem CanSubmitToBlockchain_account_circuit_breaker_witness :
    okRecord.State = fulfillment.StateUnknown ∧
      failedAccountScheduler.data.GetFulfillmentCountByStateAndAddress
        fulfillment.StateFailed okRecord.Source = Except.ok 1 ∧
      (CanSubmitToBlockchain okEnforce failedAccountScheduler okRecord).ok = false ∧
      (CanSubmitToBlockchain okEnforce failedAccountScheduler okRecord).err = none ∧
      ∀ c ∈ (CanSubmitToBlockchain okEnforce failedAccountScheduler okRecord).calls,
        c.isHandlerCheck = false :=
  ⟨rfl, rfl,
    CanSubmitToBlockchain_account_circuit_breaker okEnforce failedAccountScheduler okRecord
      signedHandler ⟨"intent", 0, action.StatePending⟩ 1 rfl rfl
      (Or.inr ⟨"sig", rfl, by decide⟩) rfl (by decide) (by decide) (by decide) rfl
      (Or.inl (by decide))⟩

/-- C3: intent-tier circuit breaker.  For a record in state Unknown that passes
the fulfillment and action preconditions and the account-tier breaker, if the
store reports at least one Failed fulfillment for the record's intent,
`CanSubmitToBlockchain` returns `(false, nil)`. -/
theorem CanSubmitToBlockchain_intent_circuit_breaker
    (enforce : ocp_data.Provider → Option Error)
    (s : contextualScheduler) (r : fulfillment.Record) (handler : FulfillmentHandler)
    (a : action.Record) (numIntent : Nat)
    (hs : r.State = fulfillment.StateUnknown)
    (hh : s.handlersByType r.FulfillmentType = some handler)
    (hsig : handler.SupportsOnDemandTransactions = true ∨
      ∃ sig, r.Signature = some sig ∧ sig ≠ "")
    (ha : s.data.GetActionById r.Intent r.ActionId = Except.ok a)
    (h1 : a.State ≠ action.StateUnknown) (h2 : a.State ≠ action.StateRevoked)
    (h3 : a.State ≠ action.StateFailed)
    (hsrc : s.data.GetFulfillmentCountByStateAndAddress fulfillment.StateFailed r.Source
      = Except.ok 0)
    (hdst : ∀ d, r.Destination = some d →
      s.data.GetFulfillmentCountByStateAndAddress fulfillment.StateFailed d = Except.ok 0)
    (hi : s.data.GetFulfillmentCountByIntentAndState r.Intent fulfillment.StateFailed
      = Except.ok numIntent)
    (hpos : 0 < numIntent) :
    (CanSubmitToBlockchain enforce s r).ok = false ∧
      (CanSubmitToBlockchain enforce s r).err = none := by
  rw [CanSubmitToBlockchain_gates_passed enforce s r handler a hh hs
    (signed_of_claim handler r hsig) ha h1 h2 h3]
  cases hd : s.conf.disableTransactionScheduling with
  | true =>
    rw [circuitBreakers_disabled enforce s handler r _ hd]
    simp
  | false =>
    rw [circuitBreakers_accounts_clear enforce s handler r _ hd hsrc hdst]
    simp [hi, hpos]

/-- Witness for C3: the accounts are clear and the intent has one Failed
fulfillment. -/
theorem CanSubmitToBlockchain_intent_circuit_breaker_witness :
    okRecord.State = fulfillment.StateUnknown ∧
      failedIntentScheduler.data.GetFulfillmentCountByIntentAndState okRecord.Intent
        fulfillment.StateFailed = Except.ok 1 ∧
      (CanSubmitToBlockchain okEnforce failedIntentScheduler okRecord).ok = false ∧
      (CanSubmitToBlockchain okEnforce failedIntentScheduler okRecord).err = none :=
  ⟨rfl, rfl,
    CanSubmitToBlockchain_intent_circuit_breaker okEnforce failedIntentScheduler okRecord
      signedHandler ⟨"intent", 0, action.StatePending⟩ 1 rfl rfl
      (Or.inr ⟨"sig", rfl, by decide⟩) rfl (by decide) (by decide) (by decide) rfl
      (fun _ _ => rfl) rfl (by decide)⟩

/-- Counterexample to C4 as stated: with `disableTransactionScheduling` set, a
signed Pending record is still answered `(true, nil)`; the flag is never read. -/
theorem CanSubmitToBlockchain_disabled_pending_counterexample :
    disabledScheduler.conf.disableTransactionScheduling = true ∧
      CanSubmitToBlockchain okEnforce disabledScheduler pendingRecord =
        ⟨true, none, [Call.SupportsOnDemandTransactions 1]⟩ := by
  decide

/-- C4 (amended): whenever `disableTransactionScheduling` is set,
`CanSubmitToBlockchain` does not return true for any record that is not already
in state Pending, whatever its signature, action state or failure counts. -/
theorem CanSubmitToBlockchain_disabled_not_pending
    (enforce : ocp_data.Provider → Option Error)
    (s : contextualScheduler) (r : fulfillment.Record)
    (hd : s.conf.disableTransactionScheduling = true)
    (hs : r.State ≠ fulfillment.StatePending) :
    (CanSubmitToBlockchain enforce s r).ok = false := by
  unfold CanSubmitToBlockchain
  cases hh : s.handlersByType r.FulfillmentType with
  | none => rfl
  | some handler =>
    simp only
    split
    · rfl
    · split
      · rfl
      · cases ha : s.data.GetActionById r.Intent r.ActionId with
        | error e => rfl
        | ok a =>
          simp only
          cases hst : a.State <;> simp [circuitBreakers_disabled enforce s handler r _ hd]

/-- Witness for C4 (amended): the switch is set and the record is Unknown. -/
theorem CanSubmitToBlockchain_disabled_not_pending_witness :
    disabledScheduler.conf.disableTransactionScheduling = true ∧
      okRecord.State ≠ fulfillment.StatePending ∧
      (CanSubmitToBlockchain okEnforce disabledScheduler okRecord).ok = false :=
  ⟨rfl, by decide,
    CanSubmitToBlockchain_disabled_not_pending okEnforce disabledScheduler okRecord rfl
      (by decide)⟩

/-- Counterexample to C5 as stated: a Pending record whose type has a
registered handler is refused when the handler does not support on-demand
transactions and the Signature is nil. -/
theorem CanSubmitToBlockchain_pending_unsigned_counterexample :
    okScheduler.handlersByType pendingUnsignedRecord.FulfillmentType = some signedHandler ∧
      pendingUnsignedRecord.State = fulfillment.StatePending ∧
      CanSubmitToBlockchain okEnforce okScheduler pendingUnsignedRecord =
        ⟨false, none, [Call.SupportsOnDemandTransactions 1]⟩ :=
  ⟨rfl, rfl, by decide⟩

/-- C5 (amended): for a record in state Pending whose type has a registered
handler and which passes the signed-transaction check (the handler supports
on-demand transactions, or the Signature is non-nil and non-empty),
`CanSubmitToBlockchain` returns `(true, nil)`; its only call is the handler's
`SupportsOnDemandTransactions`, so neither the action record nor any failure
count is read from the store. -/
theorem CanSubmitToBlockchain_pending_schedulable
    (enforce : ocp_data.Provider → Option Error)
    (s : contextualScheduler) (r : fulfillment.Record) (handler : FulfillmentHandler)
    (hh : s.handlersByType r.FulfillmentType = some handler)
    (hs : r.State = fulfillment.StatePending)
    (hsig : handler.SupportsOnDemandTransactions = true ∨
      ∃ sig, r.Signature = some sig ∧ sig ≠ "") :
    (CanSubmitToBlockchain enforce s r).ok = true ∧
      (CanSubmitToBlockchain enforce s r).err = none ∧
      (CanSubmitToBlockchain enforce s r).calls =
        [Call.SupportsOnDemandTransactions r.FulfillmentType] ∧
      ∀ c ∈ (CanSubmitToBlockchain enforce s r).calls, c.isStoreRead = false := by
  have hpre : (!handler.SupportsOnDemandTransactions && signatureMissing r.Signature) = false := by
    rcases signed_of_claim handler r hsig with h | h <;> simp [h]
  simp [CanSubmitToBlockchain, hh, hpre, hs, fulfillment.State.IsTerminal, Call.isStoreRead]

/-- Witness for C5 (amended): a signed Pending record of a registered type. -/
theorem CanSubmitToBlockchain_pending_schedulable_witness :
    pendingRecord.State = fulfillment.StatePending ∧
      (CanSubmitToBlockchain okEnforce okScheduler pendingRecord).ok = true ∧
      (CanSubmitToBlockchain okEnforce okScheduler pendingRecord).err = none ∧
      (CanSubmitToBlockchain okEnforce okScheduler pendingRecord).calls =
        [Call.SupportsOnDemandTransactions pendingRecord.FulfillmentType] ∧
      ∀ c ∈ (CanSubmitToBlockchain okEnforce okScheduler pendingRecord).calls,
        c.isStoreRead = false :=
  ⟨rfl,
    CanSubmitToBlockchain_pending_schedulable okEnforce okScheduler pendingRecord
      signedHandler rfl rfl (Or.inr ⟨"sig", rfl, by decide⟩)⟩

/-- C6: fulfillment-precondition refusal.  For a record whose type has a
registered handler, if the record is in a terminal state (Confirmed, Failed or
Revoked), or the handler does not support on-demand transactions and the
Signature is nil or the empty string, `CanSubmitToBlockchain` returns
`(false, nil)`; its only call is the handler's `SupportsOnDemandTransactions`,
so the store is not accessed. -/
theorem CanSubmitToBlockchain_precondition_refusal
    (enforce : ocp_data.Provider → Option Error)
    (s : contextualScheduler) (r : fulfillment.Record) (handler : FulfillmentHandler)
    (hh : s.handlersByType r.FulfillmentType = some handler)
    (hpre : (r.State = fulfillment.StateConfirmed ∨ r.State = fulfillment.StateFailed ∨
        r.State = fulfillment.StateRevoked) ∨
      (handler.SupportsOnDemandTransactions = false ∧
        (r.Signature = none ∨ r.Signature = some ""))) :
    (CanSubmitToBlockchain enforce s r).ok = false ∧
      (CanSubmitToBlockchain enforce s r).err = none ∧
      (CanSubmitToBlockchain enforce s r).calls =
        [Call.SupportsOnDemandTransactions r.FulfillmentType] ∧
      ∀ c ∈ (CanSubmitToBlockchain enforce s r).calls, c.mayAccessStore = false := by
  by_cases hsig : (!handler.SupportsOnDemandTransactions && signatureMissing r.Signature) = true
  · simp [CanSubmitToBlockchain, hh, hsig, Call.mayAccessStore, Call.isStoreRead]
  · rcases hpre with hterm | ⟨hod, hmiss⟩
    · have ht : r.State.IsTerminal = true := by
        rcases hterm with h | h | h <;> rw [h] <;> rfl
      simp [CanSubmitToBlockchain, hh, hsig, ht, Call.mayAccessStore, Call.isStoreRead]
    · exfalso
      apply hsig
      simp [hod, (signatureMissing_iff r.Signature).mpr hmiss]

/-- Witness for C6: a record in the terminal state Confirmed. -/
theorem CanSubmitToBlockchain_precondition_refusal_witness :
    confirmedRecord.State = fulfillment.StateConfirmed ∧
      (CanSubmitToBlockchain okEnforce okScheduler confirmedRecord).ok = false ∧
      (CanSubmitToBlockchain okEnforce okScheduler confirmedRecord).err = none ∧
      (CanSubmitToBlockchain okEnforce okScheduler confirmedRecord).calls =
        [Call.SupportsOnDemandTransactions confirmedRecord.FulfillmentType] ∧
      ∀ c ∈ (CanSubmitToBlockchain okEnforce okScheduler confirmedRecord).calls,
        c.mayAccessStore = false :=
  ⟨rfl,
    CanSubmitToBlockchain_precondition_refusal okEnforce okScheduler confirmedRecord
      signedHandler rfl (Or.inl (Or.inl rfl))⟩

/-- C7: for a record whose FulfillmentType has no entry in `handlersByType`,
`CanSubmitToBlockchain` returns false together with a non-nil error, whatever
the record's state, and makes no call at all (so no store access). -/
theorem CanSubmitToBlockchain_no_handler
    (enforce : ocp_data.Provider → Option Error)
    (s : contextualScheduler) (r : fulfillment.Record)
    (hh : s.handlersByType r.FulfillmentType = none) :
    (CanSubmitToBlockchain enforce s r).ok = false ∧
      (CanSubmitToBlockchain enforce s r).err =
        some (Error.noFulfillmentHandler r.FulfillmentType) ∧
      (CanSubmitToBlockchain enforce s r).err ≠ none ∧
      (CanSubmitToBlockchain enforce s r).calls = [] := by
  simp [CanSubmitToBlockchain, hh]

/-- Witness for C7: fulfillment type 2 is not registered in `okScheduler`. -/
theorem CanSubmitToBlockchain_no_handler_witness :
    (CanSubmitToBlockchain okEnforce okScheduler unregisteredRecord).ok = false ∧
      (CanSubmitToBlockchain okEnforce okScheduler unregisteredRecord).err =
        some (Error.noFulfillmentHandler unregisteredRecord.FulfillmentType) ∧
      (CanSubmitToBlockchain okEnforce okScheduler unregisteredRecord).err ≠ none ∧
      (CanSubmitToBlockchain okEnforce okScheduler unregisteredRecord).calls = [] :=
  CanSubmitToBlockchain_no_handler okEnforce okScheduler unregisteredRecord rfl

/-- C8: action precondition.  For a record in state Unknown that passes the
fulfillment precondition, if the parent action is in state Unknown, Revoked or
Failed, `CanSubmitToBlockchain` returns `(false, nil)` (no error), having only
queried the handler's capability and read the action: no circuit-breaker count
is queried. -/
theorem CanSubmitToBlockchain_action_precondition
    (enforce : ocp_data.Provider → Option Error)
    (s : contextualScheduler) (r : fulfillment.Record) (handler : FulfillmentHandler)
    (a : action.Record)
    (hs : r.State = fulfillment.StateUnknown)
    (hh : s.handlersByType r.FulfillmentType = some handler)
    (hsig : handler.SupportsOnDemandTransactions = true ∨
      ∃ sig, r.Signature = some sig ∧ sig ≠ "")
    (ha : s.data.GetActionById r.Intent r.ActionId = Except.ok a)
    (hst : a.State = action.StateUnknown ∨ a.State = action.StateRevoked ∨
      a.State = action.StateFailed) :
    (CanSubmitToBlockchain enforce s r).ok = false ∧
      (CanSubmitToBlockchain enforce s r).err = none ∧
      (CanSubmitToBlockchain enforce s r).calls =
        [Call.SupportsOnDemandTransactions r.FulfillmentType,
          Call.GetActionById r.Intent r.ActionId] ∧
      ∀ c ∈ (CanSubmitToBlockchain enforce s r).calls, c.isFailureCount = false := by
  have hpre : (!handler.SupportsOnDemandTransactions && signatureMissing r.Signature) = false := by
    rcases signed_of_claim handler r hsig with h | h <;> simp [h]
  rcases hst with h | h | h <;>
    simp [CanSubmitToBlockchain, hh, hpre, hs, ha, h, fulfillment.State.IsTerminal,
      Call.isFailureCount]

/-- Witness for C8: the parent action is in state Revoked. -/
theorem CanSubmitToBlockchain_action_precondition_witness :
    okRecord.State = fulfillment.StateUnknown ∧
      (CanSubmitToBlockchain okEnforce (actionStateScheduler action.StateRevoked)
        okRecord).ok = false ∧
      (CanSubmitToBlockchain okEnforce (actionStateScheduler action.StateRevoked)
        okRecord).err = none ∧
      (CanSubmitToBlockchain okEnforce (actionStateScheduler action.StateRevoked)
        okRecord).calls =
        [Call.SupportsOnDemandTransactions okRecord.FulfillmentType,
          Call.GetActionById okRecord.Intent okRecord.ActionId] ∧
      ∀ c ∈ (CanSubmitToBlockchain okEnforce (actionStateScheduler action.StateRevoked)
        okRecord).calls, c.isFailureCount = false :=
  ⟨rfl,
    CanSubmitToBlockchain_action_precondition okEnforce
      (actionStateScheduler action.StateRevoked) okRecord signedHandler
      ⟨"intent", 0, action.StateRevoked⟩ rfl rfl (Or.inr ⟨"sig", rfl, by decide⟩) rfl
      (Or.inr (Or.inl rfl))⟩

/-- Counterexample to C9 as stated: with the parent action in state Confirmed
and every other gate passing, an Unknown record is answered `(true, nil)`. -/
theorem CanSubmitToBlockchain_confirmed_action_counterexample :
    okRecord.State = fulfillment.StateUnknown ∧
      (actionStateScheduler action.StateConfirmed).data.GetActionById okRecord.Intent
        okRecord.ActionId = Except.ok ⟨"intent", 0, action.StateConfirmed⟩ ∧
      (CanSubmitToBlockchain okEnforce (actionStateScheduler action.StateConfirmed)
        okRecord).ok = true ∧
      (CanSubmitToBlockchain okEnforce (actionStateScheduler action.StateConfirmed)
        okRecord).err = none :=
  ⟨rfl, rfl, by decide, by decide⟩

/-- C9 (amended): for a record in state Unknown, if `CanSubmitToBlockchain`
returns true then the parent action was read and is in state Pending or
Confirmed (an Unknown parent defers; Revoked and Failed parents disqualify). -/
theorem CanSubmitToBlockchain_true_action_state
    (enforce : ocp_data.Provider → Option Error)
    (s : contextualScheduler) (r : fulfillment.Record)
    (hs : r.State = fulfillment.StateUnknown)
    (hok : (CanSubmitToBlockchain enforce s r).ok = true) :
    ∃ a, s.data.GetActionById r.Intent r.ActionId = Except.ok a ∧
      (a.State = action.StatePending ∨ a.State = action.StateConfirmed) := by
  obtain ⟨_, _, _, ⟨a, ha, h1, h2, h3⟩, _⟩ :=
    CanSubmitToBlockchain_gates_of_ok enforce s r hs hok
  refine ⟨a, ha, ?_⟩
  cases hst : a.State <;> simp_all

/-- Witness for C9 (amended): the all-clear scheduler, whose actions are
Pending, schedules the Unknown record. -/
theorem CanSubmitToBlockchain_true_action_state_witness :
    okRecord.State = fulfillment.StateUnknown ∧
      (CanSubmitToBlockchain okEnforce okScheduler okRecord).ok = true ∧
      ∃ a, okScheduler.data.GetActionById okRecord.Intent okRecord.ActionId = Except.ok a ∧
        (a.State = action.StatePending ∨ a.State = action.StateConfirmed) :=
  ⟨rfl, by decide,
    CanSubmitToBlockchain_true_action_state okEnforce okScheduler okRecord rfl (by decide)⟩

/-- C10: global-tier circuit breaker.  For a record in state Unknown that
passes all earlier gates (preconditions, manual switch, account and intent
breakers), with `numFailed` the total count of Failed fulfillments:
`CanSubmitToBlockchain` refuses with `(false, nil)` without consulting the
handler exactly when `numFailed` is strictly greater than
`maxGlobalFailedFulfillments`; when `numFailed` is at most the threshold (in
particular equal to it) the breaker does not trip: the handler is consulted and
the answer is the one of the handler and subsidizer gates. -/
theorem CanSubmitToBlockchain_global_circuit_breaker
    (enforce : ocp_data.Provider → Option Error)
    (s : contextualScheduler) (r : fulfillment.Record) (handler : FulfillmentHandler)
    (a : action.Record) (numFailed : Nat)
    (hs : r.State = fulfillment.StateUnknown)
    (hh : s.handlersByType r.FulfillmentType = some handler)
    (hsig : handler.SupportsOnDemandTransactions = true ∨
      ∃ sig, r.Signature = some sig ∧ sig ≠ "")
    (ha : s.data.GetActionById r.Intent r.ActionId = Except.ok a)
    (h1 : a.State ≠ action.StateUnknown) (h2 : a.State ≠ action.StateRevoked)
    (h3 : a.State ≠ action.StateFailed)
    (hd : s.conf.disableTransactionScheduling = false)
    (hsrc : s.data.GetFulfillmentCountByStateAndAddress fulfillment.StateFailed r.Source
      = Except.ok 0)
    (hdst : ∀ d, r.Destination = some d →
      s.data.GetFulfillmentCountByStateAndAddress fulfillment.StateFailed d = Except.ok 0)
    (hi : s.data.GetFulfillmentCountByIntentAndState r.Intent fulfillment.StateFailed
      = Except.ok 0)
    (hg : s.data.GetFulfillmentCountByState fulfillment.StateFailed = Except.ok numFailed) :
    (((CanSubmitToBlockchain enforce s r).ok = false ∧
        (CanSubmitToBlockchain enforce s r).err = none ∧
        ∀ c ∈ (CanSubmitToBlockchain enforce s r).calls, c.isHandlerCheck = false) ↔
      s.conf.maxGlobalFailedFulfillments < numFailed) ∧
    (numFailed ≤ s.conf.maxGlobalFailedFulfillments →
      Call.handlerCanSubmitToBlockchain r.FulfillmentType ∈
        (CanSubmitToBlockchain enforce s r).calls ∧
      ((CanSubmitToBlockchain enforce s r).ok = true ↔
        (handler.CanSubmitToBlockchain r = (true, none) ∧
          (s.includeSubsidizerChecks = true → enforce s.data = none)))) := by
  rw [CanSubmitToBlockchain_gates_passed enforce s r handler a hh hs
    (signed_of_claim handler r hsig) ha h1 h2 h3,
    circuitBreakers_accounts_clear enforce s handler r _ hd hsrc hdst]
  simp only [hi, hg, gt_iff_lt, lt_self_iff_false, ↓reduceIte]
  by_cases hn : s.conf.maxGlobalFailedFulfillments < numFailed
  · simp only [hn, ↓reduceIte, true_and, iff_true]
    refine ⟨?_, fun h => absurd hn (by omega)⟩
    intro c hc
    simp only [List.mem_append, List.mem_cons, List.mem_map, List.mem_singleton,
      List.not_mem_nil, or_false] at hc
    rcases hc with ((((((rfl | rfl) | rfl) | ⟨acc, hacc, rfl⟩) | rfl) | rfl) | rfl) <;> rfl
  · simp only [hn, ↓reduceIte, iff_false, not_and]
    refine ⟨fun _ _ hcalls => ?_, fun _ => ⟨contextualScheduling_calls enforce s handler r _,
      contextualScheduling_ok_iff enforce s handler r _⟩⟩
    have := hcalls _ (contextualScheduling_calls enforce s handler r _)
    simp [Call.isHandlerCheck] at this

/-- Witness for C10: with the count equal to the threshold 5 the breaker does
not trip, the handler is consulted and the record is scheduled. -/
theorem CanSubmitToBlockchain_global_circuit_breaker_witness :
    (globalFailedScheduler 5).data.GetFulfillmentCountByState fulfillment.StateFailed
        = Except.ok (globalFailedScheduler 5).conf.maxGlobalFailedFulfillments ∧
      Call.handlerCanSubmitToBlockchain okRecord.FulfillmentType ∈
        (CanSubmitToBlockchain okEnforce (globalFailedScheduler 5) okRecord).calls ∧
      (CanSubmitToBlockchain okEnforce (globalFailedScheduler 5) okRecord).ok = true ∧
      (CanSubmitToBlockchain okEnforce (globalFailedScheduler 6) okRecord) =
        ⟨false, none, [Call.SupportsOnDemandTransactions 1, Call.GetActionById "intent" 0,
          Call.disableTransactionSchedulingGet,
          Call.GetFulfillmentCountByStateAndAddress fulfillment.StateFailed "A",
          Call.GetFulfillmentCountByStateAndAddress fulfillment.StateFailed "B",
          Call.GetFulfillmentCountByIntentAndState "intent" fulfillment.StateFailed,
          Call.GetFulfillmentCountByState fulfillment.StateFailed,
          Call.maxGlobalFailedFulfillmentsGet]⟩ := by
  have h := CanSubmitToBlockchain_global_circuit_breaker okEnforce (globalFailedScheduler 5)
    okRecord signedHandler ⟨"intent", 0, action.StatePending⟩ 5 rfl rfl
    (Or.inr ⟨"sig", rfl, by decide⟩) rfl (by decide) (by decide) (by decide) rfl rfl
    (fun _ _ => rfl) rfl rfl
  have h5 := h.2 (by decide)
  exact ⟨rfl, h5.1, h5.2.mpr ⟨rfl, fun _ => rfl⟩, by decide⟩

/-! ## The claims about purity and the action handlers -/

theorem accountCircuitBreaker_congr (d1 d2 : ocp_data.Provider) (accs : List String)
    (log : List Call)
    (h : ∀ a ∈ accs, d1.GetFulfillmentCountByStateAndAddress fulfillment.StateFailed a =
      d2.GetFulfillmentCountByStateAndAddress fulfillment.StateFailed a) :
    accountCircuitBreaker d1 accs log = accountCircuitBreaker d2 accs log := by
  induction accs generalizing log with
  | nil => rfl
  | cons a rest ih =>
    have ha := h a (List.mem_cons_self a rest)
    have hr : ∀ b ∈ rest, d1.GetFulfillmentCountByStateAndAddress fulfillment.StateFailed b =
        d2.GetFulfillmentCountByStateAndAddress fulfillment.StateFailed b :=
      fun b hb => h b (List.mem_cons_of_mem a hb)
    simp only [accountCircuitBreaker, ha, ih _ hr]

theorem subsidizerChecks_congr (enforce1 enforce2 : ocp_data.Provider → Option Error)
    (s1 s2 : contextualScheduler) (log : List Call)
    (hinc : s1.includeSubsidizerChecks = s2.includeSubsidizerChecks)
    (henf : enforce1 s1.data = enforce2 s2.data) :
    subsidizerChecks enforce1 s1 log = subsidizerChecks enforce2 s2 log := by
  simp only [subsidizerChecks, hinc, henf]

theorem contextualScheduling_congr (enforce1 enforce2 : ocp_data.Provider → Option Error)
    (s1 s2 : contextualScheduler) (h1 h2 : FulfillmentHandler) (r : fulfillment.Record)
    (log : List Call)
    (hinc : s1.includeSubsidizerChecks = s2.includeSubsidizerChecks)
    (henf : enforce1 s1.data = enforce2 s2.data)
    (hc : h1.CanSubmitToBlockchain r = h2.CanSubmitToBlockchain r) :
    contextualScheduling enforce1 s1 h1 r log = contextualScheduling enforce2 s2 h2 r log := by
  simp only [contextualScheduling, hc,
    subsidizerChecks_congr enforce1 enforce2 s1 s2 _ hinc henf]

theorem circuitBreakers_congr (enforce1 enforce2 : ocp_data.Provider → Option Error)
    (s1 s2 : contextualScheduler) (h1 h2 : FulfillmentHandler) (r : fulfillment.Record)
    (log : List Call)
    (hconf : s1.conf = s2.conf)
    (hinc : s1.includeSubsidizerChecks = s2.includeSubsidizerChecks)
    (henf : enforce1 s1.data = enforce2 s2.data)
    (hc : h1.CanSubmitToBlockchain r = h2.CanSubmitToBlockchain r)
    (hacc : ∀ a ∈ involvedAccounts r,
      s1.data.GetFulfillmentCountByStateAndAddress fulfillment.StateFailed a =
        s2.data.GetFulfillmentCountByStateAndAddress fulfillment.StateFailed a)
    (hintent : s1.data.GetFulfillmentCountByIntentAndState r.Intent fulfillment.StateFailed =
      s2.data.GetFulfillmentCountByIntentAndState r.Intent fulfillment.StateFailed)
    (hglobal : s1.data.GetFulfillmentCountByState fulfillment.StateFailed =
      s2.data.GetFulfillmentCountByState fulfillment.StateFailed) :
    circuitBreakers enforce1 s1 h1 r log = circuitBreakers enforce2 s2 h2 r log := by
  simp only [circuitBreakers, hconf, hintent, hglobal,
    accountCircuitBreaker_congr s1.data s2.data _ _ hacc,
    contextualScheduling_congr enforce1 enforce2 s1 s2 h1 h2 r _ hinc henf hc]

theorem CanSubmitToBlockchain_congr (enforce1 enforce2 : ocp_data.Provider → Option Error)
    (s1 s2 : contextualScheduler) (r : fulfillment.Record)
    (hconf : s1.conf = s2.conf)
    (hinc : s1.includeSubsidizerChecks = s2.includeSubsidizerChecks)
    (hhandler : (s1.handlersByType r.FulfillmentType).map
        (fun h => (h.SupportsOnDemandTransactions, h.CanSubmitToBlockchain r)) =
      (s2.handlersByType r.FulfillmentType).map
        (fun h => (h.SupportsOnDemandTransactions, h.CanSubmitToBlockchain r)))
    (haction : s1.data.GetActionById r.Intent r.ActionId =
      s2.data.GetActionById r.Intent r.ActionId)
    (hacc : ∀ a ∈ involvedAccounts r,
      s1.data.GetFulfillmentCountByStateAndAddress fulfillment.StateFailed a =
        s2.data.GetFulfillmentCountByStateAndAddress fulfillment.StateFailed a)
    (hintent : s1.data.GetFulfillmentCountByIntentAndState r.Intent fulfillment.StateFailed =
      s2.data.GetFulfillmentCountByIntentAndState r.Intent fulfillment.StateFailed)
    (hglobal : s1.data.GetFulfillmentCountByState fulfillment.StateFailed =
      s2.data.GetFulfillmentCountByState fulfillment.StateFailed)
    (henf : enforce1 s1.data = enforce2 s2.data) :
    CanSubmitToBlockchain enforce1 s1 r = CanSubmitToBlockchain enforce2 s2 r := by
  cases hh1 : s1.handlersByType r.FulfillmentType with
  | none =>
    cases hh2 : s2.handlersByType r.FulfillmentType with
    | none => simp only [CanSubmitToBlockchain, hh1, hh2]
    | some h2 => simp [hh1, hh2] at hhandler
  | some h1 =>
    cases hh2 : s2.handlersByType r.FulfillmentType with
    | none => simp [hh1, hh2] at hhandler
    | some h2 =>
      simp only [hh1, hh2, Option.map_some', Option.some.injEq, Prod.mk.injEq] at hhandler
      simp only [CanSubmitToBlockchain, hh1, hh2, hhandler.1, haction,
        circuitBreakers_congr enforce1 enforce2 s1 s2 h1 h2 r _ hconf hinc henf hhandler.2
          hacc hintent hglobal]

theorem validateActionState_pending (record : action.Record) :
    validateActionState record [action.StatePending] =
      if record.State = action.StatePending then none
      else some Error.ErrInvalidActionStateTransition := by
  simp [validateActionState]

theorem markActionConfirmed_pending {σ : Type} (data : ActionData σ) (st : σ)
    (intentId : String) (actionId : Nat) (record : action.Record)
    (hget : data.GetActionById st intentId actionId = Except.ok record)
    (hpending : record.State = action.StatePending) :
    markActionConfirmed data st intentId actionId =
      ⟨(data.UpdateAction st { record with State := action.StateConfirmed }).1,
        (data.UpdateAction st { record with State := action.StateConfirmed }).2,
        [Call.GetActionById intentId actionId,
          Call.UpdateAction { record with State := action.StateConfirmed }]⟩ := by
  simp [markActionConfirmed, hget, hpending, validateActionState]

theorem markActionFailed_pending {σ : Type} (data : ActionData σ) (st : σ)
    (intentId : String) (actionId : Nat) (record : action.Record)
    (hget : data.GetActionById st intentId actionId = Except.ok record)
    (hpending : record.State = action.StatePending) :
    markActionFailed data st intentId actionId =
      ⟨(data.UpdateAction st { record with State := action.StateFailed }).1,
        (data.UpdateAction st { record with State := action.StateFailed }).2,
        [Call.GetActionById intentId actionId,
          Call.UpdateAction { record with State := action.StateFailed }]⟩ := by
  simp [markActionFailed, hget, hpending, validateActionState]

theorem OnFulfillmentStateChange_confirmed {σ : Type} (h : ActionHandler)
    (types : FulfillmentTypes) (data : ActionData σ) (st : σ) (f : fulfillment.Record)
    (htype : f.FulfillmentType = h.expectedType types) :
    h.OnFulfillmentStateChange types data st f fulfillment.StateConfirmed =
      markActionConfirmed data st f.Intent f.ActionId := by
  cases h <;>
    simp [ActionHandler.OnFulfillmentStateChange, ActionHandler.expectedType,
      OpenAccountActionHandler.OnFulfillmentStateChange,
      CloseEmptyAccountActionHandler.OnFulfillmentStateChange,
      NoPrivacyTransferActionHandler.OnFulfillmentStateChange,
      NoPrivacyWithdrawActionHandler.OnFulfillmentStateChange] at htype ⊢ <;>
    simp [htype]

theorem OnFulfillmentStateChange_failed {σ : Type} (h : ActionHandler)
    (types : FulfillmentTypes) (data : ActionData σ) (st : σ) (f : fulfillment.Record)
    (htype : f.FulfillmentType = h.expectedType types) :
    h.OnFulfillmentStateChange types data st f fulfillment.StateFailed =
      markActionFailed data st f.Intent f.ActionId := by
  cases h <;>
    simp [ActionHandler.OnFulfillmentStateChange, ActionHandler.expectedType,
      OpenAccountActionHandler.OnFulfillmentStateChange,
      CloseEmptyAccountActionHandler.OnFulfillmentStateChange,
      NoPrivacyTransferActionHandler.OnFulfillmentStateChange,
      NoPrivacyWithdrawActionHandler.OnFulfillmentStateChange] at htype ⊢ <;>
    simp [htype]

theorem OnFulfillmentStateChange_typeError {σ : Type} (h : ActionHandler)
    (types : FulfillmentTypes) (data : ActionData σ) (st : σ) (f : fulfillment.Record)
    (newState : fulfillment.State)
    (htype : f.FulfillmentType ≠ h.expectedType types) :
    h.OnFulfillmentStateChange types data st f newState =
      ⟨some Error.unexpectedFulfillmentType, st, []⟩ := by
  cases h <;>
    simp [ActionHandler.OnFulfillmentStateChange, ActionHandler.expectedType,
      OpenAccountActionHandler.OnFulfillmentStateChange,
      CloseEmptyAccountActionHandler.OnFulfillmentStateChange,
      NoPrivacyTransferActionHandler.OnFulfillmentStateChange,
      NoPrivacyWithdrawActionHandler.OnFulfillmentStateChange] at htype ⊢ <;>
    simp [htype]

theorem OnFulfillmentStateChange_other {σ : Type} (h : ActionHandler)
    (types : FulfillmentTypes) (data : ActionData σ) (st : σ) (f : fulfillment.Record)
    (newState : fulfillment.State)
    (htype : f.FulfillmentType = h.expectedType types)
    (hc : newState ≠ fulfillment.StateConfirmed) (hf : newState ≠ fulfillment.StateFailed) :
    h.OnFulfillmentStateChange types data st f newState = ⟨none, st, []⟩ := by
  cases h <;>
    simp [ActionHandler.OnFulfillmentStateChange, ActionHandler.expectedType,
      OpenAccountActionHandler.OnFulfillmentStateChange,
      CloseEmptyAccountActionHandler.OnFulfillmentStateChange,
      NoPrivacyTransferActionHandler.OnFulfillmentStateChange,
      NoPrivacyWithdrawActionHandler.OnFulfillmentStateChange] at htype ⊢ <;>
    simp [htype, hc, hf]

/-- C12: for each of the four action handlers and every fulfillment of the
handler's expected type whose parent action is read in state Pending,
`OnFulfillmentStateChange` with new state Confirmed (resp. Failed) reads the
action once and issues exactly one `UpdateAction`, whose argument is the record
that was read with only its State set to Confirmed (resp. Failed); the error
and the store state are the ones `UpdateAction` returns. -/
theorem OnFulfillmentStateChange_pending_action {σ : Type} (h : ActionHandler)
    (types : FulfillmentTypes) (data : ActionData σ) (st : σ) (f : fulfillment.Record)
    (record : action.Record)
    (htype : f.FulfillmentType = h.expectedType types)
    (hget : data.GetActionById st f.Intent f.ActionId = Except.ok record)
    (hpending : record.State = action.StatePending) :
    h.OnFulfillmentStateChange types data st f fulfillment.StateConfirmed =
        ⟨(data.UpdateAction st { record with State := action.StateConfirmed }).1,
          (data.UpdateAction st { record with State := action.StateConfirmed }).2,
          [Call.GetActionById f.Intent f.ActionId,
            Call.UpdateAction { record with State := action.StateConfirmed }]⟩ ∧
      h.OnFulfillmentStateChange types data st f fulfillment.StateFailed =
        ⟨(data.UpdateAction st { record with State := action.StateFailed }).1,
          (data.UpdateAction st { record with State := action.StateFailed }).2,
          [Call.GetActionById f.Intent f.ActionId,
            Call.UpdateAction { record with State := action.StateFailed }]⟩ := by
  rw [OnFulfillmentStateChange_confirmed h types data st f htype,
    OnFulfillmentStateChange_failed h types data st f htype]
  exact ⟨markActionConfirmed_pending data st _ _ record hget hpending,
    markActionFailed_pending data st _ _ record hget hpending⟩

/-- Witness for C12: on the in-memory table with the action of `okRecord`
Pending, the OpenAccount handler stores it as Confirmed, resp. Failed, and
leaves the other action untouched. -/
theorem OnFulfillmentStateChange_pending_action_witness :
    (ActionHandler.OpenAccountActionHandler.OnFulfillmentStateChange demoTypes
        memoryActionData (demoActions action.StatePending) okRecord
        fulfillment.StateConfirmed).store = demoActions action.StateConfirmed ∧
      (ActionHandler.OpenAccountActionHandler.OnFulfillmentStateChange demoTypes
        memoryActionData (demoActions action.StatePending) okRecord
        fulfillment.StateFailed).store = demoActions action.StateFailed := by
  have h := OnFulfillmentStateChange_pending_action ActionHandler.OpenAccountActionHandler
    demoTypes memoryActionData (demoActions action.StatePending) okRecord
    ⟨"intent", 0, action.StatePending⟩ rfl rfl rfl
  rw [h.1, h.2]
  exact ⟨by decide, by decide⟩

theorem markActionConfirmed_again {σ : Type} (data : ActionData σ) (hlaw : data.Lawful)
    (st : σ) (intentId : String) (actionId : Nat)
    (hfirst : (markActionConfirmed data st intentId actionId).err = none) :
    markActionConfirmed data (markActionConfirmed data st intentId actionId).store
        intentId actionId =
      ⟨none, (markActionConfirmed data st intentId actionId).store,
        [Call.GetActionById intentId actionId]⟩ := by
  cases hget : data.GetActionById st intentId actionId with
  | error e => simp [markActionConfirmed, hget] at hfirst
  | ok record =>
    by_cases hc : record.State = action.StateConfirmed
    · have h1 : markActionConfirmed data st intentId actionId =
          ⟨none, st, [Call.GetActionById intentId actionId]⟩ := by
        simp [markActionConfirmed, hget, hc]
      rw [h1]
      exact h1
    · by_cases hp : record.State = action.StatePending
      · have h1 := markActionConfirmed_pending data st intentId actionId record hget hp
        rw [h1] at hfirst ⊢
        simp only at hfirst ⊢
        rcases hupd : data.UpdateAction st { record with State := action.StateConfirmed }
          with ⟨e, st2⟩
        rw [hupd] at hfirst
        simp only at hfirst
        subst hfirst
        have hkey := hlaw.key st intentId actionId record hget
        obtain ⟨stored, hread, hstate⟩ := hlaw.readYourWrite st _ st2 hupd
        simp only [hkey.1, hkey.2] at hread hstate
        simp [markActionConfirmed, hread, hstate]
      · simp [markActionConfirmed, hget, hc, validateActionState, hp] at hfirst

theorem markActionFailed_again {σ : Type} (data : ActionData σ) (hlaw : data.Lawful)
    (st : σ) (intentId : String) (actionId : Nat)
    (hfirst : (markActionFailed data st intentId actionId).err = none) :
    markActionFailed data (markActionFailed data st intentId actionId).store
        intentId actionId =
      ⟨none, (markActionFailed data st intentId actionId).store,
        [Call.GetActionById intentId actionId]⟩ := by
  cases hget : data.GetActionById st intentId actionId with
  | error e => simp [markActionFailed, hget] at hfirst
  | ok record =>
    by_cases hc : record.State = action.StateFailed
    · have h1 : markActionFailed data st intentId actionId =
          ⟨none, st, [Call.GetActionById intentId actionId]⟩ := by
        simp [markActionFailed, hget, hc]
      rw [h1]
      exact h1
    · by_cases hp : record.State = action.StatePending
      · have h1 := markActionFailed_pending data st intentId actionId record hget hp
        rw [h1] at hfirst ⊢
        simp only at hfirst ⊢
        rcases hupd : data.UpdateAction st { record with State := action.StateFailed }
          with ⟨e, st2⟩
        rw [hupd] at hfirst
        simp only at hfirst
        subst hfirst
        have hkey := hlaw.key st intentId actionId record hget
        obtain ⟨stored, hread, hstate⟩ := hlaw.readYourWrite st _ st2 hupd
        simp only [hkey.1, hkey.2] at hread hstate
        simp [markActionFailed, hread, hstate]
      · simp [markActionFailed, hget, hc, validateActionState, hp] at hfirst

theorem memoryActionData_lawful : memoryActionData.Lawful where
  key := by
    intro st intent actionId record h
    simp only [memoryActionData, memoryGetActionById] at h
    split at h
    · rename_i r hr
      have := List.find?_some hr
      simp only [Except.ok.injEq] at h
      subst h
      simpa using this
    · simp at h
  readYourWrite := by
    intro st record st2 h
    simp only [memoryActionData, memoryUpdateAction] at h
    split at h
    · simp only [Prod.mk.injEq, true_and] at h
      subst h
      rename_i hany
      simp only [memoryActionData, memoryGetActionById]
      induction st with
      | nil => simp at hany
      | cons r rest ih =>
        by_cases hr : r.Intent = record.Intent ∧ r.ActionId = record.ActionId
        · simp [List.find?, hr]
        · have hany2 : rest.any (fun r =>
              decide (r.Intent = record.Intent ∧ r.ActionId = record.ActionId)) = true := by
            simpa [hr] using hany
          have := ih hany2
          simp only [List.map_cons, hr, ↓reduceIte, List.find?_cons, decide_False]
          exact this
    · simp at h

/-- C13: `OnFulfillmentStateChange` is idempotent.  Over a store whose lookups
see successful updates, after a first call that returned nil, a second call
with the same fulfillment and new state returns nil, issues no `UpdateAction`
(its only call, if any, is the lookup) and leaves the store exactly as the
first call left it; this holds for Confirmed, for Failed and for every other
new state. -/
theorem OnFulfillmentStateChange_idempotent {σ : Type} (h : ActionHandler)
    (types : FulfillmentTypes) (data : ActionData σ) (hlaw : data.Lawful) (st : σ)
    (f : fulfillment.Record) (newState : fulfillment.State)
    (hfirst : (h.OnFulfillmentStateChange types data st f newState).err = none) :
    (h.OnFulfillmentStateChange types data
        (h.OnFulfillmentStateChange types data st f newState).store f newState).err = none ∧
      (∀ c ∈ (h.OnFulfillmentStateChange types data
        (h.OnFulfillmentStateChange types data st f newState).store f newState).calls,
        c.isStoreWrite = false) ∧
      (h.OnFulfillmentStateChange types data
        (h.OnFulfillmentStateChange types data st f newState).store f newState).store =
        (h.OnFulfillmentStateChange types data st f newState).store := by
  by_cases htype : f.FulfillmentType = h.expectedType types
  · by_cases hc : newState = fulfillment.StateConfirmed
    · subst hc
      rw [OnFulfillmentStateChange_confirmed h types data st f htype] at hfirst ⊢
      rw [OnFulfillmentStateChange_confirmed h types data _ f htype,
        markActionConfirmed_again data hlaw st _ _ hfirst]
      simp [Call.isStoreWrite]
    · by_cases hf : newState = fulfillment.StateFailed
      · subst hf
        rw [OnFulfillmentStateChange_failed h types data st f htype] at hfirst ⊢
        rw [OnFulfillmentStateChange_failed h types data _ f htype,
          markActionFailed_again data hlaw st _ _ hfirst]
        simp [Call.isStoreWrite]
      · rw [OnFulfillmentStateChange_other h types data st f newState htype hc hf,
          OnFulfillmentStateChange_other h types data st f newState htype hc hf]
        simp
  · rw [OnFulfillmentStateChange_typeError h types data st f newState htype] at hfirst
    simp at hfirst

/-- Witness for C13: on the in-memory table, the OpenAccount handler is called
twice with `(okRecord, Confirmed)`. -/
theorem OnFulfillmentStateChange_idempotent_witness :
    (ActionHandler.OpenAccountActionHandler.OnFulfillmentStateChange demoTypes
        memoryActionData (demoActions action.StatePending) okRecord
        fulfillment.StateConfirmed).err = none ∧
      (ActionHandler.OpenAccountActionHandler.OnFulfillmentStateChange demoTypes
        memoryActionData (demoActions action.StateConfirmed) okRecord
        fulfillment.StateConfirmed).store = demoActions action.StateConfirmed := by
  have hfirst : (ActionHandler.OpenAccountActionHandler.OnFulfillmentStateChange demoTypes
      memoryActionData (demoActions action.StatePending) okRecord
      fulfillment.StateConfirmed).err = none := by decide
  have hstore : (ActionHandler.OpenAccountActionHandler.OnFulfillmentStateChange demoTypes
      memoryActionData (demoActions action.StatePending) okRecord
      fulfillment.StateConfirmed).store = demoActions action.StateConfirmed := by decide
  have h := OnFulfillmentStateChange_idempotent ActionHandler.OpenAccountActionHandler
    demoTypes memoryActionData memoryActionData_lawful (demoActions action.StatePending)
    okRecord fulfillment.StateConfirmed hfirst
  rw [hstore] at h
  exact ⟨hfirst, h.2.2⟩

theorem markActionConfirmed_invalid {σ : Type} (data : ActionData σ) (st : σ)
    (intentId : String) (actionId : Nat) (record : action.Record)
    (hget : data.GetActionById st intentId actionId = Except.ok record)
    (hc : record.State ≠ action.StateConfirmed) (hp : record.State ≠ action.StatePending) :
    markActionConfirmed data st intentId actionId =
      ⟨some Error.ErrInvalidActionStateTransition, st,
        [Call.GetActionById intentId actionId]⟩ := by
  simp [markActionConfirmed, hget, hc, hp, validateActionState]

theorem markActionFailed_invalid {σ : Type} (data : ActionData σ) (st : σ)
    (intentId : String) (actionId : Nat) (record : action.Record)
    (hget : data.GetActionById st intentId actionId = Except.ok record)
    (hf : record.State ≠ action.StateFailed) (hp : record.State ≠ action.StatePending) :
    markActionFailed data st intentId actionId =
      ⟨some Error.ErrInvalidActionStateTransition, st,
        [Call.GetActionById intentId actionId]⟩ := by
  simp [markActionFailed, hget, hf, hp, validateActionState]

theorem markActionConfirmed_terminal {σ : Type} (data : ActionData σ) (st : σ)
    (intentId : String) (actionId : Nat) (record : action.Record)
    (hget : data.GetActionById st intentId actionId = Except.ok record)
    (hp : record.State ≠ action.StatePending) :
    (markActionConfirmed data st intentId actionId).store = st ∧
      (markActionConfirmed data st intentId actionId).calls =
        [Call.GetActionById intentId actionId] := by
  by_cases hc : record.State = action.StateConfirmed
  · simp [markActionConfirmed, hget, hc]
  · rw [markActionConfirmed_invalid data st intentId actionId record hget hc hp]
    exact ⟨rfl, rfl⟩

theorem markActionFailed_terminal {σ : Type} (data : ActionData σ) (st : σ)
    (intentId : String) (actionId : Nat) (record : action.Record)
    (hget : data.GetActionById st intentId actionId = Except.ok record)
    (hp : record.State ≠ action.StatePending) :
    (markActionFailed data st intentId actionId).store = st ∧
      (markActionFailed data st intentId actionId).calls =
        [Call.GetActionById intentId actionId] := by
  by_cases hc : record.State = action.StateFailed
  · simp [markActionFailed, hget, hc]
  · rw [markActionFailed_invalid data st intentId actionId record hget hc hp]
    exact ⟨rfl, rfl⟩

/-- C14: with the action read in state `record.State`, for each of the four
handlers: (1) for a fulfillment of the expected type, new state Confirmed on an
action that is Unknown, Revoked or Failed returns
`ErrInvalidActionStateTransition` without any write; (2) likewise new state
Failed on an action that is Unknown, Revoked or Confirmed; (3) consequently,
for every fulfillment and every new state, an action that is Confirmed, Failed
or Revoked is never written: no `UpdateAction` is issued and the store is
unchanged. -/
theorem OnFulfillmentStateChange_invalid_transition {σ : Type} (h : ActionHandler)
    (types : FulfillmentTypes) (data : ActionData σ) (st : σ) (f : fulfillment.Record)
    (record : action.Record)
    (hget : data.GetActionById st f.Intent f.ActionId = Except.ok record) :
    (f.FulfillmentType = h.expectedType types →
      (record.State = action.StateUnknown ∨ record.State = action.StateRevoked ∨
        record.State = action.StateFailed) →
      h.OnFulfillmentStateChange types data st f fulfillment.StateConfirmed =
        ⟨some Error.ErrInvalidActionStateTransition, st,
          [Call.GetActionById f.Intent f.ActionId]⟩) ∧
    (f.FulfillmentType = h.expectedType types →
      (record.State = action.StateUnknown ∨ record.State = action.StateRevoked ∨
        record.State = action.StateConfirmed) →
      h.OnFulfillmentStateChange types data st f fulfillment.StateFailed =
        ⟨some Error.ErrInvalidActionStateTransition, st,
          [Call.GetActionById f.Intent f.ActionId]⟩) ∧
    (∀ newState : fulfillment.State,
      (record.State = action.StateConfirmed ∨ record.State = action.StateFailed ∨
        record.State = action.StateRevoked) →
      (h.OnFulfillmentStateChange types data st f newState).store = st ∧
        ∀ c ∈ (h.OnFulfillmentStateChange types data st f newState).calls,
          c.isStoreWrite = false) := by
  refine ⟨?_, ?_, ?_⟩
  · intro htype hstate
    rw [OnFulfillmentStateChange_confirmed h types data st f htype]
    apply markActionConfirmed_invalid data st _ _ record hget <;>
      rcases hstate with hs | hs | hs <;> simp [hs]
  · intro htype hstate
    rw [OnFulfillmentStateChange_failed h types data st f htype]
    apply markActionFailed_invalid data st _ _ record hget <;>
      rcases hstate with hs | hs | hs <;> simp [hs]
  · intro newState hstate
    have hp : record.State ≠ action.StatePending := by
      rcases hstate with hs | hs | hs <;> simp [hs]
    by_cases htype : f.FulfillmentType = h.expectedType types
    · by_cases hc : newState = fulfillment.StateConfirmed
      · subst hc
        rw [OnFulfillmentStateChange_confirmed h types data st f htype]
        have := markActionConfirmed_terminal data st _ _ record hget hp
        rw [this.2]
        exact ⟨this.1, by simp [Call.isStoreWrite]⟩
      · by_cases hf : newState = fulfillment.StateFailed
        · subst hf
          rw [OnFulfillmentStateChange_failed h types data st f htype]
          have := markActionFailed_terminal data st _ _ record hget hp
          rw [this.2]
          exact ⟨this.1, by simp [Call.isStoreWrite]⟩
        · rw [OnFulfillmentStateChange_other h types data st f newState htype hc hf]
          simp
    · rw [OnFulfillmentStateChange_typeError h types data st f newState htype]
      simp

/-- Witness for C14: the action of `okRecord` is Failed and the OpenAccount
handler is told that the fulfillment is Confirmed. -/
theorem OnFulfillmentStateChange_invalid_transition_witness :
    (ActionHandler.OpenAccountActionHandler.OnFulfillmentStateChange demoTypes
        memoryActionData (demoActions action.StateFailed) okRecord
        fulfillment.StateConfirmed).err = some Error.ErrInvalidActionStateTransition ∧
      (ActionHandler.OpenAccountActionHandler.OnFulfillmentStateChange demoTypes
        memoryActionData (demoActions action.StateFailed) okRecord
        fulfillment.StateConfirmed).store = demoActions action.StateFailed := by
  have h := (OnFulfillmentStateChange_invalid_transition
    ActionHandler.OpenAccountActionHandler demoTypes memoryActionData
    (demoActions action.StateFailed) okRecord ⟨"intent", 0, action.StateFailed⟩ rfl).1 rfl
    (Or.inr (Or.inr rfl))
  rw [h]
  exact ⟨rfl, rfl⟩

/-- Counterexample to C15 as stated: the action of `okRecord` has a second
stored fulfillment that is still Unknown; on `(okRecord, Confirmed)` the
handler nevertheless writes the action as Confirmed. -/
theorem OnFulfillmentStateChange_sibling_counterexample :
    (ActionHandler.OpenAccountActionHandler.OnFulfillmentStateChange demoTypes
        memoryActionData (demoActions action.StatePending) okRecord
        fulfillment.StateConfirmed).setsActionConfirmed = true ∧
      (ActionHandler.OpenAccountActionHandler.OnFulfillmentStateChange demoTypes
        memoryActionData (demoActions action.StatePending) okRecord
        fulfillment.StateConfirmed).store = demoActions action.StateConfirmed ∧
      allFulfillmentsConfirmed [okRecord, siblingRecord] okRecord
        fulfillment.StateConfirmed = false := by
  decide

theorem markActionFailed_not_setsConfirmed {σ : Type} (data : ActionData σ) (st : σ)
    (intentId : String) (actionId : Nat) :
    (markActionFailed data st intentId actionId).setsActionConfirmed = false := by
  unfold markActionFailed
  simp only
  split
  · simp [ActionOutcome.setsActionConfirmed]
  · split
    · simp [ActionOutcome.setsActionConfirmed]
    · split
      · simp [ActionOutcome.setsActionConfirmed]
      · simp [ActionOutcome.setsActionConfirmed]

/-- C15 (amended): when the fulfillment `f` is the only fulfillment stored for
its action, a handler's `OnFulfillmentStateChange(f, newState)` writes the
parent action as Confirmed only when every fulfillment stored for that action
(taking `f` in its new state) is Confirmed; the handlers never read the other
fulfillments of the action. -/
theorem OnFulfillmentStateChange_confirmed_single_fulfillment {σ : Type}
    (h : ActionHandler) (types : FulfillmentTypes) (data : ActionData σ) (st : σ)
    (stored : List fulfillment.Record) (f : fulfillment.Record)
    (newState : fulfillment.State)
    (hsingle : ∀ g ∈ stored, g.Intent = f.Intent → g.ActionId = f.ActionId → g = f)
    (hset : (h.OnFulfillmentStateChange types data st f newState).setsActionConfirmed
      = true) :
    allFulfillmentsConfirmed stored f newState = true := by
  have hnew : newState = fulfillment.StateConfirmed := by
    by_contra hc
    by_cases htype : f.FulfillmentType = h.expectedType types
    · by_cases hf : newState = fulfillment.StateFailed
      · subst hf
        rw [OnFulfillmentStateChange_failed h types data st f htype,
          markActionFailed_not_setsConfirmed] at hset
        simp at hset
      · rw [OnFulfillmentStateChange_other h types data st f newState htype hc hf] at hset
        simp [ActionOutcome.setsActionConfirmed] at hset
    · rw [OnFulfillmentStateChange_typeError h types data st f newState htype] at hset
      simp [ActionOutcome.setsActionConfirmed] at hset
  subst hnew
  simp only [allFulfillmentsConfirmed, List.all_eq_true, List.mem_filter, decide_eq_true_eq,
    and_imp]
  intro g hg hi ha
  simp [hsingle g hg hi ha]

/-- Witness for C15 (amended): `okRecord` is the only stored fulfillment of its
action. -/
theorem OnFulfillmentStateChange_confirmed_single_fulfillment_witness :
    (ActionHandler.OpenAccountActionHandler.OnFulfillmentStateChange demoTypes
        memoryActionData (demoActions action.StatePending) okRecord
        fulfillment.StateConfirmed).setsActionConfirmed = true ∧
      allFulfillmentsConfirmed [okRecord, otherActionRecord] okRecord
        fulfillment.StateConfirmed = true :=
  ⟨by decide,
    OnFulfillmentStateChange_confirmed_single_fulfillment
      ActionHandler.OpenAccountActionHandler demoTypes memoryActionData
      (demoActions action.StatePending) [okRecord, otherActionRecord] okRecord
      fulfillment.StateConfirmed (by decide) (by decide)⟩

theorem storeScheduler.subsidizerChecks_fst {σ : Type} (enforce : σ → Option Error × σ)
    (s : storeScheduler σ) (st0 st : σ) (log : List Call) :
    (s.subsidizerChecks enforce st log).1 =
      sequencer.subsidizerChecks (fun _ => (enforce st).1) (s.snapshot st0) log := by
  simp only [storeScheduler.subsidizerChecks, sequencer.subsidizerChecks,
    storeScheduler.snapshot]
  rcases hres : enforce st with ⟨_ | e, st2⟩
  · split <;> rfl
  · split
    · simp only []; split <;> rfl
    · rfl

theorem storeScheduler.subsidizerChecks_snd {σ : Type} (enforce : σ → Option Error × σ)
    (s : storeScheduler σ) (st : σ) (log : List Call) :
    (s.subsidizerChecks enforce st log).2 = st ∨
      (s.subsidizerChecks enforce st log).2 = (enforce st).2 := by
  simp only [storeScheduler.subsidizerChecks]
  rcases hres : enforce st with ⟨_ | e, st2⟩
  · split
    · right; rfl
    · left; rfl
  · split
    · right; simp only []; split <;> rfl
    · left; rfl

theorem storeScheduler.contextualScheduling_fst {σ : Type} (enforce : σ → Option Error × σ)
    (s : storeScheduler σ) (handler : StoreHandler σ) (st0 st : σ) (r : fulfillment.Record)
    (log : List Call) :
    (s.contextualScheduling enforce handler st r log).1 =
      sequencer.contextualScheduling
        (fun _ => (enforce (handler.CanSubmitToBlockchain st r).2).1) (s.snapshot st0)
        (handler.answers st) r log := by
  simp only [storeScheduler.contextualScheduling, sequencer.contextualScheduling,
    StoreHandler.answers]
  rcases hres : handler.CanSubmitToBlockchain st r with ⟨⟨b, _ | e⟩, st2⟩
  · simp only []
    split
    · rfl
    · exact storeScheduler.subsidizerChecks_fst enforce s st0 st2 _
  · rfl

theorem storeScheduler.contextualScheduling_snd {σ : Type} (enforce : σ → Option Error × σ)
    (s : storeScheduler σ) (handler : StoreHandler σ) (st : σ) (r : fulfillment.Record)
    (log : List Call) :
    (s.contextualScheduling enforce handler st r log).2 =
        (handler.CanSubmitToBlockchain st r).2 ∨
      (s.contextualScheduling enforce handler st r log).2 =
        (enforce (handler.CanSubmitToBlockchain st r).2).2 := by
  simp only [storeScheduler.contextualScheduling]
  rcases hres : handler.CanSubmitToBlockchain st r with ⟨⟨b, _ | e⟩, st2⟩
  · simp only []
    split
    · left; rfl
    · exact storeScheduler.subsidizerChecks_snd enforce s st2 _
  · left; rfl

theorem storeScheduler.circuitBreakers_fst {σ : Type} (enforce : σ → Option Error × σ)
    (s : storeScheduler σ) (handler : StoreHandler σ) (st : σ) (r : fulfillment.Record)
    (log : List Call) :
    (s.circuitBreakers enforce handler st r log).1 =
      sequencer.circuitBreakers
        (fun _ => (enforce (handler.CanSubmitToBlockchain st r).2).1) (s.snapshot st)
        (handler.answers st) r log := by
  unfold storeScheduler.circuitBreakers sequencer.circuitBreakers
  simp only [storeScheduler.snapshot]
  split
  · rfl
  · rcases hacc : accountCircuitBreaker (s.data st) (involvedAccounts r)
      (log ++ [Call.disableTransactionSchedulingGet]) with ⟨_ | ⟨ok, err⟩, log2⟩
    · simp only []
      cases hi : (s.data st).GetFulfillmentCountByIntentAndState r.Intent
          fulfillment.StateFailed with
      | error e => rfl
      | ok ni =>
        simp only []
        split
        · rfl
        · cases hg : (s.data st).GetFulfillmentCountByState fulfillment.StateFailed with
          | error e => rfl
          | ok n =>
            simp only []
            split
            · rfl
            · exact storeScheduler.contextualScheduling_fst enforce s handler st st r _
    · rfl

theorem storeScheduler.circuitBreakers_snd {σ : Type} (enforce : σ → Option Error × σ)
    (s : storeScheduler σ) (handler : StoreHandler σ) (st : σ) (r : fulfillment.Record)
    (log : List Call) :
    (s.circuitBreakers enforce handler st r log).2 = st ∨
      (s.circuitBreakers enforce handler st r log).2 =
        (handler.CanSubmitToBlockchain st r).2 ∨
      (s.circuitBreakers enforce handler st r log).2 =
        (enforce (handler.CanSubmitToBlockchain st r).2).2 := by
  unfold storeScheduler.circuitBreakers
  simp only []
  split
  · left; rfl
  · rcases hacc : accountCircuitBreaker (s.data st) (involvedAccounts r)
      (log ++ [Call.disableTransactionSchedulingGet]) with ⟨_ | ⟨ok, err⟩, log2⟩
    · simp only []
      cases hi : (s.data st).GetFulfillmentCountByIntentAndState r.Intent
          fulfillment.StateFailed with
      | error e => left; rfl
      | ok ni =>
        simp only []
        split
        · left; rfl
        · cases hg : (s.data st).GetFulfillmentCountByState fulfillment.StateFailed with
          | error e => left; rfl
          | ok n =>
            simp only []
            split
            · left; rfl
            · right
              exact storeScheduler.contextualScheduling_snd enforce s handler st r _
    · left; rfl

theorem storeScheduler.CanSubmitToBlockchain_fst {σ : Type} (enforce : σ → Option Error × σ)
    (s : storeScheduler σ) (st : σ) (r : fulfillment.Record) :
    (s.CanSubmitToBlockchain enforce st r).1 =
      sequencer.CanSubmitToBlockchain (fun _ => (enforce (s.storeAfterHandler st r)).1)
        (s.snapshot st) r := by
  unfold storeScheduler.CanSubmitToBlockchain sequencer.CanSubmitToBlockchain
  simp only [storeScheduler.snapshot, storeScheduler.storeAfterHandler]
  cases hh : s.handlersByType r.FulfillmentType with
  | none => rfl
  | some handler =>
    simp only [Option.map_some', StoreHandler.answers]
    split
    · rfl
    · split
      · rfl
      · split
        · rfl
        · cases ha : (s.data st).GetActionById r.Intent r.ActionId with
          | error e => rfl
          | ok actionRecord =>
            simp only []
            have hcb := storeScheduler.circuitBreakers_fst enforce s handler st r
              ([Call.SupportsOnDemandTransactions r.FulfillmentType] ++
                [Call.GetActionById r.Intent r.ActionId])
            simp only [storeScheduler.snapshot, StoreHandler.answers] at hcb
            cases hs : actionRecord.State <;> first | rfl | exact hcb

theorem storeScheduler.CanSubmitToBlockchain_snd {σ : Type} (enforce : σ → Option Error × σ)
    (s : storeScheduler σ) (st : σ) (r : fulfillment.Record) :
    (s.CanSubmitToBlockchain enforce st r).2 = st ∨
      (s.CanSubmitToBlockchain enforce st r).2 = s.storeAfterHandler st r ∨
      (s.CanSubmitToBlockchain enforce st r).2 = (enforce (s.storeAfterHandler st r)).2 := by
  unfold storeScheduler.CanSubmitToBlockchain
  simp only [storeScheduler.storeAfterHandler]
  cases hh : s.handlersByType r.FulfillmentType with
  | none => left; rfl
  | some handler =>
    simp only []
    split
    · left; rfl
    · split
      · left; rfl
      · split
        · left; rfl
        · cases ha : (s.data st).GetActionById r.Intent r.ActionId with
          | error e => left; rfl
          | ok actionRecord =>
            simp only []
            have hcb := storeScheduler.circuitBreakers_snd enforce s handler st r
              ([Call.SupportsOnDemandTransactions r.FulfillmentType] ++
                [Call.GetActionById r.Intent r.ActionId])
            cases hs : actionRecord.State <;> first | (left; rfl) | exact hcb

/-- A handler that writes makes the second of two calls differ: with five
Failed fulfillments stored and a threshold of 5 the first call schedules the
record and `writingHandler` leaves six Failed fulfillments behind, so the second
call trips the global circuit breaker. -/
theorem storeScheduler.CanSubmitToBlockchain_writing_handler :
    ((counterScheduler writingHandler).CanSubmitToBlockchain readingEnforce 5 okRecord).1.ok
        = true ∧
      ((counterScheduler writingHandler).CanSubmitToBlockchain readingEnforce 5 okRecord).2
        = 6 ∧
      ((counterScheduler writingHandler).CanSubmitToBlockchain readingEnforce 6 okRecord).1.ok
        = false := by
  refine ⟨?_, ?_, ?_⟩ <;> rfl

/-- C11: the scheduler predicate is pure with respect to the store, the store
state being explicit.  (1) `CanSubmitToBlockchain` writes nothing of its own:
the store state after the call is the one before it, or the one left by the
handler's scheduling check, or the one left by the subsidizer check run after
it.  (2) When these two collaborators leave the store as they found it, the call
leaves the store unchanged, and (3) a second call on the same record, made on
the store the first one left, with the same configuration, the same queries and
the same handler and subsidizer answers, returns the identical `(bool, error)`
pair and makes the identical calls. -/
theorem CanSubmitToBlockchain_pure {σ : Type} (enforce1 enforce2 : σ → Option Error × σ)
    (s1 s2 : storeScheduler σ) (st : σ) (r : fulfillment.Record) :
    ((s1.CanSubmitToBlockchain enforce1 st r).2 = st ∨
      (s1.CanSubmitToBlockchain enforce1 st r).2 = s1.storeAfterHandler st r ∨
      (s1.CanSubmitToBlockchain enforce1 st r).2 =
        (enforce1 (s1.storeAfterHandler st r)).2) ∧
    (s1.storeAfterHandler st r = st → (enforce1 st).2 = st →
      (s1.CanSubmitToBlockchain enforce1 st r).2 = st ∧
      (s1.conf = s2.conf →
        s1.includeSubsidizerChecks = s2.includeSubsidizerChecks →
        s1.data st = s2.data st →
        (s1.handlersByType r.FulfillmentType).map
            (fun h => (h.SupportsOnDemandTransactions, (h.CanSubmitToBlockchain st r).1)) =
          (s2.handlersByType r.FulfillmentType).map
            (fun h => (h.SupportsOnDemandTransactions, (h.CanSubmitToBlockchain st r).1)) →
        s2.storeAfterHandler st r = st →
        (enforce1 st).1 = (enforce2 st).1 →
        (s2.CanSubmitToBlockchain enforce2 (s1.CanSubmitToBlockchain enforce1 st r).2 r).1 =
          (s1.CanSubmitToBlockchain enforce1 st r).1)) := by
  have hframe := storeScheduler.CanSubmitToBlockchain_snd enforce1 s1 st r
  refine ⟨hframe, ?_⟩
  intro hh he
  have hst : (s1.CanSubmitToBlockchain enforce1 st r).2 = st := by
    rcases hframe with h | h | h
    · exact h
    · rw [h, hh]
    · rw [h, hh, he]
  refine ⟨hst, ?_⟩
  intro hconf hinc hdata hhandler hh2 henf
  rw [hst, storeScheduler.CanSubmitToBlockchain_fst, storeScheduler.CanSubmitToBlockchain_fst,
    hh, hh2]
  refine (CanSubmitToBlockchain_congr _ _ (s1.snapshot st) (s2.snapshot st) r hconf hinc ?_
    ?_ ?_ ?_ ?_ ?_).symm
  · simp only [storeScheduler.snapshot, StoreHandler.answers, Option.map_map]
    exact hhandler
  · simp only [storeScheduler.snapshot, hdata]
  · intro a _; simp only [storeScheduler.snapshot, hdata]
  · simp only [storeScheduler.snapshot, hdata]
  · simp only [storeScheduler.snapshot, hdata]
  · exact henf

/-- Witness for C11: with three Failed fulfillments stored, a handler and a
subsidizer check that only read leave the store at three, and the second call
returns what the first returned. -/
theorem CanSubmitToBlockchain_pure_witness :
    ((counterScheduler readingHandler).CanSubmitToBlockchain readingEnforce 3 okRecord).2 = 3 ∧
      ((counterScheduler readingHandler).CanSubmitToBlockchain readingEnforce
          ((counterScheduler readingHandler).CanSubmitToBlockchain readingEnforce 3
            okRecord).2 okRecord).1 =
        ((counterScheduler readingHandler).CanSubmitToBlockchain readingEnforce 3 okRecord).1 :=
  have h := (CanSubmitToBlockchain_pure readingEnforce readingEnforce
    (counterScheduler readingHandler) (counterScheduler readingHandler) 3 okRecord).2 rfl rfl
  ⟨h.1, h.2 rfl rfl rfl rfl rfl rfl⟩

end sequencer

/-! ## The claims about the signature verifier -/

namespace auth

theorem Authenticate_nil {Message : Type} (c : Codec Message) (owner : Account)
    (message : Message) :
    Authenticate c owner message none = some (Error.status codes.Code.Unauthenticated "") := by
  simp [Authenticate, isSignatureVerifiedProtoMessage]

theorem Authenticate_first_fails {Message : Type} (c : Codec Message) (owner : Account)
    (message : Message) (sig : Signature) (e : Error)
    (h1 : c.forceConsistentMarshal message = Except.error e) :
    Authenticate c owner message (some sig) = some (Error.status codes.Code.Internal "") := by
  simp [Authenticate, isSignatureVerifiedProtoMessage, defaultMarshalStrategies,
    verifyWithStrategies, h1]

theorem Authenticate_first_verifies {Message : Type} (c : Codec Message) (owner : Account)
    (message : Message) (sig : Signature) (b1 : List Nat)
    (h1 : c.forceConsistentMarshal message = Except.ok b1)
    (hv : c.ed25519Verify owner.PublicKey b1 sig.Value = true) :
    Authenticate c owner message (some sig) = none := by
  simp [Authenticate, isSignatureVerifiedProtoMessage, defaultMarshalStrategies,
    verifyWithStrategies, h1, hv]

theorem Authenticate_second {Message : Type} (c : Codec Message) (owner : Account)
    (message : Message) (sig : Signature) (b1 : List Nat)
    (h1 : c.forceConsistentMarshal message = Except.ok b1)
    (hv : c.ed25519Verify owner.PublicKey b1 sig.Value = false) :
    Authenticate c owner message (some sig) =
      match c.protoMarshal message with
      | Except.error _ => some (Error.status codes.Code.Internal "")
      | Except.ok b2 =>
        if c.ed25519Verify owner.PublicKey b2 sig.Value then none
        else some (Error.status codes.Code.Unauthenticated "") := by
  cases h2 : c.protoMarshal message with
  | error e =>
    simp [Authenticate, isSignatureVerifiedProtoMessage, defaultMarshalStrategies,
      verifyWithStrategies, h1, hv, h2]
  | ok b2 =>
    cases hv2 : c.ed25519Verify owner.PublicKey b2 sig.Value <;>
      simp [Authenticate, isSignatureVerifiedProtoMessage, defaultMarshalStrategies,
        verifyWithStrategies, h1, hv, h2, hv2]

/-- C16: failure classification of `Authenticate`.  (1) A nil signature yields
status Unauthenticated with an empty message.  (2) A non-nil signature that
verifies under neither marshal strategy (both marshal, neither verifies) yields
the same status.  (3) A marshal strategy that is invoked and fails yields
status Internal: the canonical strategy always, the legacy one when the
canonical bytes did not verify.  (4) Every result is nil, Unauthenticated with
an empty message or Internal with an empty message. -/
theorem Authenticate_error_classification {Message : Type} (c : Codec Message)
    (owner : Account) (message : Message) :
    Authenticate c owner message none =
        some (Error.status codes.Code.Unauthenticated "") ∧
      (∀ sig b1 b2, c.forceConsistentMarshal message = Except.ok b1 →
        c.protoMarshal message = Except.ok b2 →
        c.ed25519Verify owner.PublicKey b1 sig.Value = false →
        c.ed25519Verify owner.PublicKey b2 sig.Value = false →
        Authenticate c owner message (some sig) =
          some (Error.status codes.Code.Unauthenticated "")) ∧
      (∀ sig e, c.forceConsistentMarshal message = Except.error e →
        Authenticate c owner message (some sig) =
          some (Error.status codes.Code.Internal "")) ∧
      (∀ sig b1 e, c.forceConsistentMarshal message = Except.ok b1 →
        c.ed25519Verify owner.PublicKey b1 sig.Value = false →
        c.protoMarshal message = Except.error e →
        Authenticate c owner message (some sig) =
          some (Error.status codes.Code.Internal "")) ∧
      (∀ signature, Authenticate c owner message signature = none ∨
        Authenticate c owner message signature =
          some (Error.status codes.Code.Unauthenticated "") ∨
        Authenticate c owner message signature =
          some (Error.status codes.Code.Internal "")) := by
  refine ⟨Authenticate_nil c owner message, ?_, ?_, ?_, ?_⟩
  · intro sig b1 b2 h1 h2 hv1 hv2
    rw [Authenticate_second c owner message sig b1 h1 hv1, h2]
    simp [hv2]
  · intro sig e h1
    exact Authenticate_first_fails c owner message sig e h1
  · intro sig b1 e h1 hv1 h2
    rw [Authenticate_second c owner message sig b1 h1 hv1, h2]
  · intro signature
    cases signature with
    | none => exact Or.inr (Or.inl (Authenticate_nil c owner message))
    | some sig =>
      cases h1 : c.forceConsistentMarshal message with
      | error e => exact Or.inr (Or.inr (Authenticate_first_fails c owner message sig e h1))
      | ok b1 =>
        cases hv1 : c.ed25519Verify owner.PublicKey b1 sig.Value with
        | true => exact Or.inl (Authenticate_first_verifies c owner message sig b1 h1 hv1)
        | false =>
          rw [Authenticate_second c owner message sig b1 h1 hv1]
          cases h2 : c.protoMarshal message with
          | error e => simp
          | ok b2 =>
            cases hv2 : c.ed25519Verify owner.PublicKey b2 sig.Value <;> simp

/-- Witness for C16: with the toy codec, a missing signature and a wrong
signature are both Unauthenticated, and a message that the canonical strategy
cannot marshal is Internal. -/
theorem Authenticate_error_classification_witness :
    Authenticate toyCodec toyOwner [1] none =
        some (Error.status codes.Code.Unauthenticated "") ∧
      Authenticate toyCodec toyOwner [1] (some ⟨[9]⟩) =
        some (Error.status codes.Code.Unauthenticated "") ∧
      Authenticate toyCodec toyOwner [] (some ⟨[9]⟩) =
        some (Error.status codes.Code.Internal "") :=
  have h := Authenticate_error_classification toyCodec toyOwner [1]
  have h0 := Authenticate_error_classification toyCodec toyOwner []
  ⟨h.1, h.2.1 ⟨[9]⟩ [0, 1] [1] rfl rfl (by decide) (by decide),
    h0.2.2.1 ⟨[9]⟩ (Error.other 1) rfl⟩

/-- Counterexample to C17 as stated: the canonical strategy fails on the empty
message while the bytes of the legacy strategy verify under the signature, and
`Authenticate` answers Internal instead of OK. -/
theorem Authenticate_canonical_failure_counterexample :
    toyCodec.protoMarshal [] = Except.ok [] ∧
      toyCodec.ed25519Verify toyOwner.PublicKey [] [7] = true ∧
      Authenticate toyCodec toyOwner [] (some ⟨[7]⟩) =
        some (Error.status codes.Code.Internal "") :=
  ⟨rfl, by decide, by decide⟩

/-- C17 (amended): the strategies are tried in the fixed order
`forceConsistentMarshal`, `proto.Marshal`.  For every owner, message and
non-nil signature, if `forceConsistentMarshal` succeeds and `ed25519.Verify`
accepts its bytes, or accepts the bytes that `proto.Marshal` produces,
`Authenticate` returns nil (OK). -/
theorem Authenticate_accepts_any_strategy {Message : Type} (c : Codec Message)
    (owner : Account) (message : Message) (sig : Signature) (b1 : List Nat)
    (h1 : c.forceConsistentMarshal message = Except.ok b1)
    (hv : c.ed25519Verify owner.PublicKey b1 sig.Value = true ∨
      ∃ b2, c.protoMarshal message = Except.ok b2 ∧
        c.ed25519Verify owner.PublicKey b2 sig.Value = true) :
    defaultMarshalStrategies c = [c.forceConsistentMarshal, c.protoMarshal] ∧
      Authenticate c owner message (some sig) = none := by
  refine ⟨rfl, ?_⟩
  cases hv1 : c.ed25519Verify owner.PublicKey b1 sig.Value with
  | true => exact Authenticate_first_verifies c owner message sig b1 h1 hv1
  | false =>
    rcases hv with hv | ⟨b2, h2, hv2⟩
    · rw [hv1] at hv; cases hv
    · rw [Authenticate_second c owner message sig b1 h1 hv1, h2]
      simp [hv2]

/-- Witness for C17 (amended): a signature over the legacy bytes of `[1]`. -/
theorem Authenticate_accepts_any_strategy_witness :
    toyCodec.ed25519Verify toyOwner.PublicKey [0, 1] [7, 1] = false ∧
      Authenticate toyCodec toyOwner [1] (some ⟨[7, 1]⟩) = none :=
  ⟨by decide,
    (Authenticate_accepts_any_strategy toyCodec toyOwner [1] ⟨[7, 1]⟩ [0, 1] rfl
      (Or.inr ⟨[1], rfl, by decide⟩)).2⟩

/-- C18: round trip.  For an owner keypair for which `ed25519.Verify` accepts
the signatures that `sign` produces, and a message that canonical-marshals
successfully, signing the `forceConsistentMarshal` bytes with the owner's
private key and passing that signature to `Authenticate` with the owner's
account returns nil (OK). -/
theorem Authenticate_sign_roundtrip {Message : Type} (c : Codec Message)
    (sign : List Nat → List Nat → List Nat) (owner : Account) (privateKey : List Nat)
    (message : Message) (bytes : List Nat)
    (_hkey : owner.PrivateKey = some privateKey)
    (hcorrect : ∀ m, c.ed25519Verify owner.PublicKey m (sign privateKey m) = true)
    (hmarshal : c.forceConsistentMarshal message = Except.ok bytes) :
    Authenticate c owner message (some ⟨sign privateKey bytes⟩) = none :=
  Authenticate_first_verifies c owner message ⟨sign privateKey bytes⟩ bytes hmarshal
    (hcorrect bytes)

/-- Witness for C18: the toy scheme signs the canonical bytes of `[1]`. -/
theorem Authenticate_sign_roundtrip_witness :
    toyCodec.forceConsistentMarshal [1] = Except.ok [0, 1] ∧
      Authenticate toyCodec toyOwner [1] (some ⟨toySign [7] [0, 1]⟩) = none :=
  ⟨rfl,
    Authenticate_sign_roundtrip toyCodec toySign toyOwner [7] [1] [0, 1] rfl
      (by intro m; simp [toyCodec, toyVerify, toySign, toyOwner]) rfl⟩

end auth

/-! ## The claims about the nonce allocator -/

namespace nonce

theorem created_append_count (calls : List Call) (state : State) (purpose : Purpose) :
    created (calls ++ [Call.GetNonceCountByStateAndPurpose state purpose]) = created calls := by
  simp [created, List.countP_append]

theorem created_append_create (calls : List Call) (purpose : Purpose) :
    created (calls ++ [Call.createSolanaMainnetNonce purpose]) = created calls + 1 := by
  simp [created, List.countP_append]

theorem allocatorIteration_counts (purpose : Purpose) (desiredPoolSize : Nat)
    (s : LoopState) (w : World) (numInvalid numAvailable numClaimed numReleased numUnknown : Nat)
    (hinvalid : w.GetNonceCountByStateAndPurpose State.StateInvalid purpose
      = Except.ok numInvalid)
    (hlimit : numInvalid ≤ 100)
    (havailable : w.GetNonceCountByStateAndPurpose State.StateAvailable purpose
      = Except.ok numAvailable)
    (hclaimed : w.GetNonceCountByStateAndPurpose State.StateClaimed purpose
      = Except.ok numClaimed)
    (hreleased : w.GetNonceCountByStateAndPurpose State.StateReleased purpose
      = Except.ok numReleased)
    (hunknown : w.GetNonceCountByStateAndPurpose State.StateUnknown purpose
      = Except.ok numUnknown) :
    (allocatorIteration purpose desiredPoolSize s w).2.calls =
      s.calls ++
        ([Call.GetNonceCountByStateAndPurpose State.StateInvalid purpose,
          Call.GetNonceCountByStateAndPurpose State.StateAvailable purpose,
          Call.GetNonceCountByStateAndPurpose State.StateClaimed purpose,
          Call.GetNonceCountByStateAndPurpose State.StateReleased purpose,
          Call.GetNonceCountByStateAndPurpose State.StateUnknown purpose] ++
        if uint64 (numAvailable + numClaimed + numReleased + numUnknown) < desiredPoolSize
        then [Call.createSolanaMainnetNonce purpose] else []) := by
  have hl : ¬ numInvalid > 100 := by omega
  by_cases hsum : uint64 (numAvailable + numClaimed + numReleased + numUnknown)
      < desiredPoolSize
  · have hge : ¬ uint64 (numAvailable + numClaimed + numReleased + numUnknown)
        ≥ desiredPoolSize := by omega
    simp only [allocatorIteration, hinvalid, hl, havailable, hclaimed, hreleased, hunknown,
      hge, hsum, ↓reduceIte]
    cases w.createSolanaMainnetNonce purpose <;> simp
  · have hge : uint64 (numAvailable + numClaimed + numReleased + numUnknown)
        ≥ desiredPoolSize := by omega
    simp [allocatorIteration, hinvalid, hl, havailable, hclaimed, hreleased, hunknown,
      hge, hsum]

/-- Counterexample to C19 as stated: the Invalid limit is not exceeded, all
count queries succeed and the sum 1 + 2 + 3 + 4 is below the target 11, yet no
nonce account is created: `createSolanaMainnetNonce` is called and fails, and
the iteration returns its error. -/
theorem allocatorIteration_failed_creation_counterexample :
    (failingCreateWorld 100 1 2 3 4 5000).GetNonceCountByStateAndPurpose State.StateInvalid
        Purpose.PurposeClientSwap = Except.ok 100 ∧
      (failingCreateWorld 100 1 2 3 4 5000).GetNonceCountByStateAndPurpose State.StateAvailable
        Purpose.PurposeClientSwap = Except.ok 1 ∧
      (failingCreateWorld 100 1 2 3 4 5000).GetNonceCountByStateAndPurpose State.StateClaimed
        Purpose.PurposeClientSwap = Except.ok 2 ∧
      (failingCreateWorld 100 1 2 3 4 5000).GetNonceCountByStateAndPurpose State.StateReleased
        Purpose.PurposeClientSwap = Except.ok 3 ∧
      (failingCreateWorld 100 1 2 3 4 5000).GetNonceCountByStateAndPurpose State.StateUnknown
        Purpose.PurposeClientSwap = Except.ok 4 ∧
      1 + 2 + 3 + 4 < 11 ∧
      (allocatorIteration Purpose.PurposeClientSwap 11 ⟨false, []⟩
        (failingCreateWorld 100 1 2 3 4 5000)).1 = some (Error.other 1) ∧
      nonceAccountsCreated Purpose.PurposeClientSwap (failingCreateWorld 100 1 2 3 4 5000) []
        (allocatorIteration Purpose.PurposeClientSwap 11 ⟨false, []⟩
          (failingCreateWorld 100 1 2 3 4 5000)).2.calls = 0 :=
  ⟨rfl, rfl, rfl, rfl, rfl, by decide, by decide, by decide⟩

/-- C19 (amended): one iteration of the allocator for a purpose, with the
Invalid limit not exceeded and all count queries succeeding.  With `sum` the
`uint64` sum `available + claimed + released + unknown`: the creation of a nonce
account is attempted (`createSolanaMainnetNonce` is called, once) if and only if
`sum < desiredPoolSize`, and the iteration then returns what that call returns;
a nonce account is created if and only if `sum < desiredPoolSize` and the call
succeeds; at most one nonce is created per iteration and none when `sum` is at
or above the target; when the mathematical sum fits in 64 bits it is the sum
compared; the count of Reserved nonces is never read and the Invalid count does
not enter the sum. -/
theorem allocatorIteration_creates_iff (purpose : Purpose) (desiredPoolSize : Nat)
    (s : LoopState) (w : World) (numInvalid numAvailable numClaimed numReleased numUnknown : Nat)
    (hinvalid : w.GetNonceCountByStateAndPurpose State.StateInvalid purpose
      = Except.ok numInvalid)
    (hlimit : numInvalid ≤ 100)
    (havailable : w.GetNonceCountByStateAndPurpose State.StateAvailable purpose
      = Except.ok numAvailable)
    (hclaimed : w.GetNonceCountByStateAndPurpose State.StateClaimed purpose
      = Except.ok numClaimed)
    (hreleased : w.GetNonceCountByStateAndPurpose State.StateReleased purpose
      = Except.ok numReleased)
    (hunknown : w.GetNonceCountByStateAndPurpose State.StateUnknown purpose
      = Except.ok numUnknown) :
    (created (allocatorIteration purpose desiredPoolSize s w).2.calls = created s.calls + 1 ↔
        uint64 (numAvailable + numClaimed + numReleased + numUnknown) < desiredPoolSize) ∧
      (uint64 (numAvailable + numClaimed + numReleased + numUnknown) < desiredPoolSize →
        (allocatorIteration purpose desiredPoolSize s w).1 =
          w.createSolanaMainnetNonce purpose) ∧
      (nonceAccountsCreated purpose w s.calls
            (allocatorIteration purpose desiredPoolSize s w).2.calls = 1 ↔
        (uint64 (numAvailable + numClaimed + numReleased + numUnknown) < desiredPoolSize ∧
          w.createSolanaMainnetNonce purpose = none)) ∧
      nonceAccountsCreated purpose w s.calls
        (allocatorIteration purpose desiredPoolSize s w).2.calls ≤ 1 ∧
      created (allocatorIteration purpose desiredPoolSize s w).2.calls ≤ created s.calls + 1 ∧
      (desiredPoolSize ≤ uint64 (numAvailable + numClaimed + numReleased + numUnknown) →
        nonceAccountsCreated purpose w s.calls
            (allocatorIteration purpose desiredPoolSize s w).2.calls = 0 ∧
          created (allocatorIteration purpose desiredPoolSize s w).2.calls = created s.calls) ∧
      (numAvailable + numClaimed + numReleased + numUnknown < 2 ^ 64 →
        (nonceAccountsCreated purpose w s.calls
              (allocatorIteration purpose desiredPoolSize s w).2.calls = 1 ↔
          (numAvailable + numClaimed + numReleased + numUnknown < desiredPoolSize ∧
            w.createSolanaMainnetNonce purpose = none))) ∧
      (∀ c ∈ (allocatorIteration purpose desiredPoolSize s w).2.calls,
        c = Call.GetNonceCountByStateAndPurpose State.StateReserved purpose → c ∈ s.calls) := by
  have hcalls := allocatorIteration_counts purpose desiredPoolSize s w numInvalid numAvailable
    numClaimed numReleased numUnknown hinvalid hlimit havailable hclaimed hreleased hunknown
  have hcount : created (allocatorIteration purpose desiredPoolSize s w).2.calls =
      created s.calls +
        if uint64 (numAvailable + numClaimed + numReleased + numUnknown) < desiredPoolSize
        then 1 else 0 := by
    rw [hcalls]
    by_cases hsum : uint64 (numAvailable + numClaimed + numReleased + numUnknown)
        < desiredPoolSize <;>
      simp [created, List.countP_append, hsum, List.countP_cons]
  have hres : uint64 (numAvailable + numClaimed + numReleased + numUnknown) < desiredPoolSize →
      (allocatorIteration purpose desiredPoolSize s w).1 =
        w.createSolanaMainnetNonce purpose := by
    intro hsum
    have hl : ¬ numInvalid > 100 := by omega
    have hge : ¬ uint64 (numAvailable + numClaimed + numReleased + numUnknown)
        ≥ desiredPoolSize := by omega
    simp only [allocatorIteration, hinvalid, hl, havailable, hclaimed, hreleased, hunknown,
      hge, ↓reduceIte]
    cases w.createSolanaMainnetNonce purpose <;> rfl
  have hnew : nonceAccountsCreated purpose w s.calls
      (allocatorIteration purpose desiredPoolSize s w).2.calls =
      if uint64 (numAvailable + numClaimed + numReleased + numUnknown) < desiredPoolSize ∧
          w.createSolanaMainnetNonce purpose = none then 1 else 0 := by
    unfold nonceAccountsCreated
    rw [hcount]
    cases hc : w.createSolanaMainnetNonce purpose with
    | none =>
      by_cases hsum : uint64 (numAvailable + numClaimed + numReleased + numUnknown)
          < desiredPoolSize <;> simp [hsum]
    | some e => simp
  refine ⟨?_, hres, ?_, ?_, ?_, ?_, ?_, ?_⟩
  · rw [hcount]; split <;> simp_all
  · rw [hnew]; split <;> simp_all
  · rw [hnew]; split <;> omega
  · rw [hcount]; split <;> omega
  · intro h
    refine ⟨?_, ?_⟩
    · rw [hnew, if_neg (by omega)]
    · rw [hcount, if_neg (by omega)]; rfl
  · intro hfit
    have hu : uint64 (numAvailable + numClaimed + numReleased + numUnknown) =
        numAvailable + numClaimed + numReleased + numUnknown := Nat.mod_eq_of_lt hfit
    rw [hnew, hu]
    split <;> simp_all
  · intro c hc hres
    rw [hcalls] at hc
    subst hres
    rcases List.mem_append.mp hc with h | h
    · exact h
    · exfalso
      split at h <;> simp at h

/-- Witness for C19 (amended): 1 + 2 + 3 + 4 nonces count towards the pool,
5000 Reserved and 100 Invalid ones do not; with a target of 11 one nonce is
created when the creation succeeds, and with a target of 10 none is. -/
theorem allocatorIteration_creates_iff_witness :
    nonceAccountsCreated Purpose.PurposeClientSwap (demoWorld 100 1 2 3 4 5000) []
        (allocatorIteration Purpose.PurposeClientSwap 11 ⟨false, []⟩
          (demoWorld 100 1 2 3 4 5000)).2.calls = 1 ∧
      nonceAccountsCreated Purpose.PurposeClientSwap (demoWorld 100 1 2 3 4 5000) []
        (allocatorIteration Purpose.PurposeClientSwap 10 ⟨false, []⟩
          (demoWorld 100 1 2 3 4 5000)).2.calls = 0 :=
  ⟨((allocatorIteration_creates_iff Purpose.PurposeClientSwap 11 ⟨false, []⟩
      (demoWorld 100 1 2 3 4 5000) 100 1 2 3 4 rfl (by decide) rfl rfl rfl rfl).2.2.1).mpr
      ⟨by decide, rfl⟩,
    by decide⟩

/-- Counterexample to C20 as stated: with exactly 100 Invalid nonces (the limit
reached but not exceeded) and an empty pool, the iteration does not fail: it
creates a nonce and returns nil. -/
theorem allocatorIteration_limit_reached_counterexample :
    (demoWorld 100 0 0 0 0 0).GetNonceCountByStateAndPurpose State.StateInvalid
        Purpose.PurposeOnDemandTransaction = Except.ok 100 ∧
      (allocatorIteration Purpose.PurposeOnDemandTransaction 1000 ⟨false, []⟩
        (demoWorld 100 0 0 0 0 0)).1 = none ∧
      created (allocatorIteration Purpose.PurposeOnDemandTransaction 1000 ⟨false, []⟩
        (demoWorld 100 0 0 0 0 0)).2.calls = 1 :=
  ⟨rfl, by decide, by decide⟩

/-- C20 (amended): in every allocator iteration in which the number of Invalid
nonces for the purpose exceeds 100, no nonce is created (the only call is the
Invalid count) and the iteration fails with `ErrInvalidNonceLimitExceeded`;
that error is non-retriable, so the loop stops and returns it, whatever the
target, the other counts and the worlds that would follow. -/
theorem allocatorIteration_invalid_limit (purpose : Purpose) (desiredPoolSize : Nat)
    (s : LoopState) (w : World) (ws : List World) (attempts numInvalid : Nat)
    (hinvalid : w.GetNonceCountByStateAndPurpose State.StateInvalid purpose
      = Except.ok numInvalid)
    (hlimit : 100 < numInvalid) :
    allocatorIteration purpose desiredPoolSize s w =
        (some Error.ErrInvalidNonceLimitExceeded,
          ⟨s.hasWarnedUser,
            s.calls ++ [Call.GetNonceCountByStateAndPurpose State.StateInvalid purpose]⟩) ∧
      created (allocatorIteration purpose desiredPoolSize s w).2.calls = created s.calls ∧
      retry.NonRetriableErrors [Error.Canceled, Error.ErrInvalidNonceLimitExceeded] attempts
        (some Error.ErrInvalidNonceLimitExceeded) = false ∧
      retry.Loop (allocatorIteration purpose desiredPoolSize)
          [retry.NonRetriableErrors [Error.Canceled, Error.ErrInvalidNonceLimitExceeded]]
          attempts s (w :: ws) =
        (some (some Error.ErrInvalidNonceLimitExceeded),
          ⟨s.hasWarnedUser,
            s.calls ++ [Call.GetNonceCountByStateAndPurpose State.StateInvalid purpose]⟩) ∧
      generateNonceAccountsOnSolanaMainnet purpose desiredPoolSize (w :: ws) =
        (some (some Error.ErrInvalidNonceLimitExceeded),
          ⟨false, [Call.GetNonceCountByStateAndPurpose State.StateInvalid purpose]⟩) := by
  have hiter : ∀ s : LoopState, allocatorIteration purpose desiredPoolSize s w =
      (some Error.ErrInvalidNonceLimitExceeded,
        ⟨s.hasWarnedUser,
          s.calls ++ [Call.GetNonceCountByStateAndPurpose State.StateInvalid purpose]⟩) := by
    intro s
    simp [allocatorIteration, hinvalid, hlimit]
  have hstop : ∀ n, retry.NonRetriableErrors
      [Error.Canceled, Error.ErrInvalidNonceLimitExceeded] n
      (some Error.ErrInvalidNonceLimitExceeded) = false := by
    intro n; rfl
  have hloop : ∀ (n : Nat) (s : LoopState),
      retry.Loop (allocatorIteration purpose desiredPoolSize)
        [retry.NonRetriableErrors [Error.Canceled, Error.ErrInvalidNonceLimitExceeded]]
        n s (w :: ws) =
      (some (some Error.ErrInvalidNonceLimitExceeded),
        ⟨s.hasWarnedUser,
          s.calls ++ [Call.GetNonceCountByStateAndPurpose State.StateInvalid purpose]⟩) := by
    intro n s
    simp [retry.Loop, hiter s, hstop n]
  refine ⟨hiter s, ?_, hstop attempts, hloop attempts s, ?_⟩
  · rw [hiter s]
    exact created_append_count s.calls State.StateInvalid purpose
  · simp [generateNonceAccountsOnSolanaMainnet, hloop]

/-- Witness for C20 (amended): 101 Invalid nonces stop the loop at its first
iteration although the pool is empty. -/
theorem allocatorIteration_invalid_limit_witness :
    generateNonceAccountsOnSolanaMainnet Purpose.PurposeOnDemandTransaction 1000
        [demoWorld 101 0 0 0 0 0, demoWorld 0 0 0 0 0 0] =
      (some (some Error.ErrInvalidNonceLimitExceeded),
        ⟨false, [Call.GetNonceCountByStateAndPurpose State.StateInvalid
          Purpose.PurposeOnDemandTransaction]⟩) :=
  (allocatorIteration_invalid_limit Purpose.PurposeOnDemandTransaction 1000 ⟨false, []⟩
    (demoWorld 101 0 0 0 0 0) [demoWorld 0 0 0 0 0 0] 1 101 rfl (by decide)).2.2.2.2

end nonce

/-! ## The claims about vault keys, the virtual account lookup and quarks -/

namespace nonce

theorem generateKey_cases {σ : Type} (data : KeyData σ)
    (grind : Except Error vault.Record) (st : σ) :
    (∃ e, grind = Except.error e ∧
        generateKey data grind st =
          ⟨KeyResult.returned none (some e), st, [KeyCall.GrindKey]⟩) ∨
      (∃ ground e st2, grind = Except.ok ground ∧
        data.SaveKey st { ground with State := vault.State.StateAvailable } = (some e, st2) ∧
        generateKey data grind st =
          ⟨KeyResult.returned none (some e), st2,
            [KeyCall.GrindKey,
              KeyCall.SaveKey { ground with State := vault.State.StateAvailable }]⟩) ∨
      (∃ ground st2, grind = Except.ok ground ∧
        data.SaveKey st { ground with State := vault.State.StateAvailable } = (none, st2) ∧
        generateKey data grind st =
          ⟨KeyResult.returned (some { ground with State := vault.State.StateAvailable }) none,
            st2,
            [KeyCall.GrindKey,
              KeyCall.SaveKey { ground with State := vault.State.StateAvailable }]⟩) := by
  cases grind with
  | error e => exact Or.inl ⟨e, rfl, rfl⟩
  | ok ground =>
    rcases hs : data.SaveKey st { ground with State := vault.State.StateAvailable }
      with ⟨err, st2⟩
    cases err with
    | some e =>
      refine Or.inr (Or.inl ⟨ground, e, st2, rfl, hs, ?_⟩)
      simp [generateKey, hs]
    | none =>
      refine Or.inr (Or.inr ⟨ground, st2, rfl, hs, ?_⟩)
      simp [generateKey, hs]

theorem reserveExistingKey_cases {σ : Type} (data : KeyData σ) (st : σ) :
    (∃ e, data.GetAllKeysByState st vault.State.StateAvailable 1 = Except.error e ∧
        reserveExistingKey data st =
          ⟨KeyResult.returned none (some e), st,
            [KeyCall.GetAllKeysByState vault.State.StateAvailable 1]⟩) ∨
      (data.GetAllKeysByState st vault.State.StateAvailable 1 = Except.ok [] ∧
        reserveExistingKey data st =
          ⟨KeyResult.panic, st, [KeyCall.GetAllKeysByState vault.State.StateAvailable 1]⟩) ∨
      (∃ first rest e st2,
        data.GetAllKeysByState st vault.State.StateAvailable 1 = Except.ok (first :: rest) ∧
        data.SaveKey st { first with State := vault.State.StateReserved } = (some e, st2) ∧
        reserveExistingKey data st =
          ⟨KeyResult.returned none (some e), st2,
            [KeyCall.GetAllKeysByState vault.State.StateAvailable 1,
              KeyCall.SaveKey { first with State := vault.State.StateReserved }]⟩) ∨
      (∃ first rest st2,
        data.GetAllKeysByState st vault.State.StateAvailable 1 = Except.ok (first :: rest) ∧
        data.SaveKey st { first with State := vault.State.StateReserved } = (none, st2) ∧
        reserveExistingKey data st =
          ⟨KeyResult.returned (some { first with State := vault.State.StateReserved }) none,
            st2,
            [KeyCall.GetAllKeysByState vault.State.StateAvailable 1,
              KeyCall.SaveKey { first with State := vault.State.StateReserved }]⟩) := by
  cases hg : data.GetAllKeysByState st vault.State.StateAvailable 1 with
  | error e =>
    refine Or.inl ⟨e, rfl, ?_⟩
    simp [reserveExistingKey, hg]
  | ok keys =>
    cases keys with
    | nil =>
      refine Or.inr (Or.inl ⟨rfl, ?_⟩)
      simp [reserveExistingKey, hg]
    | cons first rest =>
      rcases hs : data.SaveKey st { first with State := vault.State.StateReserved }
        with ⟨err, st2⟩
      cases err with
      | some e =>
        refine Or.inr (Or.inr (Or.inl ⟨first, rest, e, st2, rfl, hs, ?_⟩))
        simp [reserveExistingKey, hg, hs]
      | none =>
        refine Or.inr (Or.inr (Or.inr ⟨first, rest, st2, rfl, hs, ?_⟩))
        simp [reserveExistingKey, hg, hs]

/-- C21: keys are persisted before they are offered.  (1) `generateKey` returns
either nil with an error, or a key together with a nil error; in the second
case the key is the ground key in state Available and `SaveKey` succeeded for
exactly that record, leaving the returned store.  (2) When `getVaultKey`
returns a key, its error is nil, the key is the first record that
`GetAllKeysByState(Available)` read from the store with its state set to
Reserved, and `SaveKey` succeeded for exactly that record.  (3) Whenever
`reserveExistingKey` returns an error, `getVaultKey` returns nil and
`ErrNoAvailableKeys`, and no other error is ever returned by `getVaultKey`. -/
theorem getVaultKey_persisted {σ : Type} (data : KeyData σ)
    (grind : Except Error vault.Record) (st : σ) :
    ((∃ e, (generateKey data grind st).result = KeyResult.returned none (some e)) ∨
      (∃ ground, grind = Except.ok ground ∧
        (generateKey data grind st).result =
          KeyResult.returned (some { ground with State := vault.State.StateAvailable }) none ∧
        data.SaveKey st { ground with State := vault.State.StateAvailable } =
          (none, (generateKey data grind st).store) ∧
        (generateKey data grind st).calls =
          [KeyCall.GrindKey,
            KeyCall.SaveKey { ground with State := vault.State.StateAvailable }])) ∧
    (∀ key err, (getVaultKey data st).result = KeyResult.returned (some key) err →
      err = none ∧
      ∃ first rest,
        data.GetAllKeysByState st vault.State.StateAvailable 1 = Except.ok (first :: rest) ∧
        key = { first with State := vault.State.StateReserved } ∧
        data.SaveKey st key = (none, (getVaultKey data st).store) ∧
        (getVaultKey data st).calls =
          [KeyCall.GetAllKeysByState vault.State.StateAvailable 1, KeyCall.SaveKey key]) ∧
    (∀ key e, (reserveExistingKey data st).result = KeyResult.returned key (some e) →
      (getVaultKey data st).result =
        KeyResult.returned none (some Error.ErrNoAvailableKeys)) ∧
    (∀ key e, (getVaultKey data st).result = KeyResult.returned key (some e) →
      key = none ∧ e = Error.ErrNoAvailableKeys) := by
  refine ⟨?_, ?_, ?_, ?_⟩
  · rcases generateKey_cases data grind st with
      ⟨e, _, h⟩ | ⟨ground, e, st2, _, _, h⟩ | ⟨ground, st2, hg, hs, h⟩
    · exact Or.inl ⟨e, by rw [h]⟩
    · exact Or.inl ⟨e, by rw [h]⟩
    · refine Or.inr ⟨ground, hg, ?_, ?_, ?_⟩ <;> rw [h]
      exact hs
  · intro key err hres
    rcases reserveExistingKey_cases data st with
      ⟨e, _, h⟩ | ⟨_, h⟩ | ⟨first, rest, e, st2, _, _, h⟩ | ⟨first, rest, st2, hg, hs, h⟩
    · simp [getVaultKey, h] at hres
    · simp [getVaultKey, h] at hres
    · simp [getVaultKey, h] at hres
    · simp only [getVaultKey, h, KeyResult.returned.injEq, Option.some.injEq] at hres ⊢
      obtain ⟨hk, he⟩ := hres
      subst hk
      exact ⟨he.symm, first, rest, hg, rfl, hs, rfl⟩
  · intro key e hres
    simp only [getVaultKey, hres]
  · intro key e hres
    rcases reserveExistingKey_cases data st with
      ⟨e, _, h⟩ | ⟨_, h⟩ | ⟨first, rest, e, st2, _, _, h⟩ | ⟨first, rest, st2, hg, hs, h⟩
    · simp only [getVaultKey, h, KeyResult.returned.injEq, Option.some.injEq] at hres
      exact ⟨hres.1.symm, hres.2.symm⟩
    · simp [getVaultKey, h] at hres
    · simp only [getVaultKey, h, KeyResult.returned.injEq, Option.some.injEq] at hres
      exact ⟨hres.1.symm, hres.2.symm⟩
    · simp [getVaultKey, h] at hres

/-- Witness for C21: on the in-memory key table, `getVaultKey` returns the
Available key `nonB` in state Reserved, after saving exactly that record. -/
theorem getVaultKey_persisted_witness :
    (getVaultKey memoryKeyData demoKeys).result =
        KeyResult.returned (some ⟨"nonB", "privB", vault.State.StateReserved⟩) none ∧
      memoryKeyData.SaveKey demoKeys ⟨"nonB", "privB", vault.State.StateReserved⟩ =
        (none, (getVaultKey memoryKeyData demoKeys).store) := by
  have hres : (getVaultKey memoryKeyData demoKeys).result =
      KeyResult.returned (some ⟨"nonB", "privB", vault.State.StateReserved⟩) none := by
    decide
  obtain ⟨-, first, rest, -, -, hs, -⟩ :=
    (getVaultKey_persisted memoryKeyData (Except.error (Error.other 1)) demoKeys).2.1
      ⟨"nonB", "privB", vault.State.StateReserved⟩ none hres
  exact ⟨hres, hs⟩

end nonce

namespace vm

/-- C29, the code at the failing input: a reply with Result OK and an empty
Items list makes `GetVirtualTimelockAccountStateInMemory` panic on
`resp.Items[0]`; for a reply with Result OK the function panics exactly when
Items is empty, more than one item yields the error "multiple results
returned", and a single non-memory item yields "account is compressed". -/
theorem GetVirtualTimelockAccountStateInMemory_empty_items_panics
    (NewAccountFromPublicKeyBytes : List Nat → Except Error (List Nat)) :
    GetVirtualTimelockAccountStateInMemory (Except.ok ⟨ResponseResult.OK, []⟩)
        NewAccountFromPublicKeyBytes = Outcome.panic ∧
      (∀ items, GetVirtualTimelockAccountStateInMemory (Except.ok ⟨ResponseResult.OK, items⟩)
          NewAccountFromPublicKeyBytes = Outcome.panic ↔ items = []) ∧
      (∀ items, 1 < items.length →
        GetVirtualTimelockAccountStateInMemory (Except.ok ⟨ResponseResult.OK, items⟩)
          NewAccountFromPublicKeyBytes =
            Outcome.error (Error.message "multiple results returned")) ∧
      (∀ account, GetVirtualTimelockAccountStateInMemory
          (Except.ok ⟨ResponseResult.OK, [⟨account, none⟩]⟩) NewAccountFromPublicKeyBytes =
            Outcome.error (Error.message "account is compressed")) := by
  refine ⟨rfl, ?_, ?_, ?_⟩
  · intro items
    constructor
    · intro h
      cases items with
      | nil => rfl
      | cons item rest =>
        exfalso
        cases rest with
        | cons item2 rest2 => simp [GetVirtualTimelockAccountStateInMemory] at h
        | nil =>
          simp only [GetVirtualTimelockAccountStateInMemory] at h
          cases hs : item.Storage with
          | none => simp [hs] at h
          | some m =>
            cases hn : NewAccountFromPublicKeyBytes m.Account <;> simp [hs, hn] at h
    · rintro rfl; rfl
  · intro items hlen
    simp [GetVirtualTimelockAccountStateInMemory, hlen]
  · intro account
    simp [GetVirtualTimelockAccountStateInMemory]

end vm

namespace common

/-- C30: quark/unit round trip, for a non-zero `CoreMintQuarksPerUnit`.
(1) For `uint64` units with `units * CoreMintQuarksPerUnit < 2 ^ 64`,
`FromCoreMintQuarks (ToCoreMintQuarks units) = units`.  (2) For every `uint64`
quarks, `ToCoreMintQuarks (FromCoreMintQuarks quarks) ≤ quarks`, with a
difference strictly less than `CoreMintQuarksPerUnit`.  (3) When the product
overflows, `ToCoreMintQuarks` returns the product reduced modulo `2 ^ 64`, a
value different from the product. -/
theorem CoreMintQuarks_roundtrip (CoreMintQuarksPerUnit : Nat)
    (hpos : 0 < CoreMintQuarksPerUnit) :
    (∀ units, units < 2 ^ 64 → units * CoreMintQuarksPerUnit < 2 ^ 64 →
      FromCoreMintQuarks CoreMintQuarksPerUnit
        (ToCoreMintQuarks CoreMintQuarksPerUnit units) = units) ∧
    (∀ quarks, quarks < 2 ^ 64 →
      ToCoreMintQuarks CoreMintQuarksPerUnit
          (FromCoreMintQuarks CoreMintQuarksPerUnit quarks) ≤ quarks ∧
        quarks - ToCoreMintQuarks CoreMintQuarksPerUnit
          (FromCoreMintQuarks CoreMintQuarksPerUnit quarks) < CoreMintQuarksPerUnit) ∧
    (∀ units, 2 ^ 64 ≤ units * CoreMintQuarksPerUnit →
      ToCoreMintQuarks CoreMintQuarksPerUnit units =
          units * CoreMintQuarksPerUnit % 2 ^ 64 ∧
        ToCoreMintQuarks CoreMintQuarksPerUnit units < 2 ^ 64 ∧
        ToCoreMintQuarks CoreMintQuarksPerUnit units ≠ units * CoreMintQuarksPerUnit) := by
  refine ⟨?_, ?_, ?_⟩
  · intro units _ hfit
    unfold FromCoreMintQuarks ToCoreMintQuarks
    rw [Nat.mod_eq_of_lt hfit]
    exact Nat.mul_div_cancel units hpos
  · intro quarks hq
    unfold FromCoreMintQuarks ToCoreMintQuarks
    have hle : quarks / CoreMintQuarksPerUnit * CoreMintQuarksPerUnit ≤ quarks :=
      Nat.div_mul_le_self quarks CoreMintQuarksPerUnit
    rw [Nat.mod_eq_of_lt (lt_of_le_of_lt hle hq)]
    refine ⟨hle, ?_⟩
    have h1 := Nat.div_add_mod quarks CoreMintQuarksPerUnit
    have h2 := Nat.mod_lt quarks hpos
    have h3 : quarks / CoreMintQuarksPerUnit * CoreMintQuarksPerUnit =
        CoreMintQuarksPerUnit * (quarks / CoreMintQuarksPerUnit) := Nat.mul_comm _ _
    omega
  · intro units hover
    unfold ToCoreMintQuarks
    have hlt : units * CoreMintQuarksPerUnit % 2 ^ 64 < 2 ^ 64 :=
      Nat.mod_lt _ (by positivity)
    exact ⟨rfl, hlt, by omega⟩

/-- Witness for C30: one million quarks per unit. -/
theorem CoreMintQuarks_roundtrip_witness :
    FromCoreMintQuarks 1000000 (ToCoreMintQuarks 1000000 25) = 25 ∧
      ToCoreMintQuarks 1000000 (FromCoreMintQuarks 1000000 1234567) ≤ 1234567 ∧
      ToCoreMintQuarks 1000000 (2 ^ 60) = 2 ^ 60 * 1000000 % 2 ^ 64 :=
  have h := CoreMintQuarks_roundtrip 1000000 (by decide)
  ⟨h.1 25 (by norm_num) (by norm_num), (h.2.1 1234567 (by norm_num)).1,
    (h.2.2 (2 ^ 60) (by norm_num)).1⟩

end common

/-! ## The claims about `VoidGiftCard` and `GetLimits` -/

namespace transaction

theorem VoidGiftCard_issuer (e : GiftCardEnv) (req : VoidGiftCardRequest)
    (owner giftCardVault : String) (info : AccountInfoRecord) (issued : IssuedIntentRecord)
    (howner : e.NewAccountFromProto req.Owner = Except.ok owner)
    (hvault : e.NewAccountFromProto req.GiftCardVault = Except.ok giftCardVault)
    (hauth : e.Authenticate owner { req with Signature := none } req.Signature = none)
    (hinfo : e.GetAccountInfoByTokenAddress giftCardVault = Except.ok info)
    (htype : info.AccountType = AccountType.REMOTE_SEND_GIFT_CARD)
    (hissued : e.GetOriginalGiftCardIssuedIntent giftCardVault = Except.ok issued)
    (hissuer : issued.InitiatorOwnerAccount = owner) :
    VoidGiftCard e req =
      if timeSince e.now info.CreatedAt ≥ e.GiftCardExpiry then
        ⟨Reply.response VoidGiftCardResult.OK,
          [GiftCardCall.Authenticate, GiftCardCall.GetAccountInfoByTokenAddress giftCardVault,
            GiftCardCall.GetOriginalGiftCardIssuedIntent giftCardVault]⟩
      else voidUnexpiredGiftCard e owner giftCardVault info
        [GiftCardCall.Authenticate, GiftCardCall.GetAccountInfoByTokenAddress giftCardVault,
          GiftCardCall.GetOriginalGiftCardIssuedIntent giftCardVault] := by
  simp [VoidGiftCard, howner, hvault, hauth, hinfo, htype, hissued, hissuer]

theorem voidUnexpiredGiftCard_claimed (e : GiftCardEnv) (owner giftCardVault : String)
    (info : AccountInfoRecord) (log : List GiftCardCall) (lock vmConfig : Nat)
    (claimed : ClaimedActionRecord) (mint ownerVault destination : String)
    (hlock : e.GetOptimisticVersionLock giftCardVault = Except.ok lock)
    (hclaimed : e.GetGiftCardClaimedAction giftCardVault = Except.ok claimed)
    (hmint : e.NewAccountFromPublicKeyString info.MintAccount = Except.ok mint)
    (hvm : e.GetVmConfigForMint mint = Except.ok vmConfig)
    (htimelock : e.GetTimelockAccounts owner vmConfig = Except.ok ownerVault)
    (hdest : claimed.Destination = some destination) :
    voidUnexpiredGiftCard e owner giftCardVault info log =
      ⟨Reply.response (if destination ≠ ownerVault then VoidGiftCardResult.CLAIMED_BY_OTHER_USER
          else VoidGiftCardResult.OK),
        log ++ [GiftCardCall.GetOptimisticVersionLock giftCardVault,
          GiftCardCall.localAccountLock giftCardVault,
          GiftCardCall.GetGiftCardClaimedAction giftCardVault,
          GiftCardCall.GetVmConfigForMint mint]⟩ := by
  by_cases hd : destination = ownerVault <;>
    simp [voidUnexpiredGiftCard, hlock, hclaimed, hmint, hvm, htimelock, hdest, hd]

theorem voidUnexpiredGiftCard_ok_iff (e : GiftCardEnv) (owner giftCardVault : String)
    (info : AccountInfoRecord) (log : List GiftCardCall) :
    (voidUnexpiredGiftCard e owner giftCardVault info log).reply =
        Reply.response VoidGiftCardResult.OK ↔
      ((∃ lock, e.GetOptimisticVersionLock giftCardVault = Except.ok lock ∧
          e.GetGiftCardClaimedAction giftCardVault = Except.error Error.ErrActionNotFound ∧
          e.InitiateProcessToAutoReturnGiftCard giftCardVault lock = none) ∨
        (∃ lock claimed mint vmConfig ownerVault,
          e.GetOptimisticVersionLock giftCardVault = Except.ok lock ∧
          e.GetGiftCardClaimedAction giftCardVault = Except.ok claimed ∧
          e.NewAccountFromPublicKeyString info.MintAccount = Except.ok mint ∧
          e.GetVmConfigForMint mint = Except.ok vmConfig ∧
          e.GetTimelockAccounts owner vmConfig = Except.ok ownerVault ∧
          claimed.Destination = some ownerVault)) := by
  cases hlock : e.GetOptimisticVersionLock giftCardVault with
  | error err => simp [voidUnexpiredGiftCard, hlock]
  | ok lock =>
    cases hclaimed : e.GetGiftCardClaimedAction giftCardVault with
    | error err =>
      by_cases herr : err = Error.ErrActionNotFound
      · subst herr
        cases hinit : e.InitiateProcessToAutoReturnGiftCard giftCardVault lock <;>
          simp [voidUnexpiredGiftCard, hlock, hclaimed, hinit]
      · simp [voidUnexpiredGiftCard, hlock, hclaimed, herr]
    | ok claimed =>
      cases hmint : e.NewAccountFromPublicKeyString info.MintAccount with
      | error err => simp [voidUnexpiredGiftCard, hlock, hclaimed, hmint]
      | ok mint =>
        cases hvm : e.GetVmConfigForMint mint with
        | error err => simp [voidUnexpiredGiftCard, hlock, hclaimed, hmint, hvm]
        | ok vmConfig =>
          cases htimelock : e.GetTimelockAccounts owner vmConfig with
          | error err => simp [voidUnexpiredGiftCard, hlock, hclaimed, hmint, hvm, htimelock]
          | ok ownerVault =>
            cases hdest : claimed.Destination with
            | none => simp [voidUnexpiredGiftCard, hlock, hclaimed, hmint, hvm, htimelock, hdest]
            | some destination =>
              by_cases hd : destination = ownerVault <;>
                simp [voidUnexpiredGiftCard, hlock, hclaimed, hmint, hvm, htimelock, hdest, hd]

theorem voidUnexpiredGiftCard_response (e : GiftCardEnv) (owner giftCardVault : String)
    (info : AccountInfoRecord) (log : List GiftCardCall) (r : VoidGiftCardResult)
    (h : (voidUnexpiredGiftCard e owner giftCardVault info log).reply = Reply.response r) :
    r = VoidGiftCardResult.OK ∨ r = VoidGiftCardResult.CLAIMED_BY_OTHER_USER := by
  unfold voidUnexpiredGiftCard at h
  simp only at h
  repeat' split at h
  all_goals first
    | (simp only [Reply.response.injEq] at h; subst h; simp)
    | simp at h

/-- C22: for an authenticated request on a vault that is a
REMOTE_SEND_GIFT_CARD account issued by the caller, `VoidGiftCard` returns
result OK exactly when the card is auto-expired; or the balance lock is
obtained, no claimed action exists and `InitiateProcessToAutoReturnGiftCard`
succeeded; or the balance lock is obtained, a claimed action exists, the
owner's timelock vault for the card's mint is derived and the claim destination
equals it.  Every other response of such a request is CLAIMED_BY_OTHER_USER;
in general every response is OK, NOT_FOUND, DENIED or CLAIMED_BY_OTHER_USER. -/
theorem VoidGiftCard_ok_iff (e : GiftCardEnv) (req : VoidGiftCardRequest)
    (owner giftCardVault : String) (info : AccountInfoRecord) (issued : IssuedIntentRecord)
    (howner : e.NewAccountFromProto req.Owner = Except.ok owner)
    (hvault : e.NewAccountFromProto req.GiftCardVault = Except.ok giftCardVault)
    (hauth : e.Authenticate owner { req with Signature := none } req.Signature = none)
    (hinfo : e.GetAccountInfoByTokenAddress giftCardVault = Except.ok info)
    (htype : info.AccountType = AccountType.REMOTE_SEND_GIFT_CARD)
    (hissued : e.GetOriginalGiftCardIssuedIntent giftCardVault = Except.ok issued)
    (hissuer : issued.InitiatorOwnerAccount = owner) :
    ((VoidGiftCard e req).reply = Reply.response VoidGiftCardResult.OK ↔
      (timeSince e.now info.CreatedAt ≥ e.GiftCardExpiry ∨
        (∃ lock, e.GetOptimisticVersionLock giftCardVault = Except.ok lock ∧
          e.GetGiftCardClaimedAction giftCardVault = Except.error Error.ErrActionNotFound ∧
          e.InitiateProcessToAutoReturnGiftCard giftCardVault lock = none) ∨
        (∃ lock claimed mint vmConfig ownerVault,
          e.GetOptimisticVersionLock giftCardVault = Except.ok lock ∧
          e.GetGiftCardClaimedAction giftCardVault = Except.ok claimed ∧
          e.NewAccountFromPublicKeyString info.MintAccount = Except.ok mint ∧
          e.GetVmConfigForMint mint = Except.ok vmConfig ∧
          e.GetTimelockAccounts owner vmConfig = Except.ok ownerVault ∧
          claimed.Destination = some ownerVault))) ∧
    (∀ r, (VoidGiftCard e req).reply = Reply.response r →
      r = VoidGiftCardResult.OK ∨ r = VoidGiftCardResult.CLAIMED_BY_OTHER_USER) ∧
    (∀ (e2 : GiftCardEnv) (req2 : VoidGiftCardRequest) (r : VoidGiftCardResult),
      (VoidGiftCard e2 req2).reply = Reply.response r →
      r = VoidGiftCardResult.OK ∨ r = VoidGiftCardResult.NOT_FOUND ∨
        r = VoidGiftCardResult.DENIED ∨ r = VoidGiftCardResult.CLAIMED_BY_OTHER_USER) := by
  rw [VoidGiftCard_issuer e req owner giftCardVault info issued howner hvault hauth hinfo
    htype hissued hissuer]
  by_cases hexp : timeSince e.now info.CreatedAt ≥ e.GiftCardExpiry
  · simp only [hexp, ↓reduceIte, true_or, iff_true, true_and]
    refine ⟨?_, ?_⟩
    · intro r hr
      simp only [Reply.response.injEq] at hr
      exact Or.inl hr.symm
    · intro e2 req2 r _
      cases r <;> simp
  · simp only [hexp, ↓reduceIte, false_or]
    refine ⟨voidUnexpiredGiftCard_ok_iff e owner giftCardVault info _, ?_, ?_⟩
    · intro r hr
      exact voidUnexpiredGiftCard_response e owner giftCardVault info _ r hr
    · intro e2 req2 r _
      cases r <;> simp

/-- Witness for C22: the issuer voids an unexpired, unclaimed card and the
auto-return is initiated. -/
theorem VoidGiftCard_ok_iff_witness :
    (VoidGiftCard (demoGiftCardEnv 50 (Except.error Error.ErrActionNotFound) none)
        (demoVoidRequest [1])).reply = Reply.response VoidGiftCardResult.OK ∧
      ¬ timeSince 50 0 ≥ 100 :=
  ⟨(VoidGiftCard_ok_iff (demoGiftCardEnv 50 (Except.error Error.ErrActionNotFound) none)
      (demoVoidRequest [1]) "alice" "card" ⟨AccountType.REMOTE_SEND_GIFT_CARD, "mint", 0⟩
      ⟨"alice"⟩ rfl rfl rfl rfl rfl rfl rfl).1.mpr (Or.inr (Or.inl ⟨7, rfl, rfl, rfl⟩)),
    by decide⟩

/-- C23: `VoidGiftCard` racing with a claim.  For a request that reaches the
claimed-action lookup (authenticated issuer, unexpired gift card, balance lock
obtained), whenever a claimed-action record exists and the owner's timelock
vault for the card's mint is derived, no auto-return is initiated and the
result is OK if the claimed action's destination equals that vault and
CLAIMED_BY_OTHER_USER if the destination is any other vault. -/
theorem VoidGiftCard_claimed (e : GiftCardEnv) (req : VoidGiftCardRequest)
    (owner giftCardVault : String) (info : AccountInfoRecord) (issued : IssuedIntentRecord)
    (lock vmConfig : Nat) (claimed : ClaimedActionRecord)
    (mint ownerVault destination : String)
    (howner : e.NewAccountFromProto req.Owner = Except.ok owner)
    (hvault : e.NewAccountFromProto req.GiftCardVault = Except.ok giftCardVault)
    (hauth : e.Authenticate owner { req with Signature := none } req.Signature = none)
    (hinfo : e.GetAccountInfoByTokenAddress giftCardVault = Except.ok info)
    (htype : info.AccountType = AccountType.REMOTE_SEND_GIFT_CARD)
    (hissued : e.GetOriginalGiftCardIssuedIntent giftCardVault = Except.ok issued)
    (hissuer : issued.InitiatorOwnerAccount = owner)
    (hexp : ¬ timeSince e.now info.CreatedAt ≥ e.GiftCardExpiry)
    (hlock : e.GetOptimisticVersionLock giftCardVault = Except.ok lock)
    (hclaimed : e.GetGiftCardClaimedAction giftCardVault = Except.ok claimed)
    (hmint : e.NewAccountFromPublicKeyString info.MintAccount = Except.ok mint)
    (hvm : e.GetVmConfigForMint mint = Except.ok vmConfig)
    (htimelock : e.GetTimelockAccounts owner vmConfig = Except.ok ownerVault)
    (hdest : claimed.Destination = some destination) :
    GiftCardCall.InitiateProcessToAutoReturnGiftCard giftCardVault ∉
        (VoidGiftCard e req).calls ∧
      (destination = ownerVault →
        (VoidGiftCard e req).reply = Reply.response VoidGiftCardResult.OK) ∧
      (destination ≠ ownerVault →
        (VoidGiftCard e req).reply =
          Reply.response VoidGiftCardResult.CLAIMED_BY_OTHER_USER) := by
  rw [VoidGiftCard_issuer e req owner giftCardVault info issued howner hvault hauth hinfo
    htype hissued hissuer, if_neg hexp,
    voidUnexpiredGiftCard_claimed e owner giftCardVault info _ lock vmConfig claimed mint
      ownerVault destination hlock hclaimed hmint hvm htimelock hdest]
  refine ⟨by simp, ?_, ?_⟩
  · intro hd; simp [hd]
  · intro hd; simp [hd]

/-- Witness for C23: the card was claimed into the vault of `bob`; the issuer
`alice` gets CLAIMED_BY_OTHER_USER and no auto-return is initiated. -/
theorem VoidGiftCard_claimed_witness :
    GiftCardCall.InitiateProcessToAutoReturnGiftCard "card" ∉
        (VoidGiftCard (demoGiftCardEnv 50 (Except.ok ⟨some "bob-vault"⟩) none)
          (demoVoidRequest [1])).calls ∧
      (VoidGiftCard (demoGiftCardEnv 50 (Except.ok ⟨some "bob-vault"⟩) none)
        (demoVoidRequest [1])).reply =
          Reply.response VoidGiftCardResult.CLAIMED_BY_OTHER_USER :=
  have h := VoidGiftCard_claimed (demoGiftCardEnv 50 (Except.ok ⟨some "bob-vault"⟩) none)
    (demoVoidRequest [1]) "alice" "card" ⟨AccountType.REMOTE_SEND_GIFT_CARD, "mint", 0⟩
    ⟨"alice"⟩ 7 0 ⟨some "bob-vault"⟩ "mint" "alice-vault" "bob-vault" rfl rfl rfl rfl rfl rfl
    rfl (by decide) rfl rfl rfl rfl rfl rfl
  ⟨h.1, h.2.2 (by decide)⟩

/-- C24: expired gift card.  For an issuer-authenticated request, if the time
since the account info record's CreatedAt is greater than or equal to
`GiftCardExpiry` (boundary included), the result is OK and its only calls are
the authentication and the two reads that identify the issuer: no balance lock
is taken, the claimed-action lookup is skipped, and neither
`InitiateProcessToAutoReturnGiftCard` nor `MarkAutoReturnCheckComplete` is
called. -/
theorem VoidGiftCard_expired (e : GiftCardEnv) (req : VoidGiftCardRequest)
    (owner giftCardVault : String) (info : AccountInfoRecord) (issued : IssuedIntentRecord)
    (howner : e.NewAccountFromProto req.Owner = Except.ok owner)
    (hvault : e.NewAccountFromProto req.GiftCardVault = Except.ok giftCardVault)
    (hauth : e.Authenticate owner { req with Signature := none } req.Signature = none)
    (hinfo : e.GetAccountInfoByTokenAddress giftCardVault = Except.ok info)
    (htype : info.AccountType = AccountType.REMOTE_SEND_GIFT_CARD)
    (hissued : e.GetOriginalGiftCardIssuedIntent giftCardVault = Except.ok issued)
    (hissuer : issued.InitiatorOwnerAccount = owner)
    (hexp : timeSince e.now info.CreatedAt ≥ e.GiftCardExpiry) :
    (VoidGiftCard e req).reply = Reply.response VoidGiftCardResult.OK ∧
      (VoidGiftCard e req).calls =
        [GiftCardCall.Authenticate, GiftCardCall.GetAccountInfoByTokenAddress giftCardVault,
          GiftCardCall.GetOriginalGiftCardIssuedIntent giftCardVault] ∧
      ∀ c ∈ (VoidGiftCard e req).calls, c.isWork = false := by
  rw [VoidGiftCard_issuer e req owner giftCardVault info issued howner hvault hauth hinfo
    htype hissued hissuer, if_pos hexp]
  simp [GiftCardCall.isWork]

/-- Witness for C24: the card was created at time 0 with an expiry of 100 and
the request arrives at time 100, exactly at the boundary. -/
theorem VoidGiftCard_expired_witness :
    timeSince 100 0 = 100 ∧
      VoidGiftCard (demoGiftCardEnv 100 (Except.error Error.ErrActionNotFound) none)
          (demoVoidRequest [1]) =
        ⟨Reply.response VoidGiftCardResult.OK,
          [GiftCardCall.Authenticate, GiftCardCall.GetAccountInfoByTokenAddress "card",
            GiftCardCall.GetOriginalGiftCardIssuedIntent "card"]⟩ := by
  have h := VoidGiftCard_expired
    (demoGiftCardEnv 100 (Except.error Error.ErrActionNotFound) none)
    (demoVoidRequest [1]) "alice" "card" ⟨AccountType.REMOTE_SEND_GIFT_CARD, "mint", 0⟩
    ⟨"alice"⟩ rfl rfl rfl rfl rfl rfl rfl (by decide)
  refine ⟨by decide, ?_⟩
  cases hv : VoidGiftCard (demoGiftCardEnv 100 (Except.error Error.ErrActionNotFound) none)
    (demoVoidRequest [1]) with
  | mk reply calls =>
    rw [hv] at h
    simp only at h
    rw [h.1, h.2.1]

/-- C28: `VoidGiftCard` for a non-issuer.  For every authenticated request
where the vault is a gift card account whose issuing intent's
`InitiatorOwnerAccount` differs from the requesting owner, the result is DENIED
and the calls are the authentication and the two reads that identify the
issuer: no lock, no claimed-action lookup and no auto-return.  Two such
requests against environments that differ in the wall clock, the creation
time, the expiry, the claimed action or the auto-return outcome get the same
reply. -/
theorem VoidGiftCard_non_issuer (e : GiftCardEnv) (req : VoidGiftCardRequest)
    (owner giftCardVault : String) (info : AccountInfoRecord) (issued : IssuedIntentRecord)
    (howner : e.NewAccountFromProto req.Owner = Except.ok owner)
    (hvault : e.NewAccountFromProto req.GiftCardVault = Except.ok giftCardVault)
    (hauth : e.Authenticate owner { req with Signature := none } req.Signature = none)
    (hinfo : e.GetAccountInfoByTokenAddress giftCardVault = Except.ok info)
    (htype : info.AccountType = AccountType.REMOTE_SEND_GIFT_CARD)
    (hissued : e.GetOriginalGiftCardIssuedIntent giftCardVault = Except.ok issued)
    (hissuer : issued.InitiatorOwnerAccount ≠ owner) :
    VoidGiftCard e req =
        ⟨Reply.response VoidGiftCardResult.DENIED,
          [GiftCardCall.Authenticate, GiftCardCall.GetAccountInfoByTokenAddress giftCardVault,
            GiftCardCall.GetOriginalGiftCardIssuedIntent giftCardVault]⟩ ∧
      (∀ c ∈ (VoidGiftCard e req).calls, c.isWork = false) ∧
      (∀ (e2 : GiftCardEnv) (info2 : AccountInfoRecord),
        e2.NewAccountFromProto = e.NewAccountFromProto →
        e2.Authenticate = e.Authenticate →
        e2.GetAccountInfoByTokenAddress giftCardVault = Except.ok info2 →
        info2.AccountType = AccountType.REMOTE_SEND_GIFT_CARD →
        e2.GetOriginalGiftCardIssuedIntent = e.GetOriginalGiftCardIssuedIntent →
        VoidGiftCard e2 req = VoidGiftCard e req) := by
  have key : ∀ (e : GiftCardEnv) (info : AccountInfoRecord),
      e.NewAccountFromProto req.Owner = Except.ok owner →
      e.NewAccountFromProto req.GiftCardVault = Except.ok giftCardVault →
      e.Authenticate owner { req with Signature := none } req.Signature = none →
      e.GetAccountInfoByTokenAddress giftCardVault = Except.ok info →
      info.AccountType = AccountType.REMOTE_SEND_GIFT_CARD →
      e.GetOriginalGiftCardIssuedIntent giftCardVault = Except.ok issued →
      VoidGiftCard e req =
        ⟨Reply.response VoidGiftCardResult.DENIED,
          [GiftCardCall.Authenticate, GiftCardCall.GetAccountInfoByTokenAddress giftCardVault,
            GiftCardCall.GetOriginalGiftCardIssuedIntent giftCardVault]⟩ := by
    intro e info h1 h2 h3 h4 h5 h6
    simp [VoidGiftCard, h1, h2, h3, h4, h5, h6, hissuer]
  have h := key e info howner hvault hauth hinfo htype hissued
  refine ⟨h, ?_, ?_⟩
  · rw [h]; simp [GiftCardCall.isWork]
  · intro e2 info2 hproto hauth2 hinfo2 htype2 hissued2
    rw [h]
    exact key e2 info2 (by rw [hproto]; exact howner) (by rw [hproto]; exact hvault)
      (by rw [hauth2]; exact hauth) hinfo2 htype2 (by rw [hissued2]; exact hissued)

/-- Witness for C28: `bob` asks to void the card of `alice`, once while it is
unexpired and unclaimed and once after it expired and was claimed. -/
theorem VoidGiftCard_non_issuer_witness :
    VoidGiftCard (demoGiftCardEnv 50 (Except.error Error.ErrActionNotFound) none)
        (demoVoidRequest [2]) =
      VoidGiftCard (demoGiftCardEnv 100 (Except.ok ⟨some "bob-vault"⟩) none)
        (demoVoidRequest [2]) ∧
      (VoidGiftCard (demoGiftCardEnv 50 (Except.error Error.ErrActionNotFound) none)
        (demoVoidRequest [2])).reply = Reply.response VoidGiftCardResult.DENIED := by
  have h := VoidGiftCard_non_issuer
    (demoGiftCardEnv 50 (Except.error Error.ErrActionNotFound) none) (demoVoidRequest [2])
    "bob" "card" ⟨AccountType.REMOTE_SEND_GIFT_CARD, "mint", 0⟩ ⟨"alice"⟩ rfl rfl rfl rfl rfl
    rfl (by decide)
  refine ⟨?_, by rw [h.1]⟩
  exact (h.2.2 (demoGiftCardEnv 100 (Except.ok ⟨some "bob-vault"⟩) none)
    ⟨AccountType.REMOTE_SEND_GIFT_CARD, "mint", 0⟩ rfl rfl rfl rfl rfl).symm

end transaction

namespace transaction

theorem GetLimits_ok (e : LimitsEnv) (req : GetLimitsRequest) (resp : GetLimitsResponse)
    (h : GetLimits e req = Except.ok resp) :
    ∃ owner rates usdRate consumed,
      e.NewAccountFromProto req.Owner = Except.ok owner ∧
      e.GetAllExchangeRates = Except.ok rates ∧
      rates "usd" = some usdRate ∧
      e.GetTransactedAmountForAntiMoneyLaundering owner req.ConsumedSince =
        Except.ok consumed ∧
      resp.UsdTransacted = consumed ∧
      resp.SendLimitsByCurrency = fun currency =>
        match e.SendLimits currency with
        | none => none
        | some perTransaction =>
          match rates currency with
          | none => none
          | some otherRate =>
            some
              { NextTransaction := Float64.Min perTransaction
                  (Float64.div ((if e.MaxDailyUsdLimit - consumed < 0 then 0
                    else e.MaxDailyUsdLimit - consumed) * otherRate) usdRate)
                MaxPerTransaction := perTransaction
                MaxPerDay := Float64.div (e.MaxDailyUsdLimit * otherRate) usdRate } := by
  unfold GetLimits at h
  cases ho : e.NewAccountFromProto req.Owner with
  | error err => simp [ho] at h
  | ok owner =>
    cases ha : e.Authenticate owner { req with Signature := none } req.Signature with
    | some err => simp [ho, ha] at h
    | none =>
      cases hr : e.GetAllExchangeRates with
      | error err => simp [ho, ha, hr] at h
      | ok rates =>
        cases hu : rates "usd" with
        | none => simp [ho, ha, hr, hu] at h
        | some usdRate =>
          cases hc : e.GetTransactedAmountForAntiMoneyLaundering owner req.ConsumedSince with
          | error err => simp [ho, ha, hr, hu, hc] at h
          | ok consumed =>
            simp only [ho, ha, hr, hu, hc, Except.ok.injEq] at h
            subst h
            exact ⟨owner, rates, usdRate, consumed, rfl, rfl, hu, hc, rfl, rfl⟩

theorem usdLeft_eq_max (limit consumed : ℚ) :
    (if limit - consumed < 0 then 0 else limit - consumed) = max 0 (limit - consumed) := by
  split
  · rename_i h; exact (max_eq_left (le_of_lt h)).symm
  · rename_i h; exact (max_eq_right (not_lt.mp h)).symm

theorem Float64.Min_div_of_ne_zero (cap x y : ℚ) (hy : y ≠ 0) :
    Float64.Min cap (Float64.div x y) = Float64.finite (min cap (x / y)) := by
  simp [Float64.Min, Float64.div, hy]

theorem Float64.Min_div_zero (cap x : ℚ) :
    Float64.Min cap (Float64.div x 0) =
      if 0 < x then Float64.finite cap
      else if x < 0 then Float64.negInf
      else Float64.NaN := by
  unfold Float64.div
  simp only [↓reduceIte]
  split
  · rfl
  · split <;> rfl

/-- A `usd` rate of zero: the division does not fail, and `NextTransaction` is
the cap when something is left of the daily limit, and `NaN` when nothing is
left, so it is not the value `min(cap, 0)` that a quotient `x / 0 = 0` would
give. -/
theorem GetLimits_usd_rate_zero (consumed : ℚ) :
    ∃ resp, GetLimits (rateLimitsEnv 0 consumed) ⟨[1], 0, none⟩ = Except.ok resp ∧
      (resp.SendLimitsByCurrency "cad").map (fun l => l.NextTransaction) =
        some (if consumed < 250 then Float64.finite 300 else Float64.NaN) := by
  refine ⟨_, rfl, ?_⟩
  simp only [rateLimitsEnv, String.reduceEq, ↓reduceIte, Option.map_some',
    Option.some.injEq, Float64.Min_div_zero]
  by_cases hc : consumed < 250
  · have h1 : ¬ (250 - consumed < 0) := by linarith
    have h2 : (0 : ℚ) < (250 - consumed) * (3 / 2) := by nlinarith
    simp [hc, h1, h2]
  · have h1 : (250 : ℚ) - consumed < 0 ∨ (250 : ℚ) - consumed = 0 := by
      rcases lt_or_eq_of_le (not_lt.mp hc) with h | h
      · left; linarith
      · right; linarith
    rcases h1 with h1 | h1 <;> simp [hc, h1]

/-- C25: when `GetLimits` returns its OK response (amounts and rates taken as
exact rationals, before the `float32` conversion): a currency appears in the
response exactly when it is in `SendLimits` and has an exchange rate; for such
a currency with cap `cap` and rate `rate`, `MaxPerTransaction = cap` and, the
`usd` rate not being zero, `NextTransaction` is the finite number
`min(cap, remaining_daily_usd * (rate / usdRate))` with
`remaining_daily_usd = max(0, MaxDailyUsdLimit - consumed)`; it never exceeds
`MaxPerTransaction`, and it is not negative when the cap and the rates are not
negative. -/
theorem GetLimits_next_transaction (e : LimitsEnv) (req : GetLimitsRequest)
    (resp : GetLimitsResponse) (h : GetLimits e req = Except.ok resp) :
    ∃ owner rates usdRate consumed,
      e.NewAccountFromProto req.Owner = Except.ok owner ∧
      e.GetAllExchangeRates = Except.ok rates ∧
      rates "usd" = some usdRate ∧
      e.GetTransactedAmountForAntiMoneyLaundering owner req.ConsumedSince =
        Except.ok consumed ∧
      (∀ currency, resp.SendLimitsByCurrency currency = none ↔
        (e.SendLimits currency = none ∨ rates currency = none)) ∧
      (∀ currency cap rate, e.SendLimits currency = some cap → rates currency = some rate →
        ∃ limit, resp.SendLimitsByCurrency currency = some limit ∧
          limit.MaxPerTransaction = cap ∧
          (usdRate ≠ 0 →
            ∃ next : ℚ, limit.NextTransaction = Float64.finite next ∧
              next = min cap (max 0 (e.MaxDailyUsdLimit - consumed) * (rate / usdRate)) ∧
              next ≤ limit.MaxPerTransaction ∧
              (0 ≤ cap → 0 ≤ rate → 0 ≤ usdRate → 0 ≤ next))) := by
  obtain ⟨owner, rates, usdRate, consumed, ho, hr, hu, hc, -, hmap⟩ := GetLimits_ok e req resp h
  refine ⟨owner, rates, usdRate, consumed, ho, hr, hu, hc, ?_, ?_⟩
  · intro currency
    rw [hmap]
    cases hs : e.SendLimits currency with
    | none => simp [hs]
    | some cap =>
      cases hrate : rates currency with
      | none => simp [hs, hrate]
      | some rate => simp [hs, hrate]
  · intro currency cap rate hs hrate
    rw [hmap]
    simp only [hs, hrate, Option.some.injEq, exists_eq_left', true_and]
    intro husd0
    refine ⟨_, Float64.Min_div_of_ne_zero _ _ _ husd0, ?_, min_le_left _ _, ?_⟩
    · rw [usdLeft_eq_max, mul_div_assoc]
    · intro hcap hrate0 husd
      rw [usdLeft_eq_max, mul_div_assoc]
      exact le_min hcap (mul_nonneg (le_max_left _ _) (div_nonneg hrate0 husd))

/-- Witness for C25: of 250 USD per day 50 are consumed; `cad` at 3/2 per USD
is limited by the cap 300, `eur` at 1/2 by the cap 50, and `jpy`, which has no
rate, is omitted. -/
theorem GetLimits_next_transaction_witness :
    ∃ resp, GetLimits demoLimitsEnv ⟨[1], 0, none⟩ = Except.ok resp ∧
      (resp.SendLimitsByCurrency "cad").map (fun l => l.NextTransaction) =
        some (Float64.finite 300) ∧
      (resp.SendLimitsByCurrency "eur").map (fun l => l.NextTransaction) =
        some (Float64.finite 50) ∧
      resp.SendLimitsByCurrency "jpy" = none := by
  cases hg : GetLimits demoLimitsEnv ⟨[1], 0, none⟩ with
  | error err => simp [GetLimits, demoLimitsEnv] at hg
  | ok resp =>
    obtain ⟨owner, rates, usdRate, consumed, -, hr, hu, hc, hnone, hsome⟩ :=
      GetLimits_next_transaction demoLimitsEnv ⟨[1], 0, none⟩ resp hg
    simp only [demoLimitsEnv, Except.ok.injEq] at hr hc
    subst hr hc
    simp only [String.reduceEq, ↓reduceIte, Option.some.injEq] at hu
    subst hu
    refine ⟨resp, rfl, ?_, ?_, ?_⟩
    · obtain ⟨l, hl, -, hn⟩ := hsome "cad" 300 (3 / 2) (by simp [demoLimitsEnv])
        (by simp)
      obtain ⟨next, hnext, hval, -⟩ := hn (by norm_num)
      rw [hl, Option.map_some', hnext, hval]
      norm_num [demoLimitsEnv]
    · obtain ⟨l, hl, -, hn⟩ := hsome "eur" 50 (1 / 2) (by simp [demoLimitsEnv])
        (by simp)
      obtain ⟨next, hnext, hval, -⟩ := hn (by norm_num)
      rw [hl, Option.map_some', hnext, hval]
      norm_num [demoLimitsEnv]
    · exact (hnone "jpy").mpr (Or.inr (by simp))

end transaction

/-! ## The claims about the swap worker -/

namespace swap

/-- C26: swap cancellation on timeout, for a `validateSwapState` that accepts
exactly the expected state.  For a record in state Funded whose funding intent
is read: when the time since the intent's creation exceeds
`clientTimeoutToSwap` and the cancellation transaction is built,
`handleStateFunded` calls `markSwapCancelling` with the record and that newly
built transaction and returns what it returns; when the time does not exceed
the timeout it returns nil, leaves the store unchanged and builds no
transaction.  A record in any other state is rejected with an error, without
any call and without change. -/
theorem handleStateFunded_timeout {σ : Type} (e : Env σ) (st : σ) (record : Record)
    (hvalidate : e.validateSwapState record [State.StateFunded] = none ↔
      record.State = State.StateFunded) :
    (record.State = State.StateFunded →
      ∀ intentRecord, e.GetIntent record.FundingId = Except.ok intentRecord →
        (transaction.timeSince e.now intentRecord.CreatedAt > e.clientTimeoutToSwap →
          ∀ txn, e.makeCancellationTransaction record = Except.ok txn →
            handleStateFunded e st record =
              ⟨some (e.markSwapCancelling st record txn).1,
                (e.markSwapCancelling st record txn).2,
                [Call.GetIntent record.FundingId, Call.makeCancellationTransaction,
                  Call.markSwapCancelling txn]⟩) ∧
        (¬ transaction.timeSince e.now intentRecord.CreatedAt > e.clientTimeoutToSwap →
          handleStateFunded e st record =
            ⟨some none, st, [Call.GetIntent record.FundingId]⟩)) ∧
    (record.State ≠ State.StateFunded →
      ∃ err, handleStateFunded e st record = ⟨some (some err), st, []⟩) := by
  refine ⟨?_, ?_⟩
  · intro hstate intentRecord hintent
    have hv := hvalidate.mpr hstate
    refine ⟨?_, ?_⟩
    · intro htime txn htxn
      simp [handleStateFunded, hv, hintent, htime, htxn]
    · intro htime
      simp [handleStateFunded, hv, hintent, htime]
  · intro hstate
    cases hv : e.validateSwapState record [State.StateFunded] with
    | none => exact absurd (hvalidate.mp hv) hstate
    | some err => exact ⟨err, by simp [handleStateFunded, hv]⟩

/-- Witness for C26: a Funded swap whose funding intent was created at time 0,
handled at time 101 with a timeout of 100. -/
theorem handleStateFunded_timeout_witness :
    (handleStateFunded (demoEnv 101 (none, none)) ⟨demoSwap State.StateFunded, false, 0⟩
        (demoSwap State.StateFunded)).store.record.State = State.StateCancelling ∧
      (handleStateFunded (demoEnv 100 (none, none)) ⟨demoSwap State.StateFunded, false, 0⟩
        (demoSwap State.StateFunded)).store = ⟨demoSwap State.StateFunded, false, 0⟩ := by
  have h := handleStateFunded_timeout (demoEnv 101 (none, none))
    ⟨demoSwap State.StateFunded, false, 0⟩ (demoSwap State.StateFunded)
    (by decide)
  have h2 := handleStateFunded_timeout (demoEnv 100 (none, none))
    ⟨demoSwap State.StateFunded, false, 0⟩ (demoSwap State.StateFunded)
    (by decide)
  rw [((h.1 rfl ⟨0⟩ rfl).1 (by decide) [1, 2, 3] rfl), ((h2.1 rfl ⟨0⟩ rfl).2 (by decide))]
  exact ⟨rfl, rfl⟩

/-- Counterexample to C27 as stated: the cancellation transaction is found at
the finalized commitment but failed on chain; the swap is marked Cancelled
although `updateBalancesForCancelledSwap` was never called. -/
theorem handleStateCancelling_failed_transaction_counterexample :
    (handleStateCancelling (demoEnv 100 (some ⟨some (Error.other 1), none⟩, none))
        ⟨demoSwap State.StateCancelling, false, 0⟩ (demoSwap State.StateCancelling)).calls =
        [Call.GetBlockchainTransaction "cancel", Call.markSwapCancelled] ∧
      (handleStateCancelling (demoEnv 100 (some ⟨some (Error.other 1), none⟩, none))
        ⟨demoSwap State.StateCancelling, false, 0⟩ (demoSwap State.StateCancelling)).store =
        ⟨demoSwap State.StateCancelled, false, 0⟩ := by
  decide

/-- C27 (amended): for a swap record in state Cancelling (accepted by
`validateSwapState`, with a transaction signature).  (1) When the cancellation
transaction is found at the finalized commitment without an on-chain error,
`updateBalancesForCancelledSwap` is called first; if it succeeds,
`markSwapCancelled` is called after it on the store it left, and if it fails
the handler returns the wrapped error without marking the swap.  (2) When the
transaction is found but failed on chain, the swap is marked Cancelled without
restoring balances.  (3) While the transaction is not found, the swap is not
marked and the transaction is resubmitted. -/
theorem handleStateCancelling_finalized {σ : Type} (e : Env σ) (st : σ) (record : Record)
    (signature : String)
    (hvalidate : e.validateSwapState record [State.StateCancelling] = none)
    (hsig : record.TransactionSignature = some signature) :
    (∀ txn err, e.GetBlockchainTransaction signature = (some txn, err) →
      (err = none ∨ err = some Error.ErrSignatureNotFound) →
      txn.Err = none → txn.MetaErr = none →
      ((e.updateBalancesForCancelledSwap st record).1 = none →
        handleStateCancelling e st record =
          ⟨some (e.markSwapCancelled (e.updateBalancesForCancelledSwap st record).2 record).1,
            (e.markSwapCancelled (e.updateBalancesForCancelledSwap st record).2 record).2,
            [Call.GetBlockchainTransaction signature, Call.updateBalancesForCancelledSwap,
              Call.markSwapCancelled]⟩) ∧
      (∀ inner, (e.updateBalancesForCancelledSwap st record).1 = some inner →
        handleStateCancelling e st record =
          ⟨some (some (Error.wrap inner "error updating balances")),
            (e.updateBalancesForCancelledSwap st record).2,
            [Call.GetBlockchainTransaction signature,
              Call.updateBalancesForCancelledSwap]⟩)) ∧
    (∀ txn err, e.GetBlockchainTransaction signature = (some txn, err) →
      (err = none ∨ err = some Error.ErrSignatureNotFound) →
      (txn.Err ≠ none ∨ txn.MetaErr ≠ none) →
      handleStateCancelling e st record =
        ⟨some (e.markSwapCancelled st record).1, (e.markSwapCancelled st record).2,
          [Call.GetBlockchainTransaction signature, Call.markSwapCancelled]⟩) ∧
    (∀ err, e.GetBlockchainTransaction signature = (none, err) →
      (err = none ∨ err = some Error.ErrSignatureNotFound) →
      handleStateCancelling e st record =
        ⟨some (e.submitTransaction st record).1, (e.submitTransaction st record).2,
          [Call.GetBlockchainTransaction signature, Call.submitTransaction]⟩) := by
  have herr : ∀ err : Option Error, (err = none ∨ err = some Error.ErrSignatureNotFound) →
      ¬ (err ≠ none ∧ err ≠ some Error.ErrSignatureNotFound) := by
    intro err h
    rcases h with h | h <;> simp [h]
  refine ⟨?_, ?_, ?_⟩
  · intro txn err hget hok herr1 herr2
    refine ⟨?_, ?_⟩
    · intro hupd
      simp [handleStateCancelling, hvalidate, hsig, hget, herr err hok, herr1, herr2, hupd]
    · intro inner hupd
      simp [handleStateCancelling, hvalidate, hsig, hget, herr err hok, herr1, herr2, hupd]
  · intro txn err hget hok hfailed
    simp [handleStateCancelling, hvalidate, hsig, hget, herr err hok, hfailed]
  · intro err hget hok
    simp [handleStateCancelling, hvalidate, hsig, hget, herr err hok]

/-- Witness for C27 (amended): the cancellation transaction is finalized
without error; the balances are restored and the swap is Cancelled. -/
theorem handleStateCancelling_finalized_witness :
    (handleStateCancelling (demoEnv 100 (some ⟨none, none⟩, none))
        ⟨demoSwap State.StateCancelling, false, 0⟩ (demoSwap State.StateCancelling)).store =
        ⟨demoSwap State.StateCancelled, true, 0⟩ ∧
      (handleStateCancelling (demoEnv 100 (some ⟨none, none⟩, none))
        ⟨demoSwap State.StateCancelling, false, 0⟩ (demoSwap State.StateCancelling)).calls =
        [Call.GetBlockchainTransaction "cancel", Call.updateBalancesForCancelledSwap,
          Call.markSwapCancelled] := by
  have h := ((handleStateCancelling_finalized (demoEnv 100 (some ⟨none, none⟩, none))
    ⟨demoSwap State.StateCancelling, false, 0⟩ (demoSwap State.StateCancelling) "cancel"
    rfl rfl).1 ⟨none, none⟩ none rfl (Or.inl rfl) rfl rfl).1 rfl
  rw [h]
  exact ⟨rfl, rfl⟩

end swap
